import Mathlib

/-! DCP-o-matic playback core

A shallow embedding of `src/lib/butler.cc`, followed by `dcp_content.cc`,
`subtitle_decoder.cc`, `player.cc` and `text_content.cc`.  The Butler is a monitor: every
member function runs with `_mutex` held, so each call is modelled as one atomic
function on the Butler state.  Waiting on a condition variable is modelled by a
call that has no result in the current state (`none`).  Exceptions are modelled
with `Except`.

The header `butler.h` and the three ring-buffer classes are not part of the
sources at hand; the ring buffers are modelled from the specification's
description of them (a FIFO of timestamped values) and are marked as such.
-/

namespace Dcpomatic

/-- Timeline time: a signed count of ticks of the fixed time base. `DCPTime()` is `0`. -/
abbrev DCPTime := Int

/-- A decoded frame with its compositing parameters; only its identity matters to the Butler. -/
structure PlayerVideo where
  id : Nat
deriving DecidableEq, Repr

/-- Planar PCM audio: `channels × frames`; the samples themselves do not matter to the Butler. -/
structure AudioBuffers where
  channels : Nat
  frames : Nat
deriving DecidableEq, Repr

/-- The content-to-DCP channel mapping held by the Butler; only its identity matters here. -/
structure AudioMapping where
  id : Nat
deriving DecidableEq, Repr

/-- The text payload of a caption cue. -/
structure PlayerText where
  id : Nat
deriving DecidableEq, Repr

/-- A DCP text track. -/
structure DCPTextTrack where
  id : Nat
deriving DecidableEq, Repr

/-- A period of timeline time. -/
structure DCPTimePeriod where
  from_time : DCPTime
  to_time : DCPTime
deriving DecidableEq, Repr

/-- The `ChangeType` of a `Player::Change` signal. -/
inductive ChangeType where
  | CHANGE_TYPE_PENDING
  | CHANGE_TYPE_DONE
  | CHANGE_TYPE_CANCELLED
deriving DecidableEq, Repr

/-- The `TextType` of a `Player::Text` signal. -/
inductive TextType where
  | TEXT_OPEN_SUBTITLE
  | TEXT_CLOSED_CAPTION
deriving DecidableEq, Repr

/-- The error codes `Butler::get_video` writes through its `Error*` argument. -/
inductive Error where
  | NONE
  | AGAIN
deriving DecidableEq, Repr

/-- The exception thrown by `should_run` and by `DCPOMATIC_ASSERT`. -/
inductive ProgrammingError where
  | video_overrun (video audio : Nat) (pos : Option DCPTime)
  | audio_overrun (video audio : Nat) (pos : Option DCPTime)
  | assertion_failed
deriving DecidableEq, Repr

deriving instance DecidableEq for Except

/-! ## Ring buffers -/

/-- Modelled from the spec: `VideoRingBuffers` (video_ring_buffers.cc is absent), a FIFO of
(frame, time) pairs; the frame is a `shared_ptr`, so it may be null (`none`). -/
structure VideoRingBuffers where
  data : List (Option PlayerVideo × DCPTime)
deriving DecidableEq, Repr

namespace VideoRingBuffers

/-- Modelled from the spec: `put` enqueues at the back. -/
def put (b : VideoRingBuffers) (frame : Option PlayerVideo) (time : DCPTime) : VideoRingBuffers :=
  ⟨b.data ++ [(frame, time)]⟩

/-- Modelled from the spec: `get` returns the head and pops it.  The spec does not say what an empty
buffer gives; the model returns the null pair, which is what `Butler::get_video` itself returns
for an empty buffer. -/
def get (b : VideoRingBuffers) : (Option PlayerVideo × DCPTime) × VideoRingBuffers :=
  match b.data with
  | [] => ((none, 0), b)
  | x :: rest => (x, ⟨rest⟩)

/-- Modelled from the spec: `size` is the number of queued frames. -/
def size (b : VideoRingBuffers) : Nat := b.data.length

/-- Modelled from the spec: `empty` holds when nothing is queued. -/
def empty (b : VideoRingBuffers) : Bool := b.data.isEmpty

/-- Modelled from the spec: `clear` drops everything. -/
def clear (_b : VideoRingBuffers) : VideoRingBuffers := ⟨[]⟩

end VideoRingBuffers

/-- Modelled from the spec: `AudioRingBuffers` (audio_ring_buffers.cc is absent), a FIFO of
(buffer, time) pairs consumed frame by frame; `used_in_head` counts the frames of the head
buffer that have already been handed out. -/
structure AudioRingBuffers where
  buffers : List (AudioBuffers × DCPTime)
  used_in_head : Nat
deriving DecidableEq, Repr

namespace AudioRingBuffers

/-- Modelled from the spec: `put` enqueues at the back (the frame rate only serves a
continuity check). -/
def put (b : AudioRingBuffers) (data : AudioBuffers) (time : DCPTime) (_frame_rate : Nat) :
    AudioRingBuffers :=
  { b with buffers := b.buffers ++ [(data, time)] }

/-- Modelled from the spec: `size` is the number of frames still queued. -/
def size (b : AudioRingBuffers) : Nat :=
  (b.buffers.map (fun x => x.1.frames)).sum - b.used_in_head

/-- Modelled from the spec: `peek` is the time of the head buffer, if there is one. -/
def peek (b : AudioRingBuffers) : Option DCPTime :=
  b.buffers.head?.map (fun x => x.2)

/-- Modelled from the spec: `clear` drops everything. -/
def clear (_b : AudioRingBuffers) : AudioRingBuffers := ⟨[], 0⟩

/-- Modelled from the spec: the queue left after `frames` frames have been taken from the front;
a head buffer that is used up is popped, and an underrun leaves the queue empty. -/
def take : List (AudioBuffers × DCPTime) → Nat → Nat → AudioRingBuffers
  | [], _, _ => ⟨[], 0⟩
  | x :: rest, used, frames =>
    if frames < x.1.frames - used then ⟨x :: rest, used + frames⟩
    else take rest 0 (frames - (x.1.frames - used))

/-- Modelled from the spec: `get(out, channels, frames)` copies up to `frames` frames out and
returns the timestamp of the head buffer, or unset if the buffer was empty.  The samples
copied to `out` are not modelled. -/
def get (b : AudioRingBuffers) (frames : Nat) : Option DCPTime × AudioRingBuffers :=
  (b.peek, if frames = 0 then b else take b.buffers b.used_in_head frames)

end AudioRingBuffers

/-- The element type of the closed-caption ring buffer, `TextRingBuffers::Data`. -/
structure TextRingBuffers.Data where
  text : PlayerText
  track : DCPTextTrack
  period : DCPTimePeriod
deriving DecidableEq, Repr

/-- Modelled from the spec: `TextRingBuffers` (text_ring_buffers.cc is absent), a FIFO of
caption cues. -/
structure TextRingBuffers where
  data : List TextRingBuffers.Data
deriving DecidableEq, Repr

namespace TextRingBuffers

/-- Modelled from the spec: `put` enqueues at the back. -/
def put (b : TextRingBuffers) (text : PlayerText) (track : DCPTextTrack) (period : DCPTimePeriod) :
    TextRingBuffers :=
  ⟨b.data ++ [⟨text, track, period⟩]⟩

/-- Modelled from the spec: `get` is a non-blocking pop of the next cue. -/
def get (b : TextRingBuffers) : Option Data × TextRingBuffers :=
  match b.data with
  | [] => (none, b)
  | x :: rest => (some x, ⟨rest⟩)

/-- Modelled from the spec: `clear` drops everything. -/
def clear (_b : TextRingBuffers) : TextRingBuffers := ⟨[]⟩

end TextRingBuffers

/-! ## Butler state -/

/-- Minimum video readahead in frames. -/
def MINIMUM_VIDEO_READAHEAD : Nat := 10
/-- Maximum video readahead in frames. -/
def MAXIMUM_VIDEO_READAHEAD : Nat := 48
/-- Minimum audio readahead in frames. -/
def MINIMUM_AUDIO_READAHEAD : Nat := 48000 * MINIMUM_VIDEO_READAHEAD / 24
/-- Maximum audio readahead in frames. -/
def MAXIMUM_AUDIO_READAHEAD : Nat := 48000 * MAXIMUM_VIDEO_READAHEAD / 24

/-- The data members of `Butler` that its member functions read or write.  `suspended` is the
C++ `int _suspended`; the model follows it as a mathematical integer (the counter would need
2^31 unmatched events to leave the range of `int`). -/
structure Butler where
  _video : VideoRingBuffers
  _audio : AudioRingBuffers
  _closed_caption : TextRingBuffers
  _pending_seek_position : Option DCPTime
  _pending_seek_accurate : Bool
  _suspended : Int
  _finished : Bool
  _died : Bool
  _stop_thread : Bool
  _audio_mapping : AudioMapping
  _audio_channels : Nat
  _disable_audio : Bool
  _awaiting : Option DCPTime
deriving DecidableEq, Repr

namespace Butler

/-- The state set up by the constructor `Butler::Butler` (member initialisers; the ring buffers
and the optionals are default-constructed). -/
def init (audio_mapping : AudioMapping) (audio_channels : Nat) : Butler :=
  { _video := ⟨[]⟩
    _audio := ⟨[], 0⟩
    _closed_caption := ⟨[]⟩
    _pending_seek_position := none
    _pending_seek_accurate := false
    _suspended := 0
    _finished := false
    _died := false
    _stop_thread := false
    _audio_mapping := audio_mapping
    _audio_channels := audio_channels
    _disable_audio := false
    _awaiting := none }

/-- The body of `Butler::should_run` (the two `LOG_WARNING`s have no effect on the state or the result). -/
def should_run (s : Butler) : Except ProgrammingError Bool :=
  if s._video.size ≥ MAXIMUM_VIDEO_READAHEAD * 10 then
    .error (.video_overrun s._video.size s._audio.size s._audio.peek)
  else if s._audio.size ≥ MAXIMUM_AUDIO_READAHEAD * 10 then
    .error (.audio_overrun s._video.size s._audio.size s._audio.peek)
  else if s._stop_thread || s._finished || s._died || (s._suspended != 0) then
    .ok false
  else if decide (s._video.size < MINIMUM_VIDEO_READAHEAD)
      || (!s._disable_audio && decide (s._audio.size < MINIMUM_AUDIO_READAHEAD)) then
    .ok true
  else
    .ok (decide (s._video.size < MAXIMUM_VIDEO_READAHEAD)
      && decide (s._audio.size < MAXIMUM_AUDIO_READAHEAD))

/-- What a call of `Butler::get_video` leaves behind: the Butler state, the value written to
`*e` (if any), and the returned pair. -/
structure GetVideoResult where
  butler : Butler
  written : Option Error
  frame : Option PlayerVideo
  time : DCPTime
deriving DecidableEq, Repr

/-- The body of `Butler::get_video`.  `e` says whether the `Error*` argument is non-null.  The
result is `none` in the states in which the call waits on `_arrived`. -/
def get_video (s : Butler) (e : Bool) : Option GetVideoResult :=
  if s._suspended != 0 then
    some ⟨s, if e then some Error.AGAIN else none, none, 0⟩
  else if s._video.empty && !s._finished && !s._died then
    none
  else if s._video.empty then
    some ⟨s, if e then some Error.NONE else none, none, 0⟩
  else
    let r := s._video.get
    some ⟨{ s with _video := r.2 }, none, r.1.1, r.1.2⟩

/-- The body of `Butler::get_closed_caption`. -/
def get_closed_caption (s : Butler) : Option TextRingBuffers.Data × Butler :=
  let r := s._closed_caption.get
  (r.1, { s with _closed_caption := r.2 })

/-- The body of `Butler::seek_unlocked`. -/
def seek_unlocked (s : Butler) (position : DCPTime) (accurate : Bool) : Butler :=
  if s._died then s
  else
    { s with
      _finished := false
      _pending_seek_position := some position
      _pending_seek_accurate := accurate
      _video := s._video.clear
      _audio := s._audio.clear
      _closed_caption := s._closed_caption.clear }

/-- The body of `Butler::seek`. -/
def seek (s : Butler) (position : DCPTime) (accurate : Bool) : Butler :=
  seek_unlocked { s with _awaiting := none } position accurate

/-- The body of `Butler::video`. -/
def video (s : Butler) (video : Option PlayerVideo) (time : DCPTime) : Butler :=
  if s._pending_seek_position.isSome then s
  else { s with _video := s._video.put video time }

/-- Modelled from the spec: `remap` (util.cc is absent) maps the buffer onto the Butler's
channel count, keeping its length. -/
def remap (input : AudioBuffers) (output_channels : Nat) (_map : AudioMapping) : AudioBuffers :=
  ⟨output_channels, input.frames⟩

/-- The body of `Butler::audio`. -/
def audio (s : Butler) (audio : AudioBuffers) (time : DCPTime) (frame_rate : Nat) : Butler :=
  if s._pending_seek_position.isSome || s._disable_audio then s
  else { s with _audio := s._audio.put (remap audio s._audio_channels s._audio_mapping) time frame_rate }

/-- The body of `Butler::get_audio`. -/
def get_audio (s : Butler) (frames : Nat) : Option DCPTime × Butler :=
  let r := s._audio.get frames
  (r.1, { s with _audio := r.2 })

/-- The body of `Butler::disable_audio`. -/
def disable_audio (s : Butler) : Butler :=
  { s with _disable_audio := true }

/-- The body of `Butler::player_change`. -/
def player_change (s : Butler) (type : ChangeType) (frequent : Bool) : Butler :=
  match type with
  | .CHANGE_TYPE_PENDING => { s with _suspended := s._suspended + 1 }
  | .CHANGE_TYPE_DONE =>
    let s1 := { s with _suspended := s._suspended - 1 }
    if s1._died || s1._pending_seek_position.isSome || frequent then s1
    else
      let r := s1._video.get
      let s2 := { s1 with _video := r.2 }
      let next : DCPTime := r.1.2
      let seek_to : DCPTime :=
        match s2._awaiting with
        | some a => if a > next then a else next
        | none => next
      let s3 := seek_unlocked s2 seek_to true
      { s3 with _awaiting := some seek_to }
  | .CHANGE_TYPE_CANCELLED => { s with _suspended := s._suspended - 1 }

/-- The body of `Butler::text`; `DCPOMATIC_ASSERT (track)` throws when the track is unset. -/
def text (s : Butler) (pt : PlayerText) (type : TextType) (track : Option DCPTextTrack)
    (period : DCPTimePeriod) : Except ProgrammingError Butler :=
  if type ≠ TextType.TEXT_CLOSED_CAPTION then .ok s
  else
    match track with
    | none => .error .assertion_failed
    | some t => .ok { s with _closed_caption := s._closed_caption.put pt t period }

/-- The `catch (...)` handlers of `Butler::thread` and `Butler::prepare`: the Butler has died. -/
def thread_died (s : Butler) : Butler :=
  { s with _died := true }

/-- The `catch (boost::thread_interrupted)` handler of `Butler::thread`. -/
def thread_interrupted (s : Butler) : Butler :=
  { s with _finished := true }

/-- The driver's evaluation of `should_run()` in `Butler::thread`: an exception ends the thread
in its `catch (...)` handler. -/
def thread_should_run (s : Butler) : Butler :=
  match s.should_run with
  | .ok _ => s
  | .error _ => s.thread_died

/-- The driver's "do any seek that has been requested" step in `Butler::thread`. -/
def thread_seek (s : Butler) : Butler :=
  if s._pending_seek_position.isSome then
    { s with _finished := false, _pending_seek_position := none }
  else s

/-- The driver's handling of the result `r` of `_player->pass ()` in `Butler::thread`. -/
def thread_pass (s : Butler) (r : Bool) : Butler :=
  if r then { s with _finished := true } else s

/-- The locked block of the destructor `Butler::~Butler`. -/
def stop (s : Butler) : Butler :=
  { s with _stop_thread := true }

/-- One operation on a Butler: a call of a public member function, a callback from the Player,
or a step of the driver thread. -/
inductive Op where
  | get_video (e : Bool)
  | get_closed_caption
  | seek (position : DCPTime) (accurate : Bool)
  | video (video : Option PlayerVideo) (time : DCPTime)
  | audio (audio : AudioBuffers) (time : DCPTime) (frame_rate : Nat)
  | get_audio (frames : Nat)
  | disable_audio
  | player_change (type : ChangeType) (frequent : Bool)
  | text (pt : PlayerText) (type : TextType) (track : Option DCPTextTrack) (period : DCPTimePeriod)
  | thread_should_run
  | thread_seek
  | thread_pass (r : Bool)
  | thread_interrupted
  | thread_died
  | stop
deriving DecidableEq, Repr

/-- The state after one operation.  A `get_video` that has to wait leaves the state as it is; an
exception thrown by `text` unwinds through `Player::pass` into the driver's `catch (...)`. -/
def step (s : Butler) : Op → Butler
  | .get_video e =>
    match s.get_video e with
    | some r => r.butler
    | none => s
  | .get_closed_caption => s.get_closed_caption.2
  | .seek position accurate => s.seek position accurate
  | .video v time => s.video v time
  | .audio a time frame_rate => s.audio a time frame_rate
  | .get_audio frames => (s.get_audio frames).2
  | .disable_audio => s.disable_audio
  | .player_change type frequent => s.player_change type frequent
  | .text pt type track period =>
    match s.text pt type track period with
    | .ok s1 => s1
    | .error _ => s.thread_died
  | .thread_should_run => s.thread_should_run
  | .thread_seek => s.thread_seek
  | .thread_pass r => s.thread_pass r
  | .thread_interrupted => s.thread_interrupted
  | .thread_died => s.thread_died
  | .stop => s.stop

/-- The state after a sequence of operations, oldest first. -/
def run (s : Butler) (ops : List Op) : Butler :=
  ops.foldl step s

/-- The contribution of one operation to the suspension count: `+1` for a PENDING change, `-1`
for a DONE or CANCELLED change, nothing otherwise. -/
def Op.suspension : Op → Int
  | .player_change .CHANGE_TYPE_PENDING _ => 1
  | .player_change .CHANGE_TYPE_DONE _ => -1
  | .player_change .CHANGE_TYPE_CANCELLED _ => -1
  | _ => 0

/-- The number of PENDING changes in a sequence minus the number of DONE and CANCELLED ones. -/
def unmatched_pending (ops : List Op) : Int :=
  (ops.map Op.suspension).sum

/-- A Butler with an empty video queue and one audio buffer of `MAXIMUM_AUDIO_READAHEAD`
frames: the state after the Player has delivered that buffer to a fresh Butler. -/
def audio_full_video_empty : Butler :=
  (init ⟨0⟩ 6).audio ⟨6, 96000⟩ 0 48000

/-- A Butler with an empty video queue and one audio buffer of ten times
`MAXIMUM_AUDIO_READAHEAD` frames. -/
def audio_at_fatal_bound : Butler :=
  (init ⟨0⟩ 6).audio ⟨6, 960000⟩ 0 48000

/-- A Butler on which a seek to time 0 is pending. -/
def seek_pending : Butler :=
  (init ⟨0⟩ 6).seek 0 true

end Butler

/-! ## DCPContent (src/lib/dcp_content.cc) -/

/-- An encrypted KDM; only its identity matters. -/
structure EncryptedKDM where
  id : Nat
deriving DecidableEq, Repr

/-- The data members of `DCPContent` that decide whether it can be played. -/
structure DCPContent where
  _name : String
  _has_subtitles : Bool
  _encrypted : Bool
  _kdm : Option EncryptedKDM
  _kdm_valid : Bool
deriving DecidableEq, Repr

namespace DCPContent

/-- The member initialisers of the constructor `DCPContent::DCPContent (film, path)`. -/
def create : DCPContent :=
  { _name := "", _has_subtitles := false, _encrypted := false, _kdm := none, _kdm_valid := false }

/-- The locked block of `DCPContent::examine`, given what the examiner reports. -/
def examine (c : DCPContent) (name : String) (has_subtitles encrypted kdm_valid : Bool) :
    DCPContent :=
  { c with _name := name, _has_subtitles := has_subtitles, _encrypted := encrypted,
           _kdm_valid := kdm_valid }

/-- The body of `DCPContent::add_kdm`. -/
def add_kdm (c : DCPContent) (k : EncryptedKDM) : DCPContent :=
  { c with _kdm := some k }

/-- The body of `DCPContent::can_be_played`. -/
def can_be_played (c : DCPContent) : Bool :=
  !c._encrypted || c._kdm_valid

end DCPContent

/-! ## SubtitleDecoder (src/lib/subtitle_decoder.cc) -/

/-- Content time: a signed count of ticks of the time base. -/
abbrev ContentTime := Int

/-- An RGB colour, `dcp::Colour`. -/
structure Colour where
  r : Int
  g : Int
  b : Int
deriving DecidableEq, Repr

/-- The subtitle effect, `dcp::Effect`. -/
inductive Effect where
  | NONE
  | BORDER
  | SHADOW
deriving DecidableEq, Repr

/-- Vertical alignment, `dcp::VAlign`. -/
inductive VAlign where
  | VALIGN_TOP
  | VALIGN_CENTER
  | VALIGN_BOTTOM
deriving DecidableEq, Repr

/-- A styled run of subtitle text, `dcp::SubtitleString`, with the constructor arguments that
`emit_text_start` passes; floating-point values are held as exact rationals. -/
structure SubtitleString where
  font : String
  italic : Bool
  bold : Bool
  underline : Bool
  colour : Colour
  size : Int
  aspect_adjust : ℚ
  in_seconds : ℚ
  out_seconds : ℚ
  h_position : ℚ
  v_position : ℚ
  v_align : VAlign
  text : String
  effect : Effect
  effect_colour : Colour
  fade_up_seconds : ℚ
  fade_down_seconds : ℚ
deriving DecidableEq

/-- The rest of the input from position `skip` on, with every occurrence of `search` replaced by
`format`, scanning left to right; `skip` counts the characters still covered by the last
match.  This is `boost::algorithm::replace_all` on character sequences. -/
def replace_all_from (search format : List Char) : List Char → Nat → List Char
  | [], _ => []
  | _ :: cs, skip + 1 => replace_all_from search format cs skip
  | c :: cs, 0 =>
    if search ≠ [] ∧ (c :: cs).take search.length = search then
      format ++ replace_all_from search format cs (search.length - 1)
    else
      c :: replace_all_from search format cs 0

/-- The effect of `boost::algorithm::replace_all (t, search, format)` on the string `t`. -/
def replace_all (t : String) (search format : String) : String :=
  ⟨replace_all_from search.data format.data t.data 0⟩

/-- A text subtitle as emitted by the decoder, `ContentTextSubtitle`. -/
structure ContentTextSubtitle where
  from_time : ContentTime
  subs : List SubtitleString

/-- The state of a `SubtitleDecoder` together with what it has emitted through `TextStart`. -/
structure SubtitleDecoder where
  _position : ContentTime
  emitted : List ContentTextSubtitle

namespace SubtitleDecoder

/-- The body of `SubtitleDecoder::emit_text_start (ContentTime, list<dcp::SubtitleString>)`. -/
def emit_text_start (d : SubtitleDecoder) (from_time : ContentTime) (s : List SubtitleString) :
    SubtitleDecoder :=
  let s1 := s.map (fun i =>
    let t := i.text
    let t := replace_all t "<" "&lt;"
    let t := replace_all t ">" "&gt;"
    { i with text := t })
  { _position := from_time, emitted := d.emitted ++ [⟨from_time, s1⟩] }

/-- The escaping the specification asks for, character by character: `<` becomes `&lt;`, `>`
becomes `&gt;`, every other character stays. -/
def escape_char (c : Char) : List Char :=
  if c = '<' then "&lt;".data else if c = '>' then "&gt;".data else [c]

/-- The escaping the specification asks for, on a whole text. -/
def escaped (t : String) : String :=
  ⟨(t.data.map escape_char).flatten⟩

end SubtitleDecoder

/-! ## Player (src/lib/player.cc)

`player.cc` computes with `double` and `float`; these are held as exact rationals, and the
rounding of floating-point arithmetic is not modelled, except in
`process_content_image_subtitles_double`, where the result of every `double` operation is
rounded to the nearest `double` (`round_double`).  The parts of the program that
`player.cc` calls but that are not among the sources (the time types, `overlaps`, the decoders,
`AudioBuffers`, `Image`) are modelled from the specification or taken as parameters. -/

/-- Conversion of a floating-point value to an integer type: the fraction is discarded. -/
def trunc (q : ℚ) : Int :=
  if 0 ≤ q then ⌊q⌋ else ⌈q⌉

/-- The C function `rint` in the default rounding mode: the nearest integer, a tie going to the
even neighbour. -/
def rint (q : ℚ) : Int :=
  if Int.fract q < 1 / 2 then ⌊q⌋
  else if 1 / 2 < Int.fract q then ⌊q⌋ + 1
  else if ⌊q⌋ % 2 = 0 then ⌊q⌋ else ⌊q⌋ + 1

/-- The unit in the last place of the `double`s of the magnitude of `q`: 2^(e - 52) for
2^e ≤ |q| < 2^(e + 1). -/
def ulp (q : ℚ) : ℚ :=
  (2 : ℚ) ^ (Int.log 2 |q| - 52)

/-- The `double` that an operation with the exact result `q` returns: the nearest number with
a significand of 53 bits, a tie going to the even significand.  The range of the exponent is
not modelled (no overflow, no subnormal numbers). -/
def round_double (q : ℚ) : ℚ :=
  if q = 0 then 0 else (rint (q / ulp q) : ℚ) * ulp q

namespace DCPTime

/-- Modelled from the spec: `DCPTime::frames (r)`, the number of frames at rate `r` in a time
measured in ticks of `HZ` per second, with floor rounding (dcpomatic_time.h is absent; `HZ`
is its time base). -/
def frames (HZ : Int) (t : DCPTime) (r : Int) : Int :=
  t * r / HZ

/-- Modelled from the spec: `DCPTime::from_seconds (s)` for a whole number of seconds. -/
def from_seconds (HZ : Int) (s : Int) : DCPTime :=
  s * HZ

end DCPTime

/-- Modelled from the spec: `FrameRateChange` (frame_rate_change.h is absent), the ratio
(source rate, DCP rate). -/
structure FrameRateChange where
  source : ℚ
  dcp : Int

/-- Modelled from the spec: `FrameRateChange::factor ()` is dcp / source. -/
def FrameRateChange.factor (f : FrameRateChange) : ℚ :=
  f.dcp / f.source

/-- A size in pixels, `dcp::Size`. -/
structure Size where
  width : Int
  height : Int
deriving DecidableEq, Repr

/-- A crop in pixels; `Crop ()` crops nothing. -/
structure Crop where
  left : Int
  right : Int
  top : Int
  bottom : Int
deriving DecidableEq, Repr

/-- The default-constructed `Crop ()`. -/
def Crop.none : Crop := ⟨0, 0, 0, 0⟩

/-- Which eye a frame is for. -/
inductive Eyes where
  | EYES_BOTH
  | EYES_LEFT
  | EYES_RIGHT
deriving DecidableEq, Repr

/-- Where the pixels of an image come from; the pixel values themselves are not modelled. -/
inductive ImageData where
  | uninitialised
  | black
  | decoded (id : Nat)
  | scaled (source : ImageData) (source_size : Size) (scaler : String)
deriving DecidableEq, Repr

/-- Modelled from the spec: `Image` (image.cc is absent): pixel format, size, alignment, data. -/
structure Image where
  pixel_format : String
  size : Size
  aligned : Bool
  data : ImageData
deriving DecidableEq, Repr

namespace Image

/-- The constructor `Image (pixel_format, size, aligned)`. -/
def create (pixel_format : String) (size : Size) (aligned : Bool) : Image :=
  ⟨pixel_format, size, aligned, .uninitialised⟩

/-- Modelled from the spec: `Image::make_black`. -/
def make_black (i : Image) : Image :=
  { i with data := .black }

/-- Modelled from the spec: `Image::scale (out_size, scaler, out_format, aligned)`. -/
def scale (i : Image) (out_size : Size) (scaler : String) (out_format : String) (aligned : Bool) :
    Image :=
  ⟨out_format, out_size, aligned, .scaled i.data i.size scaler⟩

end Image

/-- A colour conversion; only its identity matters. -/
structure ColourConversion where
  id : Nat
deriving DecidableEq, Repr

/-- An integer position, `Position<int>`. -/
structure Position where
  x : Int
  y : Int
deriving DecidableEq, Repr

/-- An image with the position it is to be drawn at. -/
structure PositionImage where
  image : Image
  position : Position
deriving DecidableEq, Repr

/-- A rectangle with floating-point coordinates, `dcpomatic::Rect<double>`. -/
structure Rect where
  x : ℚ
  y : ℚ
  width : ℚ
  height : ℚ

/-- A video frame as a decoder hands it out. -/
structure ContentVideo where
  image : Image
  eyes : Eyes
deriving DecidableEq, Repr

/-- An image subtitle as a decoder hands it out; the image pointer may be null. -/
structure ContentImageSubtitle where
  image : Option Image
  rectangle : Rect

namespace Pcm

/-- Modelled from the spec: `AudioBuffers` as `player.cc` uses it (audio_buffers.cc is absent):
planar PCM, `channels × frames`, with the sample of each channel and frame. -/
structure AudioBuffers where
  channels : Int
  frames : Int
  data : Int → Int → ℚ

namespace AudioBuffers

/-- The constructor `AudioBuffers (channels, frames)`; the samples hold whatever was in memory. -/
def create (channels frames : Int) (memory : Int → Int → ℚ) : AudioBuffers :=
  ⟨channels, frames, memory⟩

/-- Modelled from the spec: `make_silent` zeroes every sample. -/
def make_silent (b : AudioBuffers) : AudioBuffers :=
  { b with data := fun _ _ => 0 }

/-- Modelled from the spec: `apply_gain` multiplies every sample by the linear gain. -/
def apply_gain (b : AudioBuffers) (linear : ℚ) : AudioBuffers :=
  { b with data := fun c f => b.data c f * linear }

/-- Modelled from the spec: `accumulate_channel (from, input_channel, output_channel, gain)`
adds the input channel of `from`, times the gain, to the output channel. -/
def accumulate_channel (b : AudioBuffers) (source : AudioBuffers) (input_channel : Int)
    (output_channel : Int) (gain : ℚ) : AudioBuffers :=
  { b with data := fun c f =>
      if c = output_channel ∧ 0 ≤ f ∧ f < b.frames then
        b.data c f + source.data input_channel f * gain
      else b.data c f }

/-- Modelled from the spec: `accumulate_frames (from, read_offset, write_offset, frames)` adds
`frames` frames of every channel of `from`, starting at `read_offset`, to the frames starting
at `write_offset`. -/
def accumulate_frames (b : AudioBuffers) (source : AudioBuffers) (read_offset write_offset : Int)
    (frames : Int) : AudioBuffers :=
  { b with data := fun c f =>
      if 0 ≤ c ∧ c < b.channels ∧ write_offset ≤ f ∧ f < write_offset + frames then
        b.data c f + source.data c (f - write_offset + read_offset)
      else b.data c f }

end AudioBuffers

/-- Modelled from the spec: the content-to-DCP channel mapping of a piece of content: the number
of content channels and the gain from each content channel to each DCP channel. -/
structure AudioMapping where
  content_channels : Int
  get : Int → Int → ℚ

end Pcm

/-- Audio as a decoder hands it out: the samples and the content frame they start at. -/
structure ContentAudio where
  audio : Pcm.AudioBuffers
  frame : Int

/-- The classes of content that `Player::setup_pieces` knows. -/
inductive ContentKind where
  | FFmpeg
  | Image
  | Sndfile
  | SubRip
deriving DecidableEq, Repr

/-- A decoder, seen through the getters the Player calls; `content_id` is the content it was
made for. -/
structure Decoder where
  kind : ContentKind
  content_id : Nat
  get_video : Int → Bool → ContentVideo
  get_audio : Int → Int → Bool → ContentAudio
  get_image_subtitles : ContentTime → ContentTime → List ContentImageSubtitle
  get_text_subtitles : ContentTime → ContentTime → List ContentTextSubtitle

/-- A piece of content in the playlist, seen through the accessors `player.cc` calls.  `id`
stands for the identity of the object, `decoder` for the decoder that `setup_pieces` would
construct for it, `scale_size` for `scale ().size (content, container, film_frame_size)`. -/
structure Content where
  id : Nat
  kind : ContentKind
  paths_valid : Bool
  position : DCPTime
  length_after_trim : DCPTime
  trim_start : DCPTime
  video_frame_rate : ℚ
  crop : Crop
  scale_size : Size → Size → Size
  colour_conversion : ColourConversion
  audio_gain : ℚ
  audio_mapping : Pcm.AudioMapping
  subtitle_x_offset : ℚ
  subtitle_y_offset : ℚ
  subtitle_scale : ℚ
  decoder : Decoder

namespace Content

/-- Modelled from the spec: `Content::end ()`, the end of the period the content occupies. -/
def end_ (c : Content) : DCPTime :=
  c.position + c.length_after_trim

/-- Whether the content is a `VideoContent` (FFmpeg and image content are). -/
def is_video (c : Content) : Bool :=
  c.kind = .FFmpeg || c.kind = .Image

/-- Whether the content is an `AudioContent` (FFmpeg and sound-file content are). -/
def is_audio (c : Content) : Bool :=
  c.kind = .FFmpeg || c.kind = .Sndfile

/-- Whether the content is a `SubtitleContent` (FFmpeg and SubRip content are). -/
def is_subtitle (c : Content) : Bool :=
  c.kind = .FFmpeg || c.kind = .SubRip

end Content

/-- A playlist item bound to its decoder and frame-rate change. -/
structure Piece where
  content : Content
  decoder : Decoder
  frc : FrameRateChange

/-- The properties of the film that `player.cc` reads. -/
structure Film where
  video_frame_rate : Int
  audio_frame_rate : Int
  audio_channels : Int
  frame_size : Size
  scaler : String

/-- The composed frame `Player::get_video` returns, with the constructor arguments of `DCPVideo`
and the subtitle set by `set_subtitle`. -/
structure DCPVideo where
  image : Image
  eyes : Eyes
  crop : Crop
  inter_size : Size
  out_size : Size
  scaler : String
  conversion : ColourConversion
  time : DCPTime
  subtitle : Option PositionImage
deriving DecidableEq, Repr

/-- What `player.cc` uses from outside the sources at hand: the time base, the test of
`overlaps` for whether a piece of content covers a time, the conversions to content time, the
subtitle renderer and merger, the decibel-to-linear conversion of `apply_gain`, the contents of
freshly allocated sample memory, and the first colour conversion of the configuration. -/
structure Externals where
  HZ : Int
  covers : Content → DCPTime → Bool
  content_time : DCPTime → FrameRateChange → ContentTime
  content_time_from_frames : Int → ℚ → ContentTime
  render_subtitles : List SubtitleString → Size → PositionImage
  merge : List PositionImage → PositionImage
  linear_gain : ℚ → ℚ
  memory : Int → Int → ℚ
  default_colour_conversion : ColourConversion

/-- The data members of `Player`; `changed` collects the arguments of the `Changed` signals
emitted so far. -/
structure Player where
  _film : Film
  _playlist : List Content
  _pieces : List Piece
  _have_valid_pieces : Bool
  _video_container_size : Size
  _black_image : Image
  _approximate_size : Bool
  _burn_subtitles : Bool
  changed : List Bool
namespace Player

/-- The body of `Player::set_video_container_size`. -/
def set_video_container_size (p : Player) (s : Size) : Player :=
  { p with
    _video_container_size := s
    _black_image := (Image.create "PIX_FMT_RGB24" s true).make_black }

/-- The constructor `Player::Player (film, playlist)`. -/
def create (f : Film) (playlist : List Content) : Player :=
  set_video_container_size
    { _film := f
      _playlist := playlist
      _pieces := []
      _have_valid_pieces := false
      _video_container_size := ⟨0, 0⟩
      _black_image := Image.create "" ⟨0, 0⟩ false
      _approximate_size := false
      _burn_subtitles := false
      changed := [] }
    f.frame_size

/-- The loop of `Player::setup_pieces` that looks for the "best overlap" video content for the
content `i`: the running best (`best_overlap`, `best_overlap_t`) after the contents `js`. -/
def best_overlap (i : Content) : List Content → Option Content × DCPTime → Option Content × DCPTime
  | [], best => best
  | j :: js, best =>
    if j.is_video then
      let overlap : DCPTime := max j.position i.position - min j.end_ i.end_
      if overlap > best.2 then best_overlap i js (some j, overlap)
      else best_overlap i js best
    else best_overlap i js best

/-- The decoder `Player::setup_pieces` gives to image content: the decoder of the last old piece
that is an image decoder for this very content, or else a new one. -/
def image_decoder (ic : Content) (old_pieces : List Piece) : Decoder :=
  match (old_pieces.filter
      (fun j => j.decoder.kind = .Image && j.decoder.content_id = ic.id)).getLast? with
  | some j => j.decoder
  | none => ic.decoder

/-- The piece that the body of the loop of `Player::setup_pieces` makes for the content `i`. -/
def make_piece (film : Film) (content : List Content) (old_pieces : List Piece) (i : Content) :
    Piece :=
  let best := best_overlap i content (none, 0)
  let best_overlap_frc : FrameRateChange :=
    match best.1 with
    | some vc => ⟨vc.video_frame_rate, film.video_frame_rate⟩
    | none => ⟨film.video_frame_rate, film.video_frame_rate⟩
  match i.kind with
  | .FFmpeg => ⟨i, i.decoder, ⟨i.video_frame_rate, film.video_frame_rate⟩⟩
  | .Image => ⟨i, image_decoder i old_pieces, ⟨i.video_frame_rate, film.video_frame_rate⟩⟩
  | .Sndfile => ⟨i, i.decoder, best_overlap_frc⟩
  | .SubRip => ⟨i, i.decoder, best_overlap_frc⟩

/-- The body of `Player::setup_pieces`. -/
def setup_pieces (p : Player) : Player :=
  let old_pieces := p._pieces
  let content := p._playlist
  { p with
    _pieces := (content.filter (fun i => i.paths_valid)).map
      (make_piece p._film content old_pieces)
    _have_valid_pieces := true }

/-- Modelled from the spec: `Player::overlaps<C> (t)` (player.h is absent): the pieces whose
content is a `C` and covers the time `t`, in playlist order. -/
def overlaps (x : Externals) (p : Player) (is_c : Content → Bool) (t : DCPTime) : List Piece :=
  p._pieces.filter (fun i => is_c i.content && x.covers i.content t)

/-- The body of `Player::dcp_to_content_video`. -/
def dcp_to_content_video (HZ : Int) (film : Film) (piece : Piece) (t : DCPTime) : Int :=
  let s : DCPTime := t - piece.content.position
  let s : DCPTime := max 0 s
  let s : DCPTime := min piece.content.length_after_trim s
  trunc ((DCPTime.frames HZ (s + piece.content.trim_start) film.video_frame_rate : ℚ)
    * piece.frc.factor)

/-- The body of `Player::dcp_to_content_audio`. -/
def dcp_to_content_audio (HZ : Int) (film : Film) (piece : Piece) (t : DCPTime) : Int :=
  let s : DCPTime := t - piece.content.position
  let s : DCPTime := max 0 s
  let s : DCPTime := min piece.content.length_after_trim s
  DCPTime.frames HZ (s + piece.content.trim_start) film.audio_frame_rate

/-- The body of `Player::dcp_to_content_subtitle`. -/
def dcp_to_content_subtitle (x : Externals) (piece : Piece) (t : DCPTime) : ContentTime :=
  let s : DCPTime := t - piece.content.position
  let s : DCPTime := max 0 s
  let s : DCPTime := min piece.content.length_after_trim s
  x.content_time s piece.frc

/-- The body of `Player::process_content_image_subtitles`. -/
def process_content_image_subtitles (p : Player) (content : Content)
    (subs : List ContentImageSubtitle) : List PositionImage :=
  subs.filterMap (fun i =>
    match i.image with
    | none => none
    | some image =>
      let in_rect := i.rectangle
      let in_rect := { in_rect with x := in_rect.x + content.subtitle_x_offset }
      let in_rect := { in_rect with y := in_rect.y + content.subtitle_y_offset }
      let scaled_size : Size :=
        ⟨trunc (in_rect.width * p._video_container_size.width * content.subtitle_scale),
         trunc (in_rect.height * p._video_container_size.height * content.subtitle_scale)⟩
      some
        ⟨image.scale scaled_size "bicubic" image.pixel_format true,
         ⟨rint (p._video_container_size.width
            * (in_rect.x + (in_rect.width * (1 - content.subtitle_scale) / 2))),
          rint (p._video_container_size.height
            * (in_rect.y + (in_rect.height * (1 - content.subtitle_scale) / 2)))⟩⟩)

/-- The body of `Player::process_content_image_subtitles` in the arithmetic of `double`: as
`process_content_image_subtitles`, with the result of every addition, subtraction,
multiplication and division rounded to the nearest `double`; the sizes of the container are
`int`s, converted exactly. -/
def process_content_image_subtitles_double (p : Player) (content : Content)
    (subs : List ContentImageSubtitle) : List PositionImage :=
  subs.filterMap (fun i =>
    match i.image with
    | none => none
    | some image =>
      let in_rect := i.rectangle
      let in_rect := { in_rect with x := round_double (in_rect.x + content.subtitle_x_offset) }
      let in_rect := { in_rect with y := round_double (in_rect.y + content.subtitle_y_offset) }
      let scaled_size : Size :=
        ⟨trunc (round_double (round_double (in_rect.width * p._video_container_size.width)
            * content.subtitle_scale)),
         trunc (round_double (round_double (in_rect.height * p._video_container_size.height)
            * content.subtitle_scale))⟩
      some
        ⟨image.scale scaled_size "bicubic" image.pixel_format true,
         ⟨rint (round_double (p._video_container_size.width
            * round_double (in_rect.x + round_double (round_double (in_rect.width
                * round_double (1 - content.subtitle_scale)) / 2)))),
          rint (round_double (p._video_container_size.height
            * round_double (in_rect.y + round_double (round_double (in_rect.height
                * round_double (1 - content.subtitle_scale)) / 2))))⟩⟩)

/-- The body of `Player::process_content_text_subtitles`. -/
def process_content_text_subtitles (x : Externals) (p : Player)
    (sub : List ContentTextSubtitle) : List PositionImage :=
  (sub.filter (fun i => !i.subs.isEmpty)).map
    (fun i => x.render_subtitles i.subs p._video_container_size)

/-- The subtitle images that one overlapping subtitle piece adds in `Player::get_video`. -/
def piece_sub_images (x : Externals) (p : Player) (video_content : Content) (time : DCPTime)
    (i : Piece) : List PositionImage :=
  let from_time := dcp_to_content_subtitle x i time
  let to_time := from_time + x.content_time_from_frames 1 video_content.video_frame_rate
  let image_subtitles := i.decoder.get_image_subtitles from_time to_time
  let im1 :=
    if image_subtitles.isEmpty then []
    else process_content_image_subtitles p i.content image_subtitles
  let im2 :=
    if p._burn_subtitles then
      let text_subtitles := i.decoder.get_text_subtitles from_time to_time
      if text_subtitles.isEmpty then [] else process_content_text_subtitles x p text_subtitles
    else []
  im1 ++ im2

/-- The body of `Player::get_video`: the Player afterwards and the frame returned. -/
def get_video (x : Externals) (p0 : Player) (time : DCPTime) (accurate : Bool) :
    Player × DCPVideo :=
  let p := if !p0._have_valid_pieces then p0.setup_pieces else p0
  match (p.overlaps x Content.is_video time).getLast? with
  | none =>
    (p, ⟨p._black_image, .EYES_BOTH, Crop.none, p._video_container_size,
         p._video_container_size, "bicubic", x.default_colour_conversion, time, none⟩)
  | some piece =>
    let content := piece.content
    let dec := piece.decoder.get_video (dcp_to_content_video x.HZ p._film piece time) accurate
    let image_size := content.scale_size p._video_container_size p._film.frame_size
    let image_size : Size :=
      if p._approximate_size then
        ⟨image_size.width - image_size.width % 4, image_size.height - image_size.height % 4⟩
      else image_size
    let sub_images :=
      ((p.overlaps x Content.is_subtitle time).map (piece_sub_images x p content time)).flatten
    (p, ⟨dec.image, dec.eyes, content.crop, image_size, p._video_container_size,
         p._film.scaler, content.colour_conversion, time,
         if sub_images.isEmpty then none else some (x.merge sub_images)⟩)

/-- The values `0, 1, ..., n - 1` that a loop `for (int i = 0; i < n; ++i)` runs through. -/
def channel_range (n : Int) : List Int :=
  (List.range n.toNat).map (fun k => (k : Int))

/-- The channel remapping of `Player::get_audio`: the two nested loops over the content
channels `i` and the DCP channels `j`. -/
def remap_channels (map : Pcm.AudioMapping) (dcp_channels : Int) (source : Pcm.AudioBuffers)
    (dcp_mapped : Pcm.AudioBuffers) : Pcm.AudioBuffers :=
  (channel_range map.content_channels).foldl
    (fun acc i =>
      (channel_range dcp_channels).foldl
        (fun acc j =>
          if map.get i j > 0 then acc.accumulate_channel source i j (map.get i j) else acc)
        acc)
    dcp_mapped

/-- The body of the loop of `Player::get_audio` for one overlapping audio piece. -/
def add_piece_audio (x : Externals) (film : Film) (time : DCPTime) (length_frames : Int)
    (accurate : Bool) (audio : Pcm.AudioBuffers) (i : Piece) : Pcm.AudioBuffers :=
  let content := i.content
  let content_time := dcp_to_content_audio x.HZ film i time
  let all := i.decoder.get_audio content_time length_frames accurate
  let all : ContentAudio :=
    if content.audio_gain ≠ 0 then
      { all with audio := all.audio.apply_gain (x.linear_gain content.audio_gain) }
    else all
  let dcp_mapped :=
    (Pcm.AudioBuffers.create film.audio_channels all.audio.frames x.memory).make_silent
  let dcp_mapped := remap_channels content.audio_mapping film.audio_channels all.audio dcp_mapped
  let all : ContentAudio := { all with audio := dcp_mapped }
  audio.accumulate_frames all.audio (all.frame - content_time) 0
    (min all.audio.frames length_frames)

/-- The body of `Player::get_audio`: the Player afterwards and the buffer returned. -/
def get_audio (x : Externals) (p0 : Player) (time length : DCPTime) (accurate : Bool) :
    Player × Pcm.AudioBuffers :=
  let p := if !p0._have_valid_pieces then p0.setup_pieces else p0
  let length_frames := DCPTime.frames x.HZ length p._film.audio_frame_rate
  let audio :=
    (Pcm.AudioBuffers.create p._film.audio_channels length_frames x.memory).make_silent
  let ov := p.overlaps x Content.is_audio time
  (p, ov.foldl (add_piece_audio x p._film time length_frames accurate) audio)

end Player

/-! ### Sample inputs for the Player -/

/-- A decoder that hands out frame `n` as the image with identity `n`, audio whose samples are
all 1, and no subtitles. -/
def sample_decoder (kind : ContentKind) (content_id : Nat) : Decoder :=
  { kind := kind
    content_id := content_id
    get_video := fun n _ => ⟨⟨"PIX_FMT_RGB24", ⟨1998, 1080⟩, true, .decoded n.toNat⟩, .EYES_BOTH⟩
    get_audio := fun frame frames _ => ⟨⟨1, frames, fun _ _ => 1⟩, frame⟩
    get_image_subtitles := fun _ _ => []
    get_text_subtitles := fun _ _ => [] }

/-- A mapping of one content channel to DCP channel 2 only, at unit gain. -/
def sample_mapping : Pcm.AudioMapping :=
  ⟨1, fun i j => if i = 0 ∧ j = 2 then 1 else 0⟩

/-- Content of the given kind and video rate at timeline position 0, 10 s long at 96000 ticks
per second, untrimmed. -/
def sample_content (kind : ContentKind) (video_frame_rate : ℚ) : Content :=
  { id := 1
    kind := kind
    paths_valid := true
    position := 0
    length_after_trim := 960000
    trim_start := 0
    video_frame_rate := video_frame_rate
    crop := Crop.none
    scale_size := fun container _ => container
    colour_conversion := ⟨1⟩
    audio_gain := 0
    audio_mapping := sample_mapping
    subtitle_x_offset := 0
    subtitle_y_offset := 0
    subtitle_scale := 1
    decoder := sample_decoder kind 1 }

/-- A film at 24 frames per second with 48 kHz, 6-channel audio and a 1998 x 1080 frame. -/
def sample_film : Film :=
  ⟨24, 48000, 6, ⟨1998, 1080⟩, "bicubic"⟩

/-- Externals with a time base of 96000 ticks per second, content covering the half-open
period from its position to its end, and fresh sample memory holding 7 everywhere. -/
def sample_externals : Externals :=
  { HZ := 96000
    covers := fun c t => decide (c.position ≤ t) && decide (t < c.end_)
    content_time := fun t _ => t
    content_time_from_frames := fun f r => trunc (f * 96000 / r)
    render_subtitles := fun _ s => ⟨Image.create "PIX_FMT_RGBA" s true, ⟨0, 0⟩⟩
    merge := fun l => l.headD ⟨Image.create "PIX_FMT_RGBA" ⟨0, 0⟩ true, ⟨0, 0⟩⟩
    linear_gain := fun g => g
    memory := fun _ _ => 7
    default_colour_conversion := ⟨0⟩ }

/-- A piece of 48 fps content in a 24 fps film: frame-rate change (48, 24), factor 1/2. -/
def sample_piece_48 : Piece :=
  ⟨sample_content .FFmpeg 48, sample_decoder .FFmpeg 1, ⟨48, 24⟩⟩

/-- A Player whose video container is 2000 x 1000 pixels. -/
def sample_player : Player :=
  (Player.create sample_film []).set_video_container_size ⟨2000, 1000⟩

/-- An XML element: its name, its text content and its child elements. -/
inductive Node where
  | mk (name : String) (content : String) (children : List Node)
deriving Repr

/-- The exceptions that reading a node can raise. -/
inductive XmlError where
  | missing (tag : String)
  | duplicate (tag : String)
  | bad_text_type (s : String)
deriving DecidableEq, Repr

/-- The conversions from text that libcxml and `dcp::raw_convert` supply, and the constructors
of `Font` and `DCPTextTrack` from a node; none of them is among the sources. -/
structure RawConvert where
  to_double : String → ℚ
  to_int : String → Int
  to_bool : String → Bool
  to_track : Node → DCPTextTrack

/-- A font, as read from its `<Font>` node. -/
structure Font where
  node : Node

namespace Node

/-- The name of an element. -/
def name : Node → String
  | .mk n _ _ => n

/-- The text content of an element. -/
def content : Node → String
  | .mk _ c _ => c

/-- The child elements of an element. -/
def children : Node → List Node
  | .mk _ _ cs => cs

/-- The children with the given name: `node_children (name)`. -/
def node_children (n : Node) (name : String) : List Node :=
  n.children.filter (fun c => c.name = name)

/-- The accessor `optional_node_child (name)`. -/
def optional_node_child (n : Node) (name : String) : Except XmlError (Option Node) :=
  match n.node_children name with
  | [] => .ok none
  | [c] => .ok (some c)
  | _ => .error (.duplicate name)

/-- The accessor `node_child (name)`. -/
def node_child (n : Node) (name : String) : Except XmlError Node :=
  match n.node_children name with
  | [] => .error (.missing name)
  | [c] => .ok c
  | _ => .error (.duplicate name)

/-- The accessor `string_child (name)`. -/
def string_child (n : Node) (name : String) : Except XmlError String :=
  (n.node_child name).map content

/-- The accessor `optional_string_child (name)`. -/
def optional_string_child (n : Node) (name : String) : Except XmlError (Option String) :=
  (n.optional_node_child name).map (fun c => c.map content)

/-- The accessors `number_child<T> (name)` and `bool_child (name)`, with the conversion to
`T`. -/
def number_child {T : Type} (n : Node) (convert : String → T) (name : String) :
    Except XmlError T :=
  (n.string_child name).map convert

/-- The accessors `optional_number_child<T> (name)` and `optional_bool_child (name)`, with the
conversion to `T`. -/
def optional_number_child {T : Type} (n : Node) (convert : String → T) (name : String) :
    Except XmlError (Option T) :=
  (n.optional_string_child name).map (fun c => c.map convert)

/-- The text of the only child with the given name, if there is one. -/
def child_content (n : Node) (name : String) : Option String :=
  (n.node_children name).head?.map content

end Node

/-- Modelled from the spec: `string_to_text_type` (types.cc is absent): "open" and "closed"
name the two text types, anything else fails an assertion. -/
def string_to_text_type (s : String) : Except XmlError TextType :=
  if s = "open" then .ok .TEXT_OPEN_SUBTITLE
  else if s = "closed" then .ok .TEXT_CLOSED_CAPTION
  else .error (.bad_text_type s)

/-- The data members of `TextContent`. -/
structure TextContent where
  _use : Bool
  _burn : Bool
  _x_offset : ℚ
  _y_offset : ℚ
  _x_scale : ℚ
  _y_scale : ℚ
  _fonts : List Font
  _language : String
  _colour : Option Colour
  _effect : Option Effect
  _effect_colour : Option Colour
  _line_spacing : ℚ
  _fade_in : Option ContentTime
  _fade_out : Option ContentTime
  _outline_width : Int
  _type : TextType
  _original_type : TextType
  _dcp_track : Option DCPTextTrack

namespace TextContent

/-- The member initialisers of `TextContent::TextContent (parent, node, version)`. -/
def read_init (conv : RawConvert) (node : Node) : Except XmlError TextContent := do
  let line_spacing ← node.optional_number_child conv.to_double "LineSpacing"
  let outline_width ← node.optional_number_child conv.to_int "OutlineWidth"
  pure
    { _use := false, _burn := false, _x_offset := 0, _y_offset := 0, _x_scale := 1, _y_scale := 1
      _fonts := [], _language := "", _colour := none, _effect := none, _effect_colour := none
      _line_spacing := line_spacing.getD 1, _fade_in := none, _fade_out := none
      _outline_width := outline_width.getD 4, _type := .TEXT_OPEN_SUBTITLE
      _original_type := .TEXT_OPEN_SUBTITLE, _dcp_track := none }

/-- The block of the constructor that reads `_use` and `_burn`. -/
def read_use_burn (conv : RawConvert) (node : Node) (version : Int) (t : TextContent) :
    Except XmlError TextContent :=
  if version ≥ 37 then do
    let u ← node.number_child conv.to_bool "Use"
    let b ← node.number_child conv.to_bool "Burn"
    pure { t with _use := u, _burn := b }
  else if version ≥ 32 then do
    let u ← node.number_child conv.to_bool "UseSubtitles"
    let b ← node.number_child conv.to_bool "BurnSubtitles"
    pure { t with _use := u, _burn := b }
  else pure t

/-- The block of the constructor that reads `_x_offset` and `_y_offset`. -/
def read_offsets (conv : RawConvert) (node : Node) (version : Int) (t : TextContent) :
    Except XmlError TextContent :=
  if version ≥ 37 then do
    let x ← node.number_child conv.to_double "XOffset"
    let y ← node.number_child conv.to_double "YOffset"
    pure { t with _x_offset := x, _y_offset := y }
  else if version ≥ 7 then do
    let x ← node.number_child conv.to_double "SubtitleXOffset"
    let y ← node.number_child conv.to_double "SubtitleYOffset"
    pure { t with _x_offset := x, _y_offset := y }
  else do
    let y ← node.number_child conv.to_double "SubtitleOffset"
    pure { t with _y_offset := y }

/-- The two blocks of the constructor that read `_effect`: first the `Outline` and `Shadow`
flags, then the `Effect` tag. -/
def read_effect (conv : RawConvert) (node : Node) (t : TextContent) :
    Except XmlError TextContent := do
  let outline ← node.optional_number_child conv.to_bool "Outline"
  let e1 ←
    if outline.getD false then pure Effect.BORDER
    else do
      let shadow ← node.optional_number_child conv.to_bool "Shadow"
      pure (if shadow.getD false then Effect.SHADOW else Effect.NONE)
  let effect ← node.optional_string_child "Effect"
  let e2 :=
    match effect with
    | some s =>
      if s = "none" then Effect.NONE
      else if s = "outline" then Effect.BORDER
      else if s = "shadow" then Effect.SHADOW
      else e1
    | none => e1
  pure { t with _effect := some e2 }

/-- The block of the constructor that reads `_x_scale` and `_y_scale`. -/
def read_scale (conv : RawConvert) (node : Node) (version : Int) (t : TextContent) :
    Except XmlError TextContent :=
  if version ≥ 37 then do
    let x ← node.number_child conv.to_double "XScale"
    let y ← node.number_child conv.to_double "YScale"
    pure { t with _x_scale := x, _y_scale := y }
  else if version ≥ 10 then do
    let x ← node.number_child conv.to_double "SubtitleXScale"
    let y ← node.number_child conv.to_double "SubtitleYScale"
    pure { t with _x_scale := x, _y_scale := y }
  else do
    let s ← node.number_child conv.to_double "SubtitleScale"
    pure { t with _x_scale := s, _y_scale := s }

/-- The block of the constructor that reads `_colour`. -/
def read_colour (conv : RawConvert) (node : Node) (t : TextContent) :
    Except XmlError TextContent := do
  let r ← node.optional_number_child conv.to_int "Red"
  let g ← node.optional_number_child conv.to_int "Green"
  let b ← node.optional_number_child conv.to_int "Blue"
  match r, g, b with
  | some r, some g, some b => pure { t with _colour := some ⟨r, g, b⟩ }
  | _, _, _ => pure t

/-- The block of the constructor that reads `_effect_colour`. -/
def read_effect_colour (conv : RawConvert) (node : Node) (version : Int) (t : TextContent) :
    Except XmlError TextContent :=
  if version ≥ 36 then do
    let er ← node.optional_number_child conv.to_int "EffectRed"
    let eg ← node.optional_number_child conv.to_int "EffectGreen"
    let eb ← node.optional_number_child conv.to_int "EffectBlue"
    match er, eg, eb with
    | some r, some g, some b => pure { t with _effect_colour := some ⟨r, g, b⟩ }
    | _, _, _ => pure t
  else do
    let r ← node.optional_number_child conv.to_int "OutlineRed"
    let g ← node.optional_number_child conv.to_int "OutlineGreen"
    let b ← node.optional_number_child conv.to_int "OutlineBlue"
    pure { t with _effect_colour := some ⟨r.getD 255, g.getD 255, b.getD 255⟩ }

/-- The blocks of the constructor that read `_fade_in` and `_fade_out`. -/
def read_fades (conv : RawConvert) (node : Node) (version : Int) (t : TextContent) :
    Except XmlError TextContent := do
  let fi ← node.optional_number_child conv.to_int
    (if version ≥ 37 then "FadeIn" else "SubtitleFadeIn")
  let t1 : TextContent :=
    match fi with
    | some f => { t with _fade_in := some f }
    | none => t
  let fo ← node.optional_number_child conv.to_int
    (if version ≥ 37 then "FadeOut" else "SubtitleFadeOut")
  match fo with
  | some f => pure { t1 with _fade_out := some f }
  | none => pure t1

/-- The blocks of the constructor that read `_language` and `_fonts`. -/
def read_language_fonts (node : Node) (version : Int) (t : TextContent) :
    Except XmlError TextContent := do
  let language ← node.optional_string_child
    (if version ≥ 37 then "Language" else "SubtitleLanguage")
  pure { t with
    _language := language.getD ""
    _fonts := t._fonts ++ (node.node_children "Font").map Font.mk }

/-- The block of the constructor that reads `_type` and `_original_type`. -/
def read_type (node : Node) (version : Int) (t : TextContent) : Except XmlError TextContent :=
  if version ≥ 37 then do
    let ty ← node.optional_string_child "Type"
    let ty ← string_to_text_type (ty.getD "open")
    let t1 : TextContent := { t with _type := ty }
    let ot ← node.optional_string_child "OriginalType"
    match ot with
    | some _ => do
      let ot ← node.optional_string_child "OriginalType"
      let ot ← string_to_text_type (ot.getD "")
      pure { t1 with _original_type := ot }
    | none => pure t1
  else pure t

/-- The block of the constructor that reads `_dcp_track`. -/
def read_dcp_track (conv : RawConvert) (node : Node) (t : TextContent) :
    Except XmlError TextContent := do
  let dt ← node.optional_node_child "DCPTrack"
  match dt with
  | some d => pure { t with _dcp_track := some (conv.to_track d) }
  | none => pure t

/-- The constructor `TextContent::TextContent (parent, node, version)`: its blocks in order. -/
def read (conv : RawConvert) (node : Node) (version : Int) : Except XmlError TextContent := do
  let t ← read_init conv node
  let t ← read_use_burn conv node version t
  let t ← read_offsets conv node version t
  let t ← read_effect conv node t
  let t ← read_scale conv node version t
  let t ← read_colour conv node t
  let t ← read_effect_colour conv node version t
  let t ← read_fades conv node version t
  let t ← read_language_fonts node version t
  let t ← read_type node version t
  read_dcp_track conv node t

/-- The test at the head of `TextContent::from_xml` for old metadata: FFmpeg content without
subtitle streams. -/
def old_ffmpeg_without_streams (node : Node) (version : Int) : Except XmlError Bool :=
  if version < 34 then do
    let ty ← node.string_child "Type"
    pure (decide (ty = "FFmpeg") && (node.node_children "SubtitleStream").isEmpty)
  else pure false

/-- The body of `TextContent::from_xml`. -/
def from_xml (conv : RawConvert) (node : Node) (version : Int) :
    Except XmlError (List TextContent) :=
  match old_ffmpeg_without_streams node version with
  | .error e => .error e
  | .ok true => .ok []
  | .ok false =>
    if version < 37 then
      match node.optional_number_child conv.to_double "SubtitleXOffset" with
      | .error e => .error e
      | .ok (some _) => (read conv node version).map (fun t => [t])
      | .ok none =>
        match node.optional_number_child conv.to_double "SubtitleOffset" with
        | .error e => .error e
        | .ok (some _) => (read conv node version).map (fun t => [t])
        | .ok none => .ok []
    else
      match node.optional_node_child "Text" with
      | .error e => .error e
      | .ok none => .ok []
      | .ok (some _) => (node.node_children "Text").mapM (fun i => read conv i version)

end TextContent

/-- A conversion table for examples: a few decimal texts, "1" for true. -/
def sample_convert : RawConvert :=
  { to_double := fun s => if s = "0.25" then 1 / 4 else if s = "-0.5" then -1 / 2
      else if s = "1" then 1 else 0
    to_int := fun s => if s = "255" then 255 else 0
    to_bool := fun s => decide (s = "1")
    to_track := fun _ => ⟨0⟩ }

namespace Node

/-- Each of the given tags occurs at most once among the children. -/
def reads_once (n : Node) (tags : List String) : Prop :=
  ∀ name ∈ tags, (n.node_children name).length ≤ 1

instance (n : Node) (tags : List String) : Decidable (n.reads_once tags) :=
  inferInstanceAs (Decidable (∀ name ∈ tags, _))

/-- The tag occurs exactly once among the children. -/
def has_child (n : Node) (name : String) : Prop :=
  (n.node_children name).length = 1

instance (n : Node) (name : String) : Decidable (n.has_child name) :=
  inferInstanceAs (Decidable (_ = 1))

end Node

/-- The tags that `TextContent::TextContent (parent, node, version)` reads through an
`optional_*_child` accessor when the version is below 37; such an accessor throws if its tag
is repeated.  No other tag of the node is looked at. -/
def TextContent.legacy_optional_tags (version : Int) : List String :=
  ["LineSpacing", "OutlineWidth", "Outline", "Shadow", "Effect", "Red", "Green", "Blue"] ++
  (if version ≥ 36 then ["EffectRed", "EffectGreen", "EffectBlue"]
    else ["OutlineRed", "OutlineGreen", "OutlineBlue"]) ++
  ["SubtitleFadeIn", "SubtitleFadeOut", "SubtitleLanguage", "DCPTrack"]

/-- A version-32 content node of an FFmpeg file with a subtitle stream and the legacy subtitle
tags, in which the tags `Path`, `AudioStream` and `Filter` are repeated. -/
def sample_legacy_ffmpeg_node : Node :=
  .mk "Content" "" [
    .mk "Type" "FFmpeg" [],
    .mk "Path" "a.mov" [],
    .mk "Path" "b.mov" [],
    .mk "AudioStream" "" [],
    .mk "AudioStream" "" [],
    .mk "SubtitleStream" "" [],
    .mk "Filter" "yadif" [],
    .mk "Filter" "hqdn3d" [],
    .mk "UseSubtitles" "1" [],
    .mk "BurnSubtitles" "0" [],
    .mk "SubtitleXOffset" "0.25" [],
    .mk "SubtitleYOffset" "-0.5" [],
    .mk "SubtitleXScale" "1" [],
    .mk "SubtitleYScale" "1" [],
    .mk "SubtitleLanguage" "en" []]

/-! ## Locking in the Butler (src/lib/butler.cc)

Which lock is held at each access to a ring buffer is a property of the text of each member
function, not of the interleaving of threads: every member function is followed along the
path it takes in a given state, and its lock, unlock and ring-buffer events are recorded in
order.  A `scoped_lock` is released where its scope ends; `wait` releases the lock it is
given. -/

/-- The two mutexes of the Butler: `_mutex` guards the state, `_buffers_mutex` the buffers. -/
inductive Lock where
  | state
  | buffers
deriving DecidableEq, Repr

/-- The three ring buffers. -/
inductive Buffer where
  | video
  | audio
  | closed_caption
deriving DecidableEq, Repr

/-- The member functions of the ring buffers that the Butler calls. -/
inductive Access where
  | put
  | get
  | clear
  | peek
  | size
  | empty
  | memory_used
deriving DecidableEq, Repr

/-- A synchronisation event of a member function. -/
inductive Event where
  | lock (l : Lock)
  | unlock (l : Lock)
  | access (b : Buffer) (a : Access)
deriving DecidableEq, Repr

namespace Butler

/-- The ring-buffer calls of `Butler::should_run`, in order, along the path taken in `s`. -/
def should_run_events (s : Butler) : List Event :=
  [.access .video .size] ++
  if s._video.size ≥ MAXIMUM_VIDEO_READAHEAD * 10 then
    [.access .audio .peek, .access .video .size, .access .audio .size]
  else
    [.access .audio .size] ++
    if s._audio.size ≥ MAXIMUM_AUDIO_READAHEAD * 10 then
      [.access .audio .peek, .access .audio .size, .access .video .size]
    else
      [.access .video .size] ++
      (if s._video.size ≥ MAXIMUM_VIDEO_READAHEAD * 2 then
        [.access .video .size, .access .audio .size] else []) ++
      [.access .audio .size] ++
      (if s._audio.size ≥ MAXIMUM_AUDIO_READAHEAD * 2 then
        [.access .audio .size, .access .video .size] else []) ++
      if s._stop_thread || s._finished || s._died || (s._suspended != 0) then []
      else
        [.access .video .size] ++
        if decide (s._video.size < MINIMUM_VIDEO_READAHEAD) then []
        else
          (if s._disable_audio then [] else [.access .audio .size]) ++
          if !s._disable_audio && decide (s._audio.size < MINIMUM_AUDIO_READAHEAD) then []
          else
            [.access .video .size] ++
            if decide (s._video.size < MAXIMUM_VIDEO_READAHEAD) then [.access .audio .size]
            else []

/-- The events of `Butler::seek_unlocked`; the caller holds `_mutex`. -/
def seek_unlocked_events (s : Butler) : List Event :=
  if s._died then []
  else
    [.lock .buffers, .access .video .clear, .access .audio .clear,
      .access .closed_caption .clear, .unlock .buffers]

/-- The events of `Butler::memory_used`. -/
def memory_used_events : List Event :=
  [.access .video .memory_used]

/-- The events of each operation, along the path it takes in the state `s`. -/
def events (s : Butler) : Op → List Event
  | .get_video _ =>
    [.lock .state] ++
    (if s._suspended != 0 then []
     else
      [.access .video .empty] ++
      if s._video.empty && !s._finished && !s._died then []
      else
        [.access .video .empty] ++
        if s._video.empty then [] else [.access .video .get]) ++
    [.unlock .state]
  | .get_closed_caption =>
    [.lock .state, .access .closed_caption .get, .unlock .state]
  | .seek _ _ =>
    [.lock .state] ++ seek_unlocked_events s ++ [.unlock .state]
  | .video _ _ =>
    [.lock .state] ++
    (if s._pending_seek_position.isSome then []
     else [.lock .buffers, .access .video .put, .unlock .buffers]) ++
    [.unlock .state]
  | .audio _ _ _ =>
    [.lock .state, .unlock .state] ++
    if s._pending_seek_position.isSome || s._disable_audio then []
    else [.lock .buffers, .access .audio .put, .unlock .buffers]
  | .get_audio _ => [.access .audio .get]
  | .disable_audio => [.lock .state, .unlock .state]
  | .player_change type frequent =>
    [.lock .state] ++
    (match type with
      | .CHANGE_TYPE_PENDING => []
      | .CHANGE_TYPE_DONE =>
        if s._died || s._pending_seek_position.isSome || frequent then []
        else [.access .video .get] ++ seek_unlocked_events s
      | .CHANGE_TYPE_CANCELLED => []) ++
    [.unlock .state]
  | .text _ type track _ =>
    if type ≠ TextType.TEXT_CLOSED_CAPTION then []
    else
      match track with
      | none => []
      | some _ => [.lock .buffers, .access .closed_caption .put, .unlock .buffers]
  | .thread_should_run => [.lock .state] ++ should_run_events s ++ [.unlock .state]
  | .thread_seek => [.lock .state, .unlock .state]
  | .thread_pass _ => [.lock .state, .unlock .state]
  | .thread_interrupted => [.lock .state, .unlock .state]
  | .thread_died => [.lock .state, .unlock .state]
  | .stop => [.lock .state, .unlock .state]

/-- Whether a sequence of events keeps to a locking rule: `allowed state_held buffers_held b a`
says whether the access `a` to the buffer `b` may be made with these locks held; and
`_mutex` must not be taken while `_buffers_mutex` is held. -/
def respects (allowed : Bool → Bool → Buffer → Access → Bool) :
    List Event → Bool → Bool → Bool
  | [], _, _ => true
  | .lock .state :: es, _, buffers_held => !buffers_held && respects allowed es true buffers_held
  | .lock .buffers :: es, state_held, _ => respects allowed es state_held true
  | .unlock .state :: es, _, buffers_held => respects allowed es false buffers_held
  | .unlock .buffers :: es, state_held, _ => respects allowed es state_held false
  | .access b a :: es, state_held, buffers_held =>
    allowed state_held buffers_held b a && respects allowed es state_held buffers_held

/-- The rule of the specification: an access needs `buffers_lock`, except that the queries
(peek, size, empty, memory_used) may be made with `state_lock` held instead. -/
def specified_rule (state_held buffers_held : Bool) (_b : Buffer) (a : Access) : Bool :=
  buffers_held ||
    (state_held && (a = .peek || a = .size || a = .empty || a = .memory_used))

/-- The rule the code keeps: put and clear are made with `_buffers_mutex` held; get and the
queries peek, size and empty are made with `_mutex` held and `_buffers_mutex` not held; the
get of the audio buffer may also be made with no lock of the Butler held, and so is the
memory_used of the video buffer. -/
def kept_rule (state_held buffers_held : Bool) (b : Buffer) (a : Access) : Bool :=
  match a with
  | .put => buffers_held
  | .clear => buffers_held
  | .get => (state_held && !buffers_held) || (b = .audio && !state_held && !buffers_held)
  | .peek => state_held && !buffers_held
  | .size => state_held && !buffers_held
  | .empty => state_held && !buffers_held
  | .memory_used => b = .video && !state_held && !buffers_held

end Butler

/-! ## Player change handling (src/lib/player.cc) -/

/-- The property identifiers that `Player::content_changed` compares with; their values are
defined outside the sources at hand. -/
structure PropertyIds where
  POSITION : Int
  LENGTH : Int
  TRIM_START : Int
  TRIM_END : Int
  PATH : Int
  VIDEO_FRAME_TYPE : Int
  SUBTITLE_X_OFFSET : Int
  SUBTITLE_Y_OFFSET : Int
  SUBTITLE_SCALE : Int
  VIDEO_CROP : Int
  VIDEO_SCALE : Int
  VIDEO_FRAME_RATE : Int
deriving DecidableEq, Repr

namespace PropertyIds

/-- The properties that change the timeline: the first group of `content_changed`. -/
def timeline (ids : PropertyIds) : List Int :=
  [ids.POSITION, ids.LENGTH, ids.TRIM_START, ids.TRIM_END, ids.PATH, ids.VIDEO_FRAME_TYPE]

/-- The properties that change the picture only: the second group of `content_changed`. -/
def picture (ids : PropertyIds) : List Int :=
  [ids.SUBTITLE_X_OFFSET, ids.SUBTITLE_Y_OFFSET, ids.SUBTITLE_SCALE, ids.VIDEO_CROP,
    ids.VIDEO_SCALE, ids.VIDEO_FRAME_RATE]

end PropertyIds

/-- Property identifiers for examples, all different. -/
def sample_ids : PropertyIds :=
  ⟨400, 401, 402, 403, 404, 1, 500, 501, 502, 3, 4, 5⟩

namespace Player

/-- The body of `Player::content_changed`; `live` says whether the weak pointer to the content
can still be locked. -/
def content_changed (ids : PropertyIds) (p : Player) (live : Bool) (property : Int)
    (frequent : Bool) : Player :=
  if !live then p
  else if property = ids.POSITION ∨ property = ids.LENGTH ∨ property = ids.TRIM_START ∨
      property = ids.TRIM_END ∨ property = ids.PATH ∨ property = ids.VIDEO_FRAME_TYPE then
    { p with _have_valid_pieces := false, changed := p.changed ++ [frequent] }
  else if property = ids.SUBTITLE_X_OFFSET ∨ property = ids.SUBTITLE_Y_OFFSET ∨
      property = ids.SUBTITLE_SCALE ∨ property = ids.VIDEO_CROP ∨
      property = ids.VIDEO_SCALE ∨ property = ids.VIDEO_FRAME_RATE then
    { p with changed := p.changed ++ [frequent] }
  else p

/-- The body of `Player::playlist_changed`. -/
def playlist_changed (p : Player) : Player :=
  { p with _have_valid_pieces := false, changed := p.changed ++ [false] }

end Player

/-! ## DCPContent::directory (src/lib/dcp_content.cc) -/

/-- A `boost::filesystem::path` as the sequence of its components. -/
abbrev Path := List String

/-- The path without its last component: `parent_path ()`. -/
def Path.parent_path (p : Path) : Path :=
  p.dropLast

namespace DCPContent

/-- One turn of the loop of `DCPContent::directory`, on the pair (`smallest`, `dir`): nothing
assigns `smallest`. -/
def directory_step (state : Option Nat × Path) (path : Path) : Option Nat × Path :=
  let p := path.parent_path
  let d := p.length
  match state.1 with
  | none => (state.1, p)
  | some smallest => if d < smallest then (state.1, p) else state

/-- The body of `DCPContent::directory`, on the paths of the content. -/
def directory (paths : List Path) : Path :=
  (paths.foldl directory_step (none, [])).2

end DCPContent

/-! ## HintsDialog (src/wx/hints_dialog.cc) -/

/-- What `HintsDialog::film_changed` reads from the film and its content. -/
structure HintsFilm where
  interop : Bool
  font_file_sizes : List Nat
  audio_channels : Int
  ratio_ids : List (Option String)
  container_id : String
  video_frame_rate : Int
  j2k_bandwidth : Int
  file_names : List String
  video_frame_types_3d : List Bool
  three_d : Bool

/-- The texts `HintsDialog::film_changed` can write. -/
inductive Hint where
  | big_font_files
  | odd_audio_channels
  | fewer_than_6_audio_channels
  | no_audio_channels
  | scope_in_flat
  | flat_in_scope
  | frame_rate (rate : Int)
  | high_bandwidth
  | interop_frame_rate
  | vob_files (n : Nat)
  | three_d_in_2d
  | no_hints
deriving DecidableEq, Repr

namespace HintsDialog

/-- The audio-channel block of `HintsDialog::film_changed`; `%` is the C remainder. -/
def audio_channel_hints (audio_channels : Int) : List Hint :=
  if Int.tmod audio_channels 2 ≠ 0 then [.odd_audio_channels]
  else if audio_channels < 6 then [.fewer_than_6_audio_channels]
  else if audio_channels = 0 then [.no_audio_channels]
  else []

/-- The body of `HintsDialog::film_changed`: the texts written to the (cleared) text control,
in order; nothing is written when the film is gone. -/
def film_changed (film : Option HintsFilm) : List Hint :=
  match film with
  | none => []
  | some film =>
    let big_font_files := film.interop && film.font_file_sizes.any (fun s => s ≥ 640 * 1024)
    let scope := (film.ratio_ids.filter (fun r => r = some "239")).length
    let flat_or_narrower :=
      (film.ratio_ids.filter
        (fun r => r.isSome && r ≠ some "239" && r ≠ some "full-frame")).length
    let vob := (film.file_names.filter (fun n => n.data.take 4 = "VTS_".data)).length
    let three_d := (film.video_frame_types_3d.filter id).length
    let hints :=
      (if big_font_files then [Hint.big_font_files] else []) ++
      audio_channel_hints film.audio_channels ++
      (if scope ≠ 0 ∧ flat_or_narrower = 0 ∧ film.container_id = "185" then [Hint.scope_in_flat]
        else []) ++
      (if scope = 0 ∧ flat_or_narrower ≠ 0 ∧ film.container_id = "239" then [Hint.flat_in_scope]
        else []) ++
      (if film.video_frame_rate ≠ 24 ∧ film.video_frame_rate ≠ 48 then
        [Hint.frame_rate film.video_frame_rate] else []) ++
      (if film.j2k_bandwidth ≥ 245000000 then [Hint.high_bandwidth] else []) ++
      (if film.interop ∧ film.video_frame_rate ≠ 24 ∧ film.video_frame_rate ≠ 48 then
        [Hint.interop_frame_rate] else []) ++
      (if vob > 1 then [Hint.vob_files vob] else []) ++
      (if three_d > 0 ∧ !film.three_d then [Hint.three_d_in_2d] else [])
    if hints.isEmpty then [Hint.no_hints] else hints

end HintsDialog

/-! ## FFmpegContent::add_properties (src/lib/ffmpeg_content.cc) -/

/-- The colour range of a stream, `AVColorRange`. -/
inductive AVColorRange where
  | AVCOL_RANGE_UNSPECIFIED
  | AVCOL_RANGE_MPEG
  | AVCOL_RANGE_JPEG
  | AVCOL_RANGE_NB
deriving DecidableEq, Repr

/-- The value of the "Colour range" property that `add_properties` appends. -/
inductive ColourRange where
  | unspecified
  | limited
  | limited_values (low high : Int)
  | full
  | full_value (total : Int)
deriving DecidableEq, Repr

/-- Whether a value fits a 32-bit `int`. -/
def fits_int (n : Int) : Bool :=
  decide (-2147483648 ≤ n) && decide (n ≤ 2147483647)

/-- The conversion of a `double` to `int`: the fraction is discarded; the result is undefined
(`none`) when it does not fit. -/
def double_to_int (q : ℚ) : Option Int :=
  if fits_int (trunc q) then some (trunc q) else none

/-- An `int` result that is undefined (`none`) when it overflows. -/
def checked_int (n : Int) : Option Int :=
  if fits_int n then some n else none

namespace FFmpegContent

/-- The colour-range block of `FFmpegContent::add_properties`: `none` when the behaviour is
undefined (an `int` overflows), an exception when the assertion of the `default` case fails,
otherwise the property appended. -/
def colour_range_property (_bits_per_pixel : Option Int) (_color_range : AVColorRange) :
    Option (Except ProgrammingError ColourRange) :=
  match _bits_per_pixel with
  | some bits =>
    match double_to_int (219 * (2 : ℚ) ^ (bits - 8)), double_to_int ((2 : ℚ) ^ bits) with
    | some sub, some total =>
      match _color_range with
      | .AVCOL_RANGE_UNSPECIFIED => some (.ok .unspecified)
      | .AVCOL_RANGE_MPEG =>
        match checked_int (total - sub), checked_int (total + sub) with
        | some a, some b => some (.ok (.limited_values (Int.tdiv a 2) (Int.tdiv b 2)))
        | _, _ => none
      | .AVCOL_RANGE_JPEG => some (.ok (.full_value total))
      | .AVCOL_RANGE_NB => some (.error .assertion_failed)
    | _, _ => none
  | none =>
    match _color_range with
    | .AVCOL_RANGE_UNSPECIFIED => some (.ok .unspecified)
    | .AVCOL_RANGE_MPEG => some (.ok .limited)
    | .AVCOL_RANGE_JPEG => some (.ok .full)
    | .AVCOL_RANGE_NB => some (.error .assertion_failed)

end FFmpegContent

/-! ## TextContent: the joining constructor (src/lib/text_content.cc) -/

/-- What the joining constructor throws: a `JoinError` with its message, or the
`ProgrammingError` of a failed `DCPOMATIC_ASSERT`. -/
inductive JoinFailure where
  | JoinError (message : String)
  | assertion_failed
deriving DecidableEq, Repr

namespace TextContent

/-- The body of the loop of `TextContent::TextContent (parent, c)` for one `c[i]`, `t` being
`c[i]->only_text()`; `font_ne` is `operator!=` of `Font`, which is not part of the sources at
hand. -/
def join_check (font_ne : Font → Font → Bool) (ref t : TextContent) : Except JoinFailure Unit :=
  if t._use ≠ ref._use then
    .error (.JoinError "Content to be joined must have the same 'use subtitles' setting.")
  else if t._burn ≠ ref._burn then
    .error (.JoinError "Content to be joined must have the same 'burn subtitles' setting.")
  else if t._x_offset ≠ ref._x_offset then
    .error (.JoinError "Content to be joined must have the same subtitle X offset.")
  else if t._y_offset ≠ ref._y_offset then
    .error (.JoinError "Content to be joined must have the same subtitle Y offset.")
  else if t._x_scale ≠ ref._x_scale then
    .error (.JoinError "Content to be joined must have the same subtitle X scale.")
  else if t._y_scale ≠ ref._y_scale then
    .error (.JoinError "Content to be joined must have the same subtitle Y scale.")
  else if t._line_spacing ≠ ref._line_spacing then
    .error (.JoinError "Content to be joined must have the same subtitle line spacing.")
  else if t._fade_in ≠ ref._fade_in ∨ t._fade_out ≠ ref._fade_out then
    .error (.JoinError "Content to be joined must have the same subtitle fades.")
  else if t._outline_width ≠ ref._outline_width then
    .error (.JoinError "Content to be joined must have the same outline width.")
  else if t._fonts.length ≠ ref._fonts.length then
    .error (.JoinError "Content to be joined must use the same fonts.")
  else if t._dcp_track ≠ ref._dcp_track then
    .error (.JoinError "Content to be joined must use the same DCP track.")
  else if (ref._fonts.zip t._fonts).any (fun jk => font_ne jk.1 jk.2) then
    .error (.JoinError "Content to be joined must use the same fonts.")
  else .ok ()

/-- The loop of the joining constructor over `c[1]`, `c[2]`, ... -/
def join_checks (font_ne : Font → Font → Bool) (ref : TextContent) :
    List TextContent → Except JoinFailure Unit
  | [] => .ok ()
  | t :: rest =>
    match join_check font_ne ref t with
    | .error e => .error e
    | .ok () => join_checks font_ne ref rest

/-- The constructor `TextContent::TextContent (parent, c)`: `c0` is `c[0]->only_text()`, null
when the content has no text, and `rest` holds `c[i]->only_text()` for i ≥ 1.  The members the
constructor does not assign (`_colour`, `_effect`, `_effect_colour`) stay unset. -/
def join (font_ne : Font → Font → Bool) (c0 : Option TextContent) (rest : List TextContent) :
    Except JoinFailure TextContent :=
  match c0 with
  | none => .error .assertion_failed
  | some ref =>
    match join_checks font_ne ref rest with
    | .error e => .error e
    | .ok () =>
      .ok
        { _use := ref._use, _burn := ref._burn, _x_offset := ref._x_offset
          _y_offset := ref._y_offset, _x_scale := ref._x_scale, _y_scale := ref._y_scale
          _language := ref._language, _fonts := ref._fonts, _line_spacing := ref._line_spacing
          _fade_in := ref._fade_in, _fade_out := ref._fade_out
          _outline_width := ref._outline_width, _type := ref._type
          _original_type := ref._original_type, _dcp_track := ref._dcp_track
          _colour := none, _effect := none, _effect_colour := none }

/-- The difference between `c[i]` and `c[0]` that the specification of the joining constructor
names: one of the listed fields, the number of fonts, or a pair of fonts at the same place. -/
def join_differs (font_ne : Font → Font → Bool) (ref t : TextContent) : Prop :=
  t._use ≠ ref._use ∨ t._burn ≠ ref._burn ∨ t._x_offset ≠ ref._x_offset ∨
  t._y_offset ≠ ref._y_offset ∨ t._x_scale ≠ ref._x_scale ∨ t._y_scale ≠ ref._y_scale ∨
  t._line_spacing ≠ ref._line_spacing ∨ t._fade_in ≠ ref._fade_in ∨
  t._fade_out ≠ ref._fade_out ∨ t._outline_width ≠ ref._outline_width ∨
  t._dcp_track ≠ ref._dcp_track ∨ t._fonts.length ≠ ref._fonts.length ∨
  ∃ i, ∃ (h1 : i < ref._fonts.length) (h2 : i < t._fonts.length),
    font_ne (ref._fonts.get ⟨i, h1⟩) (t._fonts.get ⟨i, h2⟩) = true

end TextContent

/-! ## SubtitleDecoder::emit_text_start (ContentTime, sub::Subtitle) (src/lib/subtitle_decoder.cc)

The subtitle comes from the subtitle-reading library; its types are held as plain records, and
what the function calls on them, and on the time types, is taken as a parameter. -/

namespace Sub

end Sub

namespace SubtitleDecoder

end SubtitleDecoder

/-! ## Timeline (src/wx/timeline.cc)

The view objects are held by index: `view k` is the part of object `k` that `assign_tracks`
only reads, `track k` its `_track` member, and a `TimelineViewList` is a list of indices. -/

/-- The dynamic type of a view object.  Each content view class derives from
`TimelineContentView`, as `TimelineSubtitleContentView` does in
`timeline_subtitle_content_view.h`, so a `dynamic_pointer_cast` to one of them succeeds for
views of that class only. -/
inductive ViewType where
  | video
  | text
  | audio
  | atmos
  | other_content
  | not_content
deriving DecidableEq, Repr

/-- What `assign_tracks` reads of a view: its type, the position and end of its content, and
whether its video frame type is VIDEO_FRAME_TYPE_3D_RIGHT. -/
structure TimelineView where
  type : ViewType
  position : DCPTime
  end_time : DCPTime
  frame_type_3d_right : Bool
deriving DecidableEq, Repr

/-- Modelled from the spec: `DCPTimePeriod::overlap` (dcpomatic_time.h is absent), used as a
test: the periods [from, to) have a time in common. -/
def DCPTimePeriod.overlap (a b : DCPTimePeriod) : Bool :=
  decide (max a.from_time b.from_time < min a.to_time b.to_time)

/-- The state that `Timeline::assign_tracks` reads and writes. -/
structure Timeline where
  _views : List Nat
  view : Nat → TimelineView
  track : Nat → Option Int
  _tracks : Int
  have_3d : Bool
  audio_tracks : Int
  text_tracks : Int
  have_atmos : Bool

namespace Timeline

/-- The result of `dynamic_pointer_cast<TimelineContentView>`, as a test. -/
def is_content (v : TimelineView) : Bool := decide (v.type ≠ .not_content)

/-- The result of `dynamic_pointer_cast<T>` for a content view class `T`, as a test. -/
def is_type (T : ViewType) (v : TimelineView) : Bool := decide (v.type = T)

/-- The period `DCPTimePeriod (content->position(), content->end(film))` of a view. -/
def content_period (v : TimelineView) : DCPTimePeriod := ⟨v.position, v.end_time⟩

/-- The inner loop of `place<T>`: whether the scan of `views` stops before the end, at a view
of type `T` on track `t` whose period overlaps `period`. -/
def overlap_on_track (T : ViewType) (view : Nat → TimelineView) (track : Nat → Option Int)
    (views : List Nat) (period : DCPTimePeriod) (t : Int) : Bool :=
  views.any (fun j =>
    is_type T (view j) && decide (track j = some t) &&
      period.overlap (content_period (view j)))

/-- The `while (true)` loop of `place<T>`, from the track `t`, with a bound on the number of
passes: the track on which the loop leaves, `none` if the bound is reached. -/
def find_track (T : ViewType) (view : Nat → TimelineView) (track : Nat → Option Int)
    (views : List Nat) (period : DCPTimePeriod) : Nat → Int → Option Int
  | 0, _ => none
  | fuel + 1, t =>
    if overlap_on_track T view track views period t then
      find_track T view track views period fuel (t + 1)
    else some t

/-- The outer loop of `place<T>` over the views still to visit, on the pair (`track`,
`tracks`). -/
def place_loop (T : ViewType) (view : Nat → TimelineView) (views : List Nat) (base : Int) :
    List Nat → (Nat → Option Int) × Int → Option ((Nat → Option Int) × Int)
  | [], state => some state
  | i :: rest, state =>
    if !is_type T (view i) then place_loop T view views base rest state
    else
      match find_track T view state.1 views (content_period (view i)) (views.length + 1) base
        with
      | none => none
      | some t =>
        place_loop T view views base rest (Function.update state.1 i (some t), max state.2 (t + 1))

/-- The function `place<T> (film, views, tracks)`: the tracks of the views, the new value of
`tracks` and the value returned; `none` if a `while (true)` loop has not left after
`views.size() + 1` passes. -/
def place (T : ViewType) (view : Nat → TimelineView) (views : List Nat)
    (track : Nat → Option Int) (tracks : Int) : Option ((Nat → Option Int) × Int × Int) :=
  let base := tracks
  match place_loop T view views base views (track, tracks) with
  | none => none
  | some (track1, tracks1) => some (track1, tracks1, tracks1 - base)

/-- The first loop of `assign_tracks`: the track of every content view is unset. -/
def unset_tracks (view : Nat → TimelineView) (views : List Nat) (track : Nat → Option Int) :
    Nat → Option Int :=
  views.foldl (fun tr i => if is_content (view i) then Function.update tr i none else tr) track

/-- The video loop of `assign_tracks`, on (`track`, `_tracks`, `have_3d`). -/
def video_tracks (view : Nat → TimelineView) (views : List Nat)
    (state : (Nat → Option Int) × Int × Bool) : (Nat → Option Int) × Int × Bool :=
  views.foldl
    (fun st i =>
      if !is_type .video (view i) then st
      else if (view i).frame_type_3d_right then
        (Function.update st.1 i (some 1), max st.2.1 2, true)
      else (Function.update st.1 i (some 0), st.2.1, st.2.2))
    state

/-- The Atmos loop of `assign_tracks`, on (`track`, `have_atmos`): it visits the views that
cast to `TimelineVideoContentView` and, among them, those that cast to
`TimelineAtmosContentView`. -/
def atmos_tracks (view : Nat → TimelineView) (views : List Nat) (tracks : Int)
    (state : (Nat → Option Int) × Bool) : (Nat → Option Int) × Bool :=
  views.foldl
    (fun st i =>
      if !is_type .video (view i) then st
      else if is_type .atmos (view i) then (Function.update st.1 i (some (tracks - 1)), true)
      else st)
    state

/-- The function `Timeline::assign_tracks`; `sort` is
`sort (views.begin(), views.end(), AudioMappingComparator())` on the copy of `_views`. -/
def assign_tracks (sort : List Nat → List Nat) (tl : Timeline) : Option Timeline :=
  let track0 := unset_tracks tl.view tl._views tl.track
  let (track1, tracks1, have_3d) := video_tracks tl.view tl._views (track0, 0, false)
  let tracks2 := max tracks1 1
  match place .text tl.view tl._views track1 tracks2 with
  | none => none
  | some (track3, tracks3, text_tracks) =>
    let (track4, have_atmos) := atmos_tracks tl.view tl._views tracks3 (track3, false)
    let tracks4 := if have_atmos then tracks3 + 1 else tracks3
    let views := sort tl._views
    match place .audio tl.view views track4 tracks4 with
    | none => none
    | some (track5, tracks5, audio_tracks) =>
      some
        { tl with
          track := track5, _tracks := tracks5, have_3d := have_3d
          audio_tracks := audio_tracks, text_tracks := text_tracks, have_atmos := have_atmos }

/-- The track from which `assign_tracks` places the text views: 2 if some video view is for
the right eye of 3D, otherwise 1. -/
def text_base (tl : Timeline) : Int :=
  if tl._views.any (fun i => is_type .video (tl.view i) && (tl.view i).frame_type_3d_right)
  then 2 else 1

/-- Three text views over [0, 10), [5, 15) and [10, 20), then two audio views over [0, 10)
and [0, 5) and a video view over [0, 20). -/
def sample_view (k : Nat) : TimelineView :=
  match k with
  | 0 => ⟨.text, 0, 10, false⟩
  | 1 => ⟨.text, 5, 15, false⟩
  | 2 => ⟨.text, 10, 20, false⟩
  | 3 => ⟨.audio, 0, 10, false⟩
  | 4 => ⟨.audio, 0, 5, false⟩
  | 5 => ⟨.video, 0, 20, false⟩
  | _ => ⟨.not_content, 0, 0, false⟩

/-- A timeline with the six views of `sample_view`, none with a track. -/
def sample_timeline : Timeline :=
  { _views := [0, 1, 2, 3, 4, 5], view := sample_view, track := fun _ => none, _tracks := 0
    have_3d := false, audio_tracks := 0, text_tracks := 0, have_atmos := false }

end Timeline

namespace Timeline

/-- What the specification asks of the track of a view `i` of type `T`, given the views
`pre` placed before it: `i` is on a track at or above `base` on which no view of `pre` of type
`T` has a period overlapping that of `i`, and on every track from `base` up to its own there is
such a view. -/
def lowest_free (T : ViewType) (view : Nat → TimelineView) (track : Nat → Option Int)
    (base : Int) (pre : List Nat) (i : Nat) : Prop :=
  ∃ t, track i = some t ∧ base ≤ t ∧
    (∀ j ∈ pre, is_type T (view j) = true → track j = some t →
      (content_period (view i)).overlap (content_period (view j)) = false) ∧
    (∀ u, base ≤ u → u < t →
      ∃ j ∈ pre, is_type T (view j) = true ∧ track j = some u ∧
        (content_period (view i)).overlap (content_period (view j)) = true)

/-- Whether the view `j` has a track, and one at or above `t`. -/
def track_at_or_above (track : Nat → Option Int) (t : Int) (j : Nat) : Bool :=
  match track j with
  | some u => decide (t ≤ u)
  | none => false

end Timeline

/-! ## TextContent::as_xml (src/lib/text_content.cc) -/

/-- The conversions to text that `as_xml` calls and that are not among the sources:
`raw_convert<string>` of a `double` and of an integer, `text_type_to_string`, and the
`as_xml` of `Font` and of `DCPTextTrack`, which fill the element they are given. -/
structure RawWrite where
  of_double : ℚ → String
  of_int : Int → String
  text_type_to_string : TextType → String
  font_as_xml : Font → Node → Node
  track_as_xml : DCPTextTrack → Node → Node

namespace TextContent

/-- The children `as_xml` adds for `_colour`. -/
def colour_nodes (w : RawWrite) (colour : Option Colour) : List Node :=
  match colour with
  | some c =>
    [.mk "Red" (w.of_int c.r) [], .mk "Green" (w.of_int c.g) [], .mk "Blue" (w.of_int c.b) []]
  | none => []

/-- The child `as_xml` adds for `_effect`. -/
def effect_nodes (effect : Option Effect) : List Node :=
  match effect with
  | some .NONE => [.mk "Effect" "none" []]
  | some .BORDER => [.mk "Effect" "outline" []]
  | some .SHADOW => [.mk "Effect" "shadow" []]
  | none => []

/-- The children `as_xml` adds for `_effect_colour`. -/
def effect_colour_nodes (w : RawWrite) (colour : Option Colour) : List Node :=
  match colour with
  | some c =>
    [.mk "EffectRed" (w.of_int c.r) [], .mk "EffectGreen" (w.of_int c.g) [],
     .mk "EffectBlue" (w.of_int c.b) []]
  | none => []

/-- The child `as_xml` adds for `_fade_in` or `_fade_out`. -/
def fade_nodes (w : RawWrite) (tag : String) (fade : Option ContentTime) : List Node :=
  match fade with
  | some f => [.mk tag (w.of_int f) []]
  | none => []

/-- The children `as_xml` adds for `_fonts`. -/
def font_nodes (w : RawWrite) (fonts : List Font) : List Node :=
  fonts.map (fun i => w.font_as_xml i (.mk "Font" "" []))

/-- The child `as_xml` adds for `_dcp_track`. -/
def track_nodes (w : RawWrite) (track : Option DCPTextTrack) : List Node :=
  match track with
  | some d => [w.track_as_xml d (.mk "DCPTrack" "" [])]
  | none => []

/-- The `<Text>` element that `TextContent::as_xml` builds. -/
def as_xml_text (w : RawWrite) (t : TextContent) : Node :=
  .mk "Text" ""
    ([ .mk "Use" (if t._use then "1" else "0") [],
       .mk "Burn" (if t._burn then "1" else "0") [],
       .mk "XOffset" (w.of_double t._x_offset) [],
       .mk "YOffset" (w.of_double t._y_offset) [],
       .mk "XScale" (w.of_double t._x_scale) [],
       .mk "YScale" (w.of_double t._y_scale) [],
       .mk "Language" t._language [] ] ++
     colour_nodes w t._colour ++
     effect_nodes t._effect ++
     effect_colour_nodes w t._effect_colour ++
     [ .mk "LineSpacing" (w.of_double t._line_spacing) [] ] ++
     fade_nodes w "FadeIn" t._fade_in ++
     fade_nodes w "FadeOut" t._fade_out ++
     [ .mk "OutlineWidth" (w.of_int t._outline_width) [] ] ++
     font_nodes w t._fonts ++
     [ .mk "Type" (w.text_type_to_string t._type) [],
       .mk "OriginalType" (w.text_type_to_string t._original_type) [] ] ++
     track_nodes w t._dcp_track)

/-- The function `TextContent::as_xml (root)`: the `<Text>` element is added to `root`. -/
def as_xml (w : RawWrite) (t : TextContent) (root : Node) : Node :=
  .mk root.name root.content (root.children ++ [as_xml_text w t])

/-- What loading what `as_xml` wrote needs of the conversions that are not among the sources:
on the values held by `t`, reading a text gives back the value it was written from, and the
`as_xml` of `Font` and `DCPTextTrack` leave the name of their element alone. -/
structure reads_back (conv : RawConvert) (w : RawWrite) (t : TextContent) : Prop where
  bool_true : conv.to_bool "1" = true
  bool_false : conv.to_bool "0" = false
  x_offset : conv.to_double (w.of_double t._x_offset) = t._x_offset
  y_offset : conv.to_double (w.of_double t._y_offset) = t._y_offset
  x_scale : conv.to_double (w.of_double t._x_scale) = t._x_scale
  y_scale : conv.to_double (w.of_double t._y_scale) = t._y_scale
  line_spacing : conv.to_double (w.of_double t._line_spacing) = t._line_spacing
  outline_width : conv.to_int (w.of_int t._outline_width) = t._outline_width
  colour : ∀ c, t._colour = some c →
    conv.to_int (w.of_int c.r) = c.r ∧ conv.to_int (w.of_int c.g) = c.g ∧
      conv.to_int (w.of_int c.b) = c.b
  effect_colour : ∀ c, t._effect_colour = some c →
    conv.to_int (w.of_int c.r) = c.r ∧ conv.to_int (w.of_int c.g) = c.g ∧
      conv.to_int (w.of_int c.b) = c.b
  fade_in : ∀ f, t._fade_in = some f → conv.to_int (w.of_int f) = f
  fade_out : ∀ f, t._fade_out = some f → conv.to_int (w.of_int f) = f
  type : string_to_text_type (w.text_type_to_string t._type) = .ok t._type
  original_type :
    string_to_text_type (w.text_type_to_string t._original_type) = .ok t._original_type
  dcp_track : ∀ d, t._dcp_track = some d →
    conv.to_track (w.track_as_xml d (.mk "DCPTrack" "" [])) = d ∧
      (w.track_as_xml d (.mk "DCPTrack" "" [])).name = "DCPTrack"
  fonts : ∀ f ∈ t._fonts, (w.font_as_xml f (.mk "Font" "" [])).name = "Font"

end TextContent

/-- A writer for examples: the decimal texts that `sample_convert` reads, and elements left
as they are by the `as_xml` of `Font` and `DCPTextTrack`. -/
def sample_write : RawWrite :=
  { of_double := fun q => if q = 1 / 4 then "0.25" else if q = -1 / 2 then "-0.5"
      else if q = 1 then "1" else "0"
    of_int := fun n => if n = 255 then "255" else "0"
    text_type_to_string := fun t =>
      match t with
      | .TEXT_OPEN_SUBTITLE => "open"
      | .TEXT_CLOSED_CAPTION => "closed"
    font_as_xml := fun _ n => n
    track_as_xml := fun _ n => n }

/-- A text with white colour, the BORDER effect and a DCP track, whose other optional members
are unset. -/
def sample_text_with_effect : TextContent :=
  { _use := true, _burn := false, _x_offset := 1 / 4, _y_offset := -1 / 2, _x_scale := 1
    _y_scale := 1, _fonts := [], _language := "en", _colour := some ⟨255, 255, 255⟩
    _effect := some .BORDER, _effect_colour := none, _line_spacing := 1, _fade_in := none
    _fade_out := none, _outline_width := 0, _type := .TEXT_CLOSED_CAPTION
    _original_type := .TEXT_OPEN_SUBTITLE, _dcp_track := some ⟨0⟩ }

/-- The same text with `_effect` unset. -/
def sample_text_without_effect : TextContent :=
  { sample_text_with_effect with _effect := none }

/-- A Player whose video container is 1998 x 1080 pixels. -/
def sample_player_flat : Player :=
  (Player.create sample_film []).set_video_container_size ⟨1998, 1080⟩

/-- An image subtitle at the left of the top edge whose x and width are the `double`s nearest
to 800/1920 and 320/1920, and whose y and height are 0. -/
def sample_image_subtitle_sixth : ContentImageSubtitle :=
  ⟨some ⟨"PIX_FMT_RGBA", ⟨320, 80⟩, true, .decoded 5⟩,
    ⟨7505999378950827 / 2 ^ 54, 0, 6004799503160661 / 2 ^ 55, 0⟩⟩

/-! ## Theorems -/

namespace Butler

/-- The readahead constants as numbers. -/
theorem readahead_values :
    MINIMUM_VIDEO_READAHEAD = 10 ∧ MAXIMUM_VIDEO_READAHEAD = 48 ∧
    MINIMUM_AUDIO_READAHEAD = 20000 ∧ MAXIMUM_AUDIO_READAHEAD = 96000 := by
  refine ⟨rfl, rfl, ?_, ?_⟩ <;> decide

/-- C1, as stated, fails: with an empty video queue and an audio queue of exactly
`MAXIMUM_AUDIO_READAHEAD` frames (below the fatal bound), and no flag set, `should_run`
returns true although the audio queue is not below `MAXIMUM_AUDIO_READAHEAD`. -/
theorem should_run_true_with_audio_at_maximum :
    audio_full_video_empty._video.size < MAXIMUM_VIDEO_READAHEAD * 10 ∧
    audio_full_video_empty._audio.size < MAXIMUM_AUDIO_READAHEAD * 10 ∧
    audio_full_video_empty.should_run = .ok true ∧
    MAXIMUM_AUDIO_READAHEAD ≤ audio_full_video_empty._audio.size ∧
    ¬ (audio_full_video_empty.should_run = .ok true ↔
        (audio_full_video_empty._stop_thread = false ∧ audio_full_video_empty._finished = false ∧
          audio_full_video_empty._died = false ∧ audio_full_video_empty._suspended = 0 ∧
          audio_full_video_empty._video.size < MAXIMUM_VIDEO_READAHEAD ∧
          audio_full_video_empty._audio.size < MAXIMUM_AUDIO_READAHEAD ∧
          ((audio_full_video_empty._video.size < MINIMUM_VIDEO_READAHEAD ∨
              audio_full_video_empty._audio.size < MINIMUM_AUDIO_READAHEAD) ∨
            (audio_full_video_empty._video.size < MAXIMUM_VIDEO_READAHEAD ∧
              audio_full_video_empty._audio.size < MAXIMUM_AUDIO_READAHEAD)))) := by
  decide

/-- C1, amended: below the fatal bounds `should_run` returns a boolean, and it is true exactly
when none of stop_thread, finished, died, suspended is set and either the video queue is below
`MINIMUM_VIDEO_READAHEAD`, or audio is enabled and the audio queue is below
`MINIMUM_AUDIO_READAHEAD`, or both queues are below their maxima. -/
theorem should_run_spec (s : Butler)
    (hv : s._video.size < MAXIMUM_VIDEO_READAHEAD * 10)
    (ha : s._audio.size < MAXIMUM_AUDIO_READAHEAD * 10) :
    (∃ b, s.should_run = .ok b) ∧
    (s.should_run = .ok true ↔
      (s._stop_thread = false ∧ s._finished = false ∧ s._died = false ∧ s._suspended = 0) ∧
      (s._video.size < MINIMUM_VIDEO_READAHEAD ∨
        (s._disable_audio = false ∧ s._audio.size < MINIMUM_AUDIO_READAHEAD) ∨
        (s._video.size < MAXIMUM_VIDEO_READAHEAD ∧ s._audio.size < MAXIMUM_AUDIO_READAHEAD))) := by
  have hv' : ¬ (s._video.size ≥ MAXIMUM_VIDEO_READAHEAD * 10) := Nat.not_le.mpr hv
  have ha' : ¬ (s._audio.size ≥ MAXIMUM_AUDIO_READAHEAD * 10) := Nat.not_le.mpr ha
  unfold should_run
  rw [if_neg hv', if_neg ha']
  constructor
  · split
    · exact ⟨_, rfl⟩
    · split <;> exact ⟨_, rfl⟩
  · rcases hst : s._stop_thread <;> rcases hf : s._finished <;> rcases hd : s._died <;>
      by_cases hs : s._suspended = 0 <;> by_cases h1 : s._video.size < MINIMUM_VIDEO_READAHEAD <;>
      rcases hda : s._disable_audio <;>
      by_cases h2 : s._audio.size < MINIMUM_AUDIO_READAHEAD <;>
      by_cases h3 : s._video.size < MAXIMUM_VIDEO_READAHEAD <;>
      by_cases h4 : s._audio.size < MAXIMUM_AUDIO_READAHEAD <;>
      simp [hs, h1, h2, h3, h4]

/-- Witness for `should_run_spec`: a fresh Butler is below both fatal bounds. -/
theorem should_run_spec_witness :
    (∃ b, (init ⟨0⟩ 6).should_run = .ok b) ∧
    ((init ⟨0⟩ 6).should_run = .ok true ↔
      ((init ⟨0⟩ 6)._stop_thread = false ∧ (init ⟨0⟩ 6)._finished = false ∧
        (init ⟨0⟩ 6)._died = false ∧ (init ⟨0⟩ 6)._suspended = 0) ∧
      ((init ⟨0⟩ 6)._video.size < MINIMUM_VIDEO_READAHEAD ∨
        ((init ⟨0⟩ 6)._disable_audio = false ∧
          (init ⟨0⟩ 6)._audio.size < MINIMUM_AUDIO_READAHEAD) ∨
        ((init ⟨0⟩ 6)._video.size < MAXIMUM_VIDEO_READAHEAD ∧
          (init ⟨0⟩ 6)._audio.size < MAXIMUM_AUDIO_READAHEAD))) :=
  should_run_spec (init ⟨0⟩ 6) (by decide) (by decide)

/-- C2, as stated, fails: with an empty video queue and an audio queue of exactly
10 × `MAXIMUM_AUDIO_READAHEAD` = 960000 frames (so |video| ≤ 480 and |audio| ≤ 960000, and
neither bound is exceeded) `should_run` raises ProgrammingError instead of returning. -/
theorem should_run_raises_at_fatal_bound :
    audio_at_fatal_bound._video.size ≤ 480 ∧ audio_at_fatal_bound._audio.size ≤ 960000 ∧
    ¬ (audio_at_fatal_bound._video.size > 480 ∨ audio_at_fatal_bound._audio.size > 960000) ∧
    audio_at_fatal_bound.should_run = .error (.audio_overrun 0 960000 (some 0)) ∧
    ¬ (∃ b, audio_at_fatal_bound.should_run = .ok b) := by
  refine ⟨by decide, by decide, by decide, by decide, ?_⟩
  rintro ⟨b, hb⟩
  have h : audio_at_fatal_bound.should_run = .error (.audio_overrun 0 960000 (some 0)) := by
    decide
  rw [h] at hb
  cases hb

/-- C2, amended: `should_run` raises ProgrammingError exactly when the video queue has reached
10 × `MAXIMUM_VIDEO_READAHEAD` = 480 frames or the audio queue has reached
10 × `MAXIMUM_AUDIO_READAHEAD` = 960000 frames, whatever the flags; in every other state
(|video| < 480 and |audio| < 960000) it returns a boolean. -/
theorem should_run_raises_iff (s : Butler) :
    MAXIMUM_VIDEO_READAHEAD * 10 = 480 ∧ MAXIMUM_AUDIO_READAHEAD * 10 = 960000 ∧
    ((∃ err, s.should_run = .error err) ↔ (480 ≤ s._video.size ∨ 960000 ≤ s._audio.size)) ∧
    ((∃ b, s.should_run = .ok b) ↔ (s._video.size < 480 ∧ s._audio.size < 960000)) := by
  have e1 : MAXIMUM_VIDEO_READAHEAD * 10 = 480 := by decide
  have e2 : MAXIMUM_AUDIO_READAHEAD * 10 = 960000 := by decide
  refine ⟨e1, e2, ?_, ?_⟩
  · unfold should_run
    rw [e1, e2]
    by_cases hv : s._video.size ≥ 480
    · rw [if_pos hv]
      exact ⟨fun _ => Or.inl hv, fun _ => ⟨_, rfl⟩⟩
    · rw [if_neg hv]
      by_cases ha : s._audio.size ≥ 960000
      · rw [if_pos ha]
        exact ⟨fun _ => Or.inr ha, fun _ => ⟨_, rfl⟩⟩
      · rw [if_neg ha]
        constructor
        · rintro ⟨err, h⟩
          split at h
          · cases h
          · split at h <;> cases h
        · rintro (h | h)
          · exact absurd h hv
          · exact absurd h ha
  · unfold should_run
    rw [e1, e2]
    by_cases hv : s._video.size ≥ 480
    · rw [if_pos hv]
      constructor
      · rintro ⟨b, h⟩
        cases h
      · rintro ⟨h, _⟩
        omega
    · rw [if_neg hv]
      by_cases ha : s._audio.size ≥ 960000
      · rw [if_pos ha]
        constructor
        · rintro ⟨b, h⟩
          cases h
        · rintro ⟨_, h⟩
          omega
      · rw [if_neg ha]
        constructor
        · intro _
          omega
        · intro _
          split
          · exact ⟨_, rfl⟩
          · split <;> exact ⟨_, rfl⟩

/-- C3: in every state with suspended > 0, `get_video(e)` writes AGAIN to `*e`, returns a null
frame with a zero DCPTime and leaves the whole Butler state (video queue and flags) as it was,
whatever the video queue holds; with a null `e` nothing is written. -/
theorem get_video_suspended (s : Butler) (h : 0 < s._suspended) :
    s.get_video true = some ⟨s, some Error.AGAIN, none, 0⟩ ∧
    s.get_video false = some ⟨s, none, none, 0⟩ := by
  have hne : (s._suspended != 0) = true := by
    simp only [bne_iff_ne, ne_eq]
    omega
  unfold get_video
  simp [hne]

/-- Witness for `get_video_suspended`: a Butler with one PENDING change and a queued frame. -/
theorem get_video_suspended_witness :
    0 < (((init ⟨0⟩ 6).video (some ⟨7⟩) 100).player_change .CHANGE_TYPE_PENDING false)._suspended ∧
    (((init ⟨0⟩ 6).video (some ⟨7⟩) 100).player_change .CHANGE_TYPE_PENDING false).get_video true =
      some ⟨((init ⟨0⟩ 6).video (some ⟨7⟩) 100).player_change .CHANGE_TYPE_PENDING false,
        some Error.AGAIN, none, 0⟩ :=
  ⟨by decide,
    (get_video_suspended
      (((init ⟨0⟩ 6).video (some ⟨7⟩) 100).player_change .CHANGE_TYPE_PENDING false)
      (by decide)).1⟩

/-- C4: in a state that is not suspended and in which the wait has ended, `get_video` returns;
it reports NONE with a null frame exactly when the video queue is empty, and otherwise it
returns the oldest queued (frame, time) pair, writes no error code, and leaves the Butler as it
was except that the video queue has lost exactly its head. -/
theorem get_video_ready (s : Butler) (hs : s._suspended = 0)
    (hw : s._video.empty = false ∨ s._finished = true ∨ s._died = true) :
    (∃ r, s.get_video true = some r ∧
      ((r.written = some Error.NONE ∧ r.frame = none) ↔ s._video.data = [])) ∧
    (s._video.data = [] → ∀ e, s.get_video e =
      some ⟨s, if e then some Error.NONE else none, none, 0⟩) ∧
    (∀ x rest, s._video.data = x :: rest → ∀ e, s.get_video e =
      some ⟨{ s with _video := ⟨rest⟩ }, none, x.1, x.2⟩) := by
  have hne : (s._suspended != 0) = false := by simp [hs]
  rcases hd : s._video.data with _ | ⟨x, rest⟩
  · have hemp : s._video.empty = true := by simp [VideoRingBuffers.empty, hd]
    have hfd : (!s._finished && !s._died) = false := by
      rcases hw with h | h | h
      · rw [hemp] at h
        cases h
      · simp [h]
      · simp [h]
    refine ⟨⟨⟨s, some Error.NONE, none, 0⟩, ?_, by simp⟩, ?_, ?_⟩
    · unfold get_video
      simp [hne, hemp, hfd]
    · intro _ e
      unfold get_video
      simp [hne, hemp, hfd]
    · intro x rest h
      cases h
  · have hemp : s._video.empty = false := by simp [VideoRingBuffers.empty, hd]
    have hget : s._video.get = (x, ⟨rest⟩) := by simp [VideoRingBuffers.get, hd]
    have key : ∀ e, s.get_video e = some ⟨{ s with _video := ⟨rest⟩ }, none, x.1, x.2⟩ := by
      intro e
      unfold get_video
      simp [hne, hemp, hget]
    refine ⟨⟨_, key true, by simp⟩, ?_, ?_⟩
    · intro h
      cases h
    · intro y rest1 h e
      cases h
      exact key e

/-- Witness for `get_video_ready`: a Butler holding two frames hands out the older one. -/
theorem get_video_ready_witness :
    (((init ⟨0⟩ 6).video (some ⟨7⟩) 100).video (some ⟨8⟩) 104).get_video true =
      some ⟨{ ((init ⟨0⟩ 6).video (some ⟨7⟩) 100).video (some ⟨8⟩) 104 with
        _video := ⟨[(some ⟨8⟩, 104)]⟩ }, none, some ⟨7⟩, 100⟩ :=
  (get_video_ready (((init ⟨0⟩ 6).video (some ⟨7⟩) 100).video (some ⟨8⟩) 104)
    (by decide) (Or.inl (by decide))).2.2 (some ⟨7⟩, 100) [(some ⟨8⟩, 104)] (by decide) true

/-- C5: on a Butler that has not died, `seek(t, accurate)` sets the pending seek to
(t, accurate), resets finished, unsets awaiting and empties the video, audio and
closed-caption queues; suspended, died, stop_thread and disable_audio keep their values. -/
theorem seek_alive (s : Butler) (t : DCPTime) (accurate : Bool) (h : s._died = false) :
    (s.seek t accurate)._pending_seek_position = some t ∧
    (s.seek t accurate)._pending_seek_accurate = accurate ∧
    (s.seek t accurate)._finished = false ∧
    (s.seek t accurate)._awaiting = none ∧
    (s.seek t accurate)._video.data = [] ∧
    (s.seek t accurate)._audio.buffers = [] ∧ (s.seek t accurate)._audio.size = 0 ∧
    (s.seek t accurate)._closed_caption.data = [] ∧
    (s.seek t accurate)._suspended = s._suspended ∧
    (s.seek t accurate)._died = s._died ∧
    (s.seek t accurate)._stop_thread = s._stop_thread ∧
    (s.seek t accurate)._disable_audio = s._disable_audio := by
  simp [seek, seek_unlocked, h, VideoRingBuffers.clear, AudioRingBuffers.clear,
    TextRingBuffers.clear, AudioRingBuffers.size]

/-- Witness for `seek_alive`: a seek on a Butler holding a frame. -/
theorem seek_alive_witness :
    (((init ⟨0⟩ 6).video (some ⟨7⟩) 100).seek 2880000 true)._pending_seek_position
      = some 2880000 ∧
    (((init ⟨0⟩ 6).video (some ⟨7⟩) 100).seek 2880000 true)._video.data = [] :=
  ⟨(seek_alive ((init ⟨0⟩ 6).video (some ⟨7⟩) 100) 2880000 true (by decide)).1,
    (seek_alive ((init ⟨0⟩ 6).video (some ⟨7⟩) 100) 2880000 true (by decide)).2.2.2.2.1⟩

/-- C6: on a Butler that has died, `seek_unlocked(t, accurate)` changes nothing (pending seek,
finished and the three queues stay as they were), and the public `seek` differs from that only
in unsetting awaiting. -/
theorem seek_unlocked_died (s : Butler) (t : DCPTime) (accurate : Bool) (h : s._died = true) :
    s.seek_unlocked t accurate = s ∧ s.seek t accurate = { s with _awaiting := none } := by
  simp [seek, seek_unlocked, h]

/-- Witness for `seek_unlocked_died`: a Butler that died while holding a frame. -/
theorem seek_unlocked_died_witness :
    (((init ⟨0⟩ 6).video (some ⟨7⟩) 100).thread_died).seek_unlocked 50 true =
      ((init ⟨0⟩ 6).video (some ⟨7⟩) 100).thread_died ∧
    (((init ⟨0⟩ 6).video (some ⟨7⟩) 100).thread_died)._video.data = [(some ⟨7⟩, 100)] :=
  ⟨(seek_unlocked_died (((init ⟨0⟩ 6).video (some ⟨7⟩) 100).thread_died) 50 true
      (by decide)).1, by decide⟩

/-- While a seek is pending the `video` and `audio` callbacks drop what they are given. -/
theorem video_audio_dropped_while_seek_pending (s : Butler) (t : DCPTime)
    (h : s._pending_seek_position = some t) :
    (∀ v time, s.video v time = s) ∧ (∀ a time frame_rate, s.audio a time frame_rate = s) := by
  simp [video, audio, h]

/-- C7, the code at the failing input: on a Butler with a seek pending and all three queues
empty, the `video` and `audio` callbacks drop their data, but a `text` callback with a
closed caption is enqueued, so the closed-caption queue is not empty while the seek is still
pending. -/
theorem text_enqueued_while_seek_pending :
    seek_pending._pending_seek_position = some 0 ∧
    seek_pending._video.data = [] ∧ seek_pending._audio.buffers = [] ∧
    seek_pending._closed_caption.data = [] ∧
    seek_pending.video (some ⟨7⟩) 0 = seek_pending ∧
    seek_pending.audio ⟨1, 1920⟩ 0 48000 = seek_pending ∧
    seek_pending.text ⟨1⟩ .TEXT_CLOSED_CAPTION (some ⟨0⟩) ⟨0, 96000⟩ =
      .ok { seek_pending with _closed_caption := ⟨[⟨⟨1⟩, ⟨0⟩, ⟨0, 96000⟩⟩]⟩ } ∧
    (run seek_pending [.video (some ⟨7⟩) 0, .audio ⟨1, 1920⟩ 0 48000,
      .text ⟨1⟩ .TEXT_CLOSED_CAPTION (some ⟨0⟩) ⟨0, 96000⟩])._closed_caption.data ≠ [] ∧
    (run seek_pending [.video (some ⟨7⟩) 0, .audio ⟨1, 1920⟩ 0 48000,
      .text ⟨1⟩ .TEXT_CLOSED_CAPTION (some ⟨0⟩) ⟨0, 96000⟩])._pending_seek_position = some 0 := by
  decide

/-- C8: a PENDING change followed by a DONE change, or by a CANCELLED change, leaves the
suspension count where it was, whatever the `frequent` flags of the two changes. -/
theorem player_change_matched_pair (s : Butler) (f g : Bool) :
    ((s.player_change .CHANGE_TYPE_PENDING f).player_change .CHANGE_TYPE_DONE g)._suspended
      = s._suspended ∧
    ((s.player_change .CHANGE_TYPE_PENDING f).player_change .CHANGE_TYPE_CANCELLED g)._suspended
      = s._suspended := by
  constructor
  · simp only [player_change]
    split
    · simp
    · simp only [seek_unlocked]
      split <;> simp
  · simp [player_change]

/-- Every operation changes the suspension count by its own contribution and nothing else. -/
theorem step_suspended (s : Butler) (op : Op) :
    (s.step op)._suspended = s._suspended + op.suspension := by
  cases op with
  | get_video e =>
    simp only [step, get_video, Op.suspension]
    split
    · rename_i r h
      split at h
      · cases h
        simp
      · split at h
        · cases h
        · split at h <;> (cases h; simp)
    · simp
  | get_closed_caption => simp [step, get_closed_caption, Op.suspension]
  | seek position accurate =>
    simp only [step, seek, seek_unlocked, Op.suspension]
    split <;> simp
  | video v time =>
    simp only [step, video, Op.suspension]
    split <;> simp
  | audio a time frame_rate =>
    simp only [step, audio, Op.suspension]
    split <;> simp
  | get_audio frames => simp [step, get_audio, Op.suspension]
  | disable_audio => simp [step, disable_audio, Op.suspension]
  | player_change type frequent =>
    cases type with
    | CHANGE_TYPE_PENDING => simp [step, player_change, Op.suspension]
    | CHANGE_TYPE_DONE =>
      simp only [step, player_change, Op.suspension]
      split
      · simp
        omega
      · simp only [seek_unlocked]
        split <;> (simp; omega)
    | CHANGE_TYPE_CANCELLED =>
      simp [step, player_change, Op.suspension]
      omega
  | text pt type track period =>
    simp only [step, text, Op.suspension]
    split
    · rename_i s1 h
      split at h
      · cases h
        simp
      · split at h
        · cases h
        · cases h
          simp
    · simp [thread_died]
  | thread_should_run =>
    simp only [step, thread_should_run, Op.suspension]
    split <;> simp [thread_died]
  | thread_seek =>
    simp only [step, thread_seek, Op.suspension]
    split <;> simp
  | thread_pass r =>
    simp only [step, thread_pass, Op.suspension]
    split <;> simp
  | thread_interrupted => simp [step, thread_interrupted, Op.suspension]
  | thread_died => simp [step, thread_died, Op.suspension]
  | stop => simp [step, stop, Op.suspension]

/-- After any sequence of operations the suspension count has moved by the number of PENDING
changes minus the number of DONE and CANCELLED changes. -/
theorem run_suspended (ops : List Op) (s : Butler) :
    (s.run ops)._suspended = s._suspended + unmatched_pending ops := by
  induction ops generalizing s with
  | nil => simp [run, unmatched_pending]
  | cons op rest ih =>
    have h := ih (s.step op)
    simp only [run, List.foldl_cons, unmatched_pending, List.map_cons, List.sum_cons] at h ⊢
    rw [h, step_suspended]
    omega

/-- C9, as stated, fails: a DONE change delivered to a freshly constructed Butler (no PENDING
before it) leaves the suspension count at -1, and so does a CANCELLED change. -/
theorem suspended_negative_after_unmatched_done :
    (init ⟨0⟩ 6)._suspended = 0 ∧
    (run (init ⟨0⟩ 6) [.player_change .CHANGE_TYPE_DONE true])._suspended = -1 ∧
    (run (init ⟨0⟩ 6) [.player_change .CHANGE_TYPE_CANCELLED false])._suspended = -1 ∧
    ¬ (0 ≤ (run (init ⟨0⟩ 6) [.player_change .CHANGE_TYPE_DONE true])._suspended) := by
  decide

/-- C9, amended: starting from a freshly constructed Butler, the suspension count after any
sequence of operations is the number of PENDING changes minus the number of DONE and CANCELLED
changes; so when at no point of the sequence the DONE and CANCELLED changes outnumber the
PENDING ones, the count is non-negative in every state the sequence passes through. -/
theorem suspended_nonneg_of_matched (audio_mapping : AudioMapping) (audio_channels : Nat)
    (ops : List Op) (h : ∀ k, 0 ≤ unmatched_pending (ops.take k)) :
    ∀ k, (run (init audio_mapping audio_channels) (ops.take k))._suspended
        = unmatched_pending (ops.take k) ∧
      0 ≤ (run (init audio_mapping audio_channels) (ops.take k))._suspended := by
  intro k
  have e := run_suspended (ops.take k) (init audio_mapping audio_channels)
  have e0 : (init audio_mapping audio_channels)._suspended = 0 := rfl
  rw [e0, zero_add] at e
  exact ⟨e, e ▸ h k⟩

/-- Witness for `suspended_nonneg_of_matched`: two nested PENDING changes, closed by a DONE and
a CANCELLED change, with a seek and a frame in between. -/
theorem suspended_nonneg_of_matched_witness :
    0 ≤ (run (init ⟨0⟩ 6)
      [.player_change .CHANGE_TYPE_PENDING false, .seek 10 true,
        .player_change .CHANGE_TYPE_PENDING true, .video (some ⟨1⟩) 10,
        .player_change .CHANGE_TYPE_DONE false,
        .player_change .CHANGE_TYPE_CANCELLED false])._suspended :=
  (suspended_nonneg_of_matched ⟨0⟩ 6
    [.player_change .CHANGE_TYPE_PENDING false, .seek 10 true,
      .player_change .CHANGE_TYPE_PENDING true, .video (some ⟨1⟩) 10,
      .player_change .CHANGE_TYPE_DONE false,
      .player_change .CHANGE_TYPE_CANCELLED false]
    (by
      intro k
      rcases k with _ | _ | _ | _ | _ | _ | _ | k
      all_goals first
        | decide
        | (simp only [List.take_succ_cons, List.take_nil]; decide)) 6).2

/-- C10: on a Butler that has not died, has no pending seek and whose video queue has head time
`next`, a non-frequent DONE change decrements suspended by one, sets the pending seek to
(target, accurate = true) and awaiting to target, where target is awaiting if awaiting is set
and later than `next`, and `next` otherwise; it leaves the video, audio and closed-caption
queues empty, so a `get_video` on the resulting state returns no frame. -/
theorem player_change_done_reseeks (s : Butler) (v : Option PlayerVideo) (next : DCPTime)
    (rest : List (Option PlayerVideo × DCPTime))
    (hd : s._died = false) (hp : s._pending_seek_position = none)
    (hv : s._video.data = (v, next) :: rest) :
    ∃ target : DCPTime,
      ((∃ a, s._awaiting = some a ∧ a > next ∧ target = a) ∨
        ((∀ a, s._awaiting = some a → ¬ a > next) ∧ target = next)) ∧
      (s.player_change .CHANGE_TYPE_DONE false)._suspended = s._suspended - 1 ∧
      (s.player_change .CHANGE_TYPE_DONE false)._pending_seek_position = some target ∧
      (s.player_change .CHANGE_TYPE_DONE false)._pending_seek_accurate = true ∧
      (s.player_change .CHANGE_TYPE_DONE false)._awaiting = some target ∧
      (s.player_change .CHANGE_TYPE_DONE false)._video.data = [] ∧
      (s.player_change .CHANGE_TYPE_DONE false)._audio.buffers = [] ∧
      (s.player_change .CHANGE_TYPE_DONE false)._closed_caption.data = [] ∧
      (∀ e r, (s.player_change .CHANGE_TYPE_DONE false).get_video e = some r →
        r.frame = none) := by
  have hget : s._video.get = ((v, next), ⟨rest⟩) := by simp [VideoRingBuffers.get, hv]
  have key : ∀ target : DCPTime,
      (match s._awaiting with
        | some a => if a > next then a else next
        | none => next) = target →
      (s.player_change .CHANGE_TYPE_DONE false)._suspended = s._suspended - 1 ∧
      (s.player_change .CHANGE_TYPE_DONE false)._pending_seek_position = some target ∧
      (s.player_change .CHANGE_TYPE_DONE false)._pending_seek_accurate = true ∧
      (s.player_change .CHANGE_TYPE_DONE false)._awaiting = some target ∧
      (s.player_change .CHANGE_TYPE_DONE false)._video.data = [] ∧
      (s.player_change .CHANGE_TYPE_DONE false)._audio.buffers = [] ∧
      (s.player_change .CHANGE_TYPE_DONE false)._closed_caption.data = [] ∧
      (∀ e r, (s.player_change .CHANGE_TYPE_DONE false).get_video e = some r →
        r.frame = none) := by
    intro target ht
    have hs : s.player_change .CHANGE_TYPE_DONE false =
        { s with
          _suspended := s._suspended - 1
          _finished := false
          _pending_seek_position := some target
          _pending_seek_accurate := true
          _video := ⟨[]⟩
          _audio := ⟨[], 0⟩
          _closed_caption := ⟨[]⟩
          _awaiting := some target } := by
      simp [player_change, seek_unlocked, hd, hp, hget, ht, VideoRingBuffers.clear,
        AudioRingBuffers.clear, TextRingBuffers.clear]
    rw [hs]
    refine ⟨rfl, rfl, rfl, rfl, rfl, rfl, rfl, ?_⟩
    intro e r hr
    simp only [get_video, VideoRingBuffers.empty, List.isEmpty_nil, hd] at hr
    split at hr
    · cases hr
      rfl
    · simp at hr
  rcases ha : s._awaiting with _ | a
  · exact ⟨next, Or.inr ⟨by simp, rfl⟩, key next (by simp [ha])⟩
  · by_cases hgt : a > next
    · exact ⟨a, Or.inl ⟨a, rfl, hgt, rfl⟩, key a (by simp [ha, hgt])⟩
    · refine ⟨next, Or.inr ⟨?_, rfl⟩, key next (by simp [ha, hgt])⟩
      intro b hb
      cases hb
      exact hgt

/-- Witness for `player_change_done_reseeks`: a suspended Butler holding frames at times 100 and
104, with an earlier re-seek target 200 still awaited, re-seeks to 200. -/
theorem player_change_done_reseeks_witness :
    ∃ target : DCPTime,
      ((∃ a, ({ ((init ⟨0⟩ 6).video (some ⟨7⟩) 100).video (some ⟨8⟩) 104 with
            _suspended := 1, _awaiting := some 200 } : Butler)._awaiting = some a ∧
          a > 100 ∧ target = a) ∨
        ((∀ a, ({ ((init ⟨0⟩ 6).video (some ⟨7⟩) 100).video (some ⟨8⟩) 104 with
            _suspended := 1, _awaiting := some 200 } : Butler)._awaiting = some a →
          ¬ a > 100) ∧ target = 100)) ∧
      (({ ((init ⟨0⟩ 6).video (some ⟨7⟩) 100).video (some ⟨8⟩) 104 with
          _suspended := 1, _awaiting := some 200 } : Butler).player_change
        .CHANGE_TYPE_DONE false)._suspended = 1 - 1 :=
  (player_change_done_reseeks
    { ((init ⟨0⟩ 6).video (some ⟨7⟩) 100).video (some ⟨8⟩) 104 with
      _suspended := 1, _awaiting := some 200 }
    (some ⟨7⟩) 100 [(some ⟨8⟩, 104)] (by decide) (by decide) (by decide)).imp
    (fun _ h => ⟨h.1, h.2.1⟩)

end Butler

/-! ### DCPContent -/

namespace DCPContent

/-- C18: `can_be_played` is false exactly when the DCP is encrypted and its KDM is not valid;
an encrypted DCP with kdm_valid = false cannot be played, whether or not a KDM has been added,
and every unencrypted DCP can be played. -/
theorem can_be_played_iff (c : DCPContent) (name : String) (subs valid : Bool)
    (kdm : Option EncryptedKDM) (k : EncryptedKDM) :
    (c.can_be_played = false ↔ (c._encrypted = true ∧ c._kdm_valid = false)) ∧
    can_be_played ⟨name, subs, true, kdm, false⟩ = false ∧
    (create.examine name subs true false).can_be_played = false ∧
    ((create.examine name subs true false).add_kdm k).can_be_played = false ∧
    can_be_played ⟨name, subs, false, kdm, valid⟩ = true ∧
    create.can_be_played = true := by
  refine ⟨?_, rfl, rfl, rfl, rfl, rfl⟩
  cases he : c._encrypted <;> cases hv : c._kdm_valid <;> simp [can_be_played, he, hv]

end DCPContent

/-! ### SubtitleDecoder -/

namespace SubtitleDecoder

/-- Replacing a one-character search string replaces exactly the occurrences of that
character. -/
theorem replace_all_from_single (a : Char) (format : List Char) (input : List Char) :
    replace_all_from [a] format input 0
      = (input.map (fun c => if c = a then format else [c])).flatten := by
  induction input with
  | nil => simp [replace_all_from]
  | cons c cs ih =>
    by_cases h : c = a
    · subst h
      simp [replace_all_from, ih]
    · have h2 : ¬ ([c] = [a]) := by simpa using h
      simp [replace_all_from, ih, h, h2]

/-- The two replacements of `emit_text_start`, one after the other, escape each character on its
own: the `&lt;` written by the first is not touched by the second. -/
theorem replace_both (t : String) :
    replace_all (replace_all t "<" "&lt;") ">" "&gt;" = escaped t := by
  have hlt : ("<" : String).data = ['<'] := rfl
  have hgt : (">" : String).data = ['>'] := rfl
  simp only [replace_all, escaped, hlt, hgt, replace_all_from_single]
  congr 1
  induction t.data with
  | nil => rfl
  | cons c cs ih =>
    simp only [List.map_cons, List.flatten_cons, List.map_append, List.flatten_append, ih]
    congr 1
    by_cases h1 : c = '<'
    · subst h1
      decide
    · by_cases h2 : c = '>'
      · subst h2
        decide
      · simp [escape_char, h1, h2]

/-- An escaped text holds neither `<` nor `>`. -/
theorem escaped_clean (t : String) : '<' ∉ (escaped t).data ∧ '>' ∉ (escaped t).data := by
  simp only [escaped]
  induction t.data with
  | nil => simp
  | cons c cs ih =>
    simp only [List.map_cons, List.flatten_cons, List.mem_append, not_or]
    refine ⟨⟨?_, ih.1⟩, ⟨?_, ih.2⟩⟩
    · by_cases h1 : c = '<'
      · subst h1
        decide
      · by_cases h2 : c = '>'
        · subst h2
          decide
        · simp [escape_char, h1, h2]
          exact fun h => h1 h.symm
    · by_cases h1 : c = '<'
      · subst h1
        decide
      · by_cases h2 : c = '>'
        · subst h2
          decide
        · simp [escape_char, h1, h2]
          exact fun h => h2 h.symm

/-- C17: `emit_text_start` emits one ContentTextSubtitle holding the input strings in their
order, each with its text escaped (`<` to `&lt;`, `>` to `&gt;`, all other characters kept in
order) and everything else unchanged; no emitted text contains `<` or `>`, and the number of
strings is the same. -/
theorem emit_text_start_escapes (d : SubtitleDecoder) (from_time : ContentTime)
    (s : List SubtitleString) :
    ∃ out : List SubtitleString,
      (d.emit_text_start from_time s).emitted = d.emitted ++ [⟨from_time, out⟩] ∧
      (d.emit_text_start from_time s)._position = from_time ∧
      out = s.map (fun i => { i with text := escaped i.text }) ∧
      out.length = s.length ∧
      (∀ o ∈ out, '<' ∉ o.text.data ∧ '>' ∉ o.text.data) := by
  refine ⟨s.map (fun i => { i with text := escaped i.text }), ?_, rfl, rfl, by simp, ?_⟩
  · simp [emit_text_start, replace_both]
  · intro o ho
    rcases List.mem_map.mp ho with ⟨i, _, rfl⟩
    exact escaped_clean i.text

end SubtitleDecoder

/-! ### Player -/

namespace Player

/-- Truncating a whole number leaves it as it is. -/
theorem trunc_intCast (n : Int) : trunc (n : ℚ) = n := by
  unfold trunc
  split <;> simp

/-- The floor of a rational between `n` and `n + 1`. -/
theorem floor_eq_of_bounds (q : ℚ) (n : Int) (h1 : (n : ℚ) ≤ q) (h2 : q < n + 1) : ⌊q⌋ = n :=
  Int.floor_eq_iff.mpr ⟨h1, h2⟩

/-- C11, the code at the failing input: for a piece of 48 fps content in a 24 fps film
(frame-rate change (48, 24), factor 24/48), at position 0 and untrimmed, the timeline time 1 s
is 24 frames at the film rate, and `dcp_to_content_video` returns 24 x factor = 12, whereas
24 x source_rate / dcp_rate, the content frame shown at 1 s, is 48. -/
theorem dcp_to_content_video_multiplies_by_factor :
    sample_piece_48.frc.factor = 24 / 48 ∧
    DCPTime.frames 96000 (min sample_piece_48.content.length_after_trim
        (max 0 (96000 - sample_piece_48.content.position))
      + sample_piece_48.content.trim_start) sample_film.video_frame_rate = 24 ∧
    dcp_to_content_video 96000 sample_film sample_piece_48 96000 = 12 ∧
    ⌊((24 : Int) : ℚ) * sample_piece_48.frc.source / sample_piece_48.frc.dcp⌋ = 48 ∧
    dcp_to_content_video 96000 sample_film sample_piece_48 96000
      ≠ ⌊((24 : Int) : ℚ) * sample_piece_48.frc.source / sample_piece_48.frc.dcp⌋ := by
  have hf : sample_piece_48.frc.factor = 24 / 48 := by
    simp [FrameRateChange.factor, sample_piece_48]
  have hframes : DCPTime.frames 96000 (min sample_piece_48.content.length_after_trim
        (max 0 (96000 - sample_piece_48.content.position))
      + sample_piece_48.content.trim_start) sample_film.video_frame_rate = 24 := by
    decide
  have hcode : dcp_to_content_video 96000 sample_film sample_piece_48 96000 = 12 := by
    unfold dcp_to_content_video
    simp only []
    rw [hframes, hf]
    unfold trunc
    rw [if_pos (by norm_num)]
    exact floor_eq_of_bounds _ 12 (by norm_num) (by norm_num)
  have hclaim :
      ⌊((24 : Int) : ℚ) * sample_piece_48.frc.source / sample_piece_48.frc.dcp⌋ = 48 := by
    apply floor_eq_of_bounds
    · simp [sample_piece_48]
    · simp [sample_piece_48]
  refine ⟨hf, hframes, hcode, hclaim, ?_⟩
  rw [hcode, hclaim]
  decide

end Player

namespace Player

/-- The pieces that `setup_pieces` builds for a playlist of one piece of video content with
valid paths, starting from no pieces. -/
theorem setup_pieces_single_video (film : Film) (c : Content) (hk : c.is_video = true)
    (hp : c.paths_valid = true) :
    ((create film [c]).setup_pieces)._pieces
      = [⟨c, c.decoder, ⟨c.video_frame_rate, film.video_frame_rate⟩⟩] := by
  have hkind : c.kind = .FFmpeg ∨ c.kind = .Image := by
    simpa [Content.is_video] using hk
  rcases hkind with h | h
  · simp [setup_pieces, create, set_video_container_size, hp, make_piece, h]
  · simp [setup_pieces, create, set_video_container_size, hp, make_piece, h, image_decoder]

/-- C12: for a playlist of one video piece at position 0 with no trim, 10 s long, whose rate
and the film's rate are both 24 fps, and for every t in [0, 10 s]: `dcp_to_content_video`
is the number of 24 fps frames in t; when the piece overlaps t, `get_video (t, accurate)` hands
back the frame the decoder gives for that index, stamped with time t; and at t = 5 s the
index is 120. -/
theorem get_video_single_piece (x : Externals) (film : Film) (c : Content) (t : DCPTime)
    (accurate : Bool) (hHZ : 0 < x.HZ) (hk : c.is_video = true) (hp : c.paths_valid = true)
    (hpos : c.position = 0) (htrim : c.trim_start = 0)
    (hlen : c.length_after_trim = DCPTime.from_seconds x.HZ 10)
    (hrate : c.video_frame_rate = 24) (hfilm : film.video_frame_rate = 24)
    (ht0 : 0 ≤ t) (ht1 : t ≤ DCPTime.from_seconds x.HZ 10) (hcov : x.covers c t = true) :
    dcp_to_content_video x.HZ film ⟨c, c.decoder, ⟨c.video_frame_rate, film.video_frame_rate⟩⟩ t
      = DCPTime.frames x.HZ t 24 ∧
    (get_video x (create film [c]) t accurate).2.image
      = (c.decoder.get_video (DCPTime.frames x.HZ t 24) accurate).image ∧
    (get_video x (create film [c]) t accurate).2.eyes
      = (c.decoder.get_video (DCPTime.frames x.HZ t 24) accurate).eyes ∧
    (get_video x (create film [c]) t accurate).2.time = t ∧
    DCPTime.frames x.HZ (DCPTime.from_seconds x.HZ 5) 24 = 120 := by
  have hidx : dcp_to_content_video x.HZ film
      ⟨c, c.decoder, ⟨c.video_frame_rate, film.video_frame_rate⟩⟩ t
        = DCPTime.frames x.HZ t 24 := by
    have h1 : max 0 (t - 0) = t := by
      rw [sub_zero]
      exact max_eq_right ht0
    have h2 : min (DCPTime.from_seconds x.HZ 10) t = t := min_eq_right ht1
    have hf : (⟨c.video_frame_rate, 24⟩ : FrameRateChange).factor = 1 := by
      simp [FrameRateChange.factor, hrate]
    simp only [dcp_to_content_video, hpos, htrim, hlen, h1, h2, hfilm, add_zero]
    rw [hf, mul_one]
    exact trunc_intCast _
  have hpieces := setup_pieces_single_video film c hk hp
  have hvalid : (create film [c])._have_valid_pieces = false := rfl
  have hfilm2 : ((create film [c]).setup_pieces)._film = film := rfl
  have hov : ((create film [c]).setup_pieces).overlaps x Content.is_video t
      = [⟨c, c.decoder, ⟨c.video_frame_rate, film.video_frame_rate⟩⟩] := by
    simp [overlaps, hpieces, hk, hcov]
  have h120 : DCPTime.frames x.HZ (DCPTime.from_seconds x.HZ 5) 24 = 120 := by
    unfold DCPTime.frames DCPTime.from_seconds
    have : (5 * x.HZ * 24 : Int) = 120 * x.HZ := by ring
    rw [this]
    exact Int.mul_ediv_cancel 120 (ne_of_gt hHZ)
  refine ⟨hidx, ?_, ?_, ?_, h120⟩
  · simp only [get_video, hvalid, Bool.not_false, if_true, hov, List.getLast?_singleton,
      hfilm2, hidx]
  · simp only [get_video, hvalid, Bool.not_false, if_true, hov, List.getLast?_singleton,
      hfilm2, hidx]
  · simp only [get_video, hvalid, Bool.not_false, if_true, hov, List.getLast?_singleton]

/-- Witness for `get_video_single_piece`: 24 fps FFmpeg content, 10 s long, asked for 5 s. -/
theorem get_video_single_piece_witness :
    (get_video sample_externals (create sample_film [sample_content .FFmpeg 24])
        (DCPTime.from_seconds 96000 5) true).2.image
      = ⟨"PIX_FMT_RGB24", ⟨1998, 1080⟩, true, .decoded 120⟩ ∧
    (get_video sample_externals (create sample_film [sample_content .FFmpeg 24])
        (DCPTime.from_seconds 96000 5) true).2.time = DCPTime.from_seconds 96000 5 := by
  have h := get_video_single_piece sample_externals sample_film (sample_content .FFmpeg 24)
    (DCPTime.from_seconds 96000 5) true (by decide) rfl rfl rfl rfl rfl rfl rfl
    (by decide) (by decide) (by decide)
  refine ⟨?_, h.2.2.2.1⟩
  rw [h.2.1]
  have h120 : DCPTime.frames sample_externals.HZ (DCPTime.from_seconds 96000 5) 24 = 120 := by
    decide
  rw [h120]
  rfl

/-- C13: the frame `get_video (t, accurate)` returns carries the time t, whatever the playlist;
and when no video piece overlaps t it is the pre-made black image, for both eyes, with an empty
crop and with image size and container size both equal to the video container size, the
size that `set_video_container_size` also gave the black image. -/
theorem get_video_time_and_black (x : Externals) (p : Player) (t : DCPTime) (accurate : Bool)
    (s : Size) :
    (get_video x p t accurate).2.time = t ∧
    ((get_video x p t accurate).1.overlaps x Content.is_video t = [] →
      (get_video x p t accurate).2.image = p._black_image ∧
      (get_video x p t accurate).2.eyes = .EYES_BOTH ∧
      (get_video x p t accurate).2.crop = Crop.none ∧
      (get_video x p t accurate).2.inter_size = p._video_container_size ∧
      (get_video x p t accurate).2.out_size = p._video_container_size ∧
      (get_video x p t accurate).2.subtitle = none) ∧
    (p.set_video_container_size s)._video_container_size = s ∧
    (p.set_video_container_size s)._black_image = ⟨"PIX_FMT_RGB24", s, true, .black⟩ ∧
    (create p._film p._playlist)._black_image
      = ⟨"PIX_FMT_RGB24", p._film.frame_size, true, .black⟩ ∧
    (create p._film p._playlist)._video_container_size = p._film.frame_size := by
  have hfst : (get_video x p t accurate).1
      = if !p._have_valid_pieces then p.setup_pieces else p := by
    simp only [get_video]
    split <;> rfl
  have hb : (if !p._have_valid_pieces then p.setup_pieces else p)._black_image
      = p._black_image := by
    split <;> rfl
  have hc : (if !p._have_valid_pieces then p.setup_pieces else p)._video_container_size
      = p._video_container_size := by
    split <;> rfl
  refine ⟨?_, ?_, rfl, rfl, rfl, rfl⟩
  · simp only [get_video]
    split <;> rfl
  · intro hov
    rw [hfst] at hov
    simp only [get_video, hov, List.getLast?_nil, hb, hc]
    exact ⟨trivial, trivial, trivial, trivial, trivial, trivial⟩

/-- Witness for `get_video_time_and_black`: with an empty playlist the frame for time 0 is the
black image of the film's frame size. -/
theorem get_video_time_and_black_witness :
    (get_video sample_externals (create sample_film []) 0 true).2.image
      = ⟨"PIX_FMT_RGB24", ⟨1998, 1080⟩, true, .black⟩ ∧
    (get_video sample_externals (create sample_film []) 0 true).2.out_size = ⟨1998, 1080⟩ :=
  ⟨((get_video_time_and_black sample_externals (create sample_film []) 0 true ⟨0, 0⟩).2.1
      rfl).1,
    ((get_video_time_and_black sample_externals (create sample_film []) 0 true ⟨0, 0⟩).2.1
      rfl).2.2.2.2.1⟩

end Player

namespace Player

/-- Rounding a whole number with `rint` leaves it as it is. -/
theorem rint_intCast (n : Int) : rint (n : ℚ) = n := by
  simp [rint]

/-- The value of `rint` is within half a unit of its argument. -/
theorem rint_close (q : ℚ) : |((rint q : Int) : ℚ) - q| ≤ 1 / 2 := by
  have h0 : 0 ≤ Int.fract q := Int.fract_nonneg q
  have h1 : Int.fract q < 1 := Int.fract_lt_one q
  have hq : q = ⌊q⌋ + Int.fract q := (Int.floor_add_fract q).symm
  unfold rint
  split
  · rename_i h
    rw [abs_le]
    constructor <;> linarith
  · rename_i h
    split
    · rename_i h2
      rw [abs_le]
      push_cast
      constructor <;> linarith
    · rename_i h2
      have he : Int.fract q = 1 / 2 := le_antisymm (not_lt.mp h2) (not_lt.mp h)
      split
      · rw [abs_le]
        constructor <;> linarith
      · rw [abs_le]
        push_cast
        constructor <;> linarith

end Player

namespace Player

/-- The inner loop of the channel remapping leaves a DCP channel alone when no gain into it is
positive. -/
theorem remap_inner_unchanged (map : Pcm.AudioMapping) (source : Pcm.AudioBuffers) (i : Int)
    (c f : Int) (js : List Int) (acc : Pcm.AudioBuffers)
    (h : ∀ j ∈ js, map.get i j > 0 → j ≠ c) :
    (js.foldl (fun acc j =>
        if map.get i j > 0 then acc.accumulate_channel source i j (map.get i j) else acc)
      acc).data c f = acc.data c f := by
  induction js generalizing acc with
  | nil => rfl
  | cons j js ih =>
    rw [List.foldl_cons, ih _ (fun k hk => h k (List.mem_cons_of_mem j hk))]
    split
    · rename_i hg
      have hne : ¬ (c = j) := fun e => h j (List.mem_cons_self j js) hg e.symm
      simp [Pcm.AudioBuffers.accumulate_channel, hne]
    · rfl

/-- The channel remapping leaves a DCP channel alone when no gain into it is positive. -/
theorem remap_channels_unchanged (map : Pcm.AudioMapping) (dcp_channels : Int)
    (source dcp_mapped : Pcm.AudioBuffers) (c f : Int)
    (h : ∀ i j : Int, i ∈ channel_range map.content_channels → map.get i j > 0 → j ≠ c) :
    (remap_channels map dcp_channels source dcp_mapped).data c f = dcp_mapped.data c f := by
  unfold remap_channels
  have key : ∀ (is : List Int) (acc : Pcm.AudioBuffers),
      (∀ i ∈ is, i ∈ channel_range map.content_channels) →
      (is.foldl (fun acc i =>
          (channel_range dcp_channels).foldl
            (fun acc j =>
              if map.get i j > 0 then acc.accumulate_channel source i j (map.get i j) else acc)
            acc)
        acc).data c f = acc.data c f := by
    intro is
    induction is with
    | nil => intro acc _; rfl
    | cons i is ih =>
      intro acc hi
      rw [List.foldl_cons, ih _ (fun k hk => hi k (List.mem_cons_of_mem i hk))]
      exact remap_inner_unchanged map source i c f _ acc
        (fun j _ hg => h i j (hi i (List.mem_cons_self i is)) hg)
  exact key _ _ (fun i hi => hi)

/-- C14: when the only audio piece overlapping t has one content channel, whose mapping gain
is zero for every DCP channel other than 2, the buffer `get_audio` returns has the film's
channel count, `length.frames (audio_frame_rate)` frames, and the sample 0 in every frame of
every channel other than 2. -/
theorem get_audio_other_channels_silent (x : Externals) (p : Player) (time length : DCPTime)
    (accurate : Bool) (piece : Piece)
    (hov : (get_audio x p time length accurate).1.overlaps x Content.is_audio time = [piece])
    (hch : piece.content.audio_mapping.content_channels = 1)
    (hmap : ∀ j : Int, j ≠ 2 → piece.content.audio_mapping.get 0 j = 0) :
    (get_audio x p time length accurate).2.channels = p._film.audio_channels ∧
    (get_audio x p time length accurate).2.frames
      = DCPTime.frames x.HZ length p._film.audio_frame_rate ∧
    ∀ c f : Int, c ≠ 2 → (get_audio x p time length accurate).2.data c f = 0 := by
  have hfilm : (if !p._have_valid_pieces then p.setup_pieces else p)._film = p._film := by
    split <;> rfl
  have hov2 : (if !p._have_valid_pieces then p.setup_pieces else p).overlaps x
      Content.is_audio time = [piece] := hov
  refine ⟨?_, ?_, ?_⟩
  · simp only [get_audio, hov2, List.foldl_cons, List.foldl_nil, hfilm]
    rfl
  · simp only [get_audio, hov2, List.foldl_cons, List.foldl_nil, hfilm]
    rfl
  · intro c f hc
    have hz : ∀ (source dcp_mapped : Pcm.AudioBuffers) (g : Int),
        (remap_channels piece.content.audio_mapping p._film.audio_channels source
          dcp_mapped.make_silent).data c g = 0 := by
      intro source dcp_mapped g
      rw [remap_channels_unchanged]
      · rfl
      · intro i j hi hg hj
        rw [hch] at hi
        have hi0 : i = 0 := by
          simpa [channel_range] using hi
        subst hi0
        have := hmap j (hj ▸ hc)
        rw [this] at hg
        exact lt_irrefl _ hg
    simp only [get_audio, hov2, List.foldl_cons, List.foldl_nil, hfilm, add_piece_audio,
      Pcm.AudioBuffers.accumulate_frames, hz, add_zero, ite_self]
    rfl

/-- Witness for `get_audio_other_channels_silent`: one sound file whose single channel is
mapped to DCP channel 2 only; channel 0 of one second of audio at time 0 is silent. -/
theorem get_audio_other_channels_silent_witness :
    (get_audio sample_externals (create sample_film [sample_content .Sndfile 24]) 0 96000
        true).2.channels = 6 ∧
    (get_audio sample_externals (create sample_film [sample_content .Sndfile 24]) 0 96000
        true).2.data 0 100 = 0 := by
  have h := get_audio_other_channels_silent sample_externals
    (create sample_film [sample_content .Sndfile 24]) 0 96000 true
    ⟨sample_content .Sndfile 24, sample_decoder .Sndfile 1, ⟨24, 24⟩⟩
    (by
      simp [get_audio, overlaps, setup_pieces, create, set_video_container_size, make_piece,
        best_overlap, sample_content, sample_externals, Content.is_audio, Content.is_video,
        Content.end_, sample_film])
    rfl
    (by
      intro j hj
      simp [sample_content, sample_mapping, hj])
  exact ⟨h.1, h.2.2 0 100 (by decide)⟩

end Player

/-! ### TextContent -/

namespace Node

/-- An optional accessor on a tag with at most one child gives that child, if any. -/
theorem optional_node_child_ok (n : Node) (name : String)
    (h : (n.node_children name).length ≤ 1) :
    n.optional_node_child name = .ok (n.node_children name).head? := by
  unfold optional_node_child
  rcases hc : n.node_children name with _ | ⟨c, _ | ⟨d, ds⟩⟩
  · rfl
  · rfl
  · rw [hc] at h
    simp at h

/-- An optional string accessor on a tag with at most one child gives its text, if any. -/
theorem optional_string_child_ok (n : Node) (name : String)
    (h : (n.node_children name).length ≤ 1) :
    n.optional_string_child name = .ok (n.child_content name) := by
  unfold optional_string_child child_content
  rw [optional_node_child_ok n name h]
  rfl

/-- An optional number accessor on a tag with at most one child gives its value, if any. -/
theorem optional_number_child_ok {T : Type} (n : Node) (convert : String → T) (name : String)
    (h : (n.node_children name).length ≤ 1) :
    n.optional_number_child convert name = .ok ((n.child_content name).map convert) := by
  unfold optional_number_child
  rw [optional_string_child_ok n name h]
  rfl

/-- A number accessor on a tag with exactly one child gives its value. -/
theorem number_child_ok {T : Type} (n : Node) (convert : String → T) (name : String)
    (h : n.has_child name) :
    ∃ s, n.child_content name = some s ∧ n.number_child convert name = .ok (convert s) := by
  unfold has_child at h
  unfold number_child string_child node_child child_content
  rcases hc : n.node_children name with _ | ⟨c, _ | ⟨d, ds⟩⟩
  · rw [hc] at h
    simp at h
  · exact ⟨c.content, rfl, rfl⟩
  · rw [hc] at h
    simp at h

/-- An optional number accessor gives "unset" only for a tag without children, and a value
only for a tag with children. -/
theorem optional_number_child_none {T : Type} (n : Node) (convert : String → T) (name : String) :
    (n.optional_number_child convert name = .ok none → n.node_children name = []) ∧
    (∀ v, n.optional_number_child convert name = .ok (some v) → n.node_children name ≠ []) := by
  unfold optional_number_child optional_string_child optional_node_child
  rcases hc : n.node_children name with _ | ⟨c, _ | ⟨d, ds⟩⟩
  · refine ⟨fun _ => rfl, fun v h => ?_⟩
    cases h
  · refine ⟨fun h => ?_, fun v _ => ?_⟩
    · cases h
    · simp
  · refine ⟨fun h => ?_, fun v h => ?_⟩
    · cases h
    · cases h

end Node

namespace TextContent

/-- The blocks of the constructor after the offsets succeed on a node in which no tag read
through an optional accessor is repeated and that has the scale tags its version requires, and
leave the offsets as they are. -/
theorem read_rest_ok (conv : RawConvert) (node : Node) (v : Int) (t : TextContent)
    (hv36 : v ≤ 36) (hs : node.reads_once (legacy_optional_tags v))
    (hsc10 : 10 ≤ v → node.has_child "SubtitleXScale" ∧ node.has_child "SubtitleYScale")
    (hsc7 : v < 10 → node.has_child "SubtitleScale") :
    ∃ t9, (do
        let t ← read_effect conv node t
        let t ← read_scale conv node v t
        let t ← read_colour conv node t
        let t ← read_effect_colour conv node v t
        let t ← read_fades conv node v t
        let t ← read_language_fonts node v t
        let t ← read_type node v t
        read_dcp_track conv node t) = .ok t9 ∧
      t9._x_offset = t._x_offset ∧ t9._y_offset = t._y_offset := by
  have h37 : ¬ (v ≥ 37) := by omega
  have ho : ∀ {T : Type} (cv : String → T) (name : String),
      name ∈ legacy_optional_tags v →
      node.optional_number_child cv name = .ok ((node.child_content name).map cv) :=
    fun cv name h1 => Node.optional_number_child_ok node cv name (hs name h1)
  have hstr : ∀ (name : String), name ∈ legacy_optional_tags v →
      node.optional_string_child name = .ok (node.child_content name) :=
    fun name h1 => Node.optional_string_child_ok node name (hs name h1)
  have hnode : ∀ (name : String), name ∈ legacy_optional_tags v →
      node.optional_node_child name = .ok (node.node_children name).head? :=
    fun name h1 => Node.optional_node_child_ok node name (hs name h1)
  have hmem : ∀ name : String,
      name ∈ ["LineSpacing", "OutlineWidth", "Outline", "Shadow", "Effect", "Red", "Green",
        "Blue", "SubtitleFadeIn", "SubtitleFadeOut", "SubtitleLanguage", "DCPTrack"] →
      name ∈ legacy_optional_tags v := by
    intro name h
    simp only [legacy_optional_tags, List.mem_append, List.mem_cons, List.mem_singleton,
      List.not_mem_nil, or_false] at h ⊢
    tauto
  -- effect
  have e1 : ∀ t : TextContent, ∃ t', read_effect conv node t = .ok t' ∧
      t'._x_offset = t._x_offset ∧ t'._y_offset = t._y_offset := by
    intro t
    simp only [read_effect, ho conv.to_bool "Outline" (hmem _ (by decide)),
      ho conv.to_bool "Shadow" (hmem _ (by decide)), hstr "Effect" (hmem _ (by decide)),
      bind, Except.bind, pure, Except.pure]
    cases (Option.map conv.to_bool (node.child_content "Outline")).getD false <;>
      exact ⟨_, rfl, rfl, rfl⟩
  -- scale
  have e2 : ∀ t : TextContent, ∃ t', read_scale conv node v t = .ok t' ∧
      t'._x_offset = t._x_offset ∧ t'._y_offset = t._y_offset := by
    intro t
    simp only [read_scale, if_neg h37]
    by_cases h10 : v ≥ 10
    · obtain ⟨sx, _, hx⟩ := Node.number_child_ok node conv.to_double _ (hsc10 h10).1
      obtain ⟨sy, _, hy⟩ := Node.number_child_ok node conv.to_double _ (hsc10 h10).2
      rw [if_pos h10, hx, hy]
      exact ⟨_, rfl, rfl, rfl⟩
    · obtain ⟨s, _, hx⟩ := Node.number_child_ok node conv.to_double _ (hsc7 (by omega))
      rw [if_neg h10, hx]
      exact ⟨_, rfl, rfl, rfl⟩
  -- colour
  have e3 : ∀ t : TextContent, ∃ t', read_colour conv node t = .ok t' ∧
      t'._x_offset = t._x_offset ∧ t'._y_offset = t._y_offset := by
    intro t
    simp only [read_colour, ho conv.to_int "Red" (hmem _ (by decide)),
      ho conv.to_int "Green" (hmem _ (by decide)),
      ho conv.to_int "Blue" (hmem _ (by decide)),
      bind, Except.bind, pure, Except.pure]
    rcases Option.map conv.to_int (node.child_content "Red") with _ | r <;>
      rcases Option.map conv.to_int (node.child_content "Green") with _ | g <;>
      rcases Option.map conv.to_int (node.child_content "Blue") with _ | b <;>
      exact ⟨_, rfl, rfl, rfl⟩
  -- effect colour
  have e4 : ∀ t : TextContent, ∃ t', read_effect_colour conv node v t = .ok t' ∧
      t'._x_offset = t._x_offset ∧ t'._y_offset = t._y_offset := by
    intro t
    by_cases h36 : v ≥ 36
    · have hm : ∀ name : String, name ∈ ["EffectRed", "EffectGreen", "EffectBlue"] →
          name ∈ legacy_optional_tags v := by
        intro name h
        simp only [legacy_optional_tags, if_pos h36, List.mem_append]
        exact Or.inl (Or.inr h)
      simp only [read_effect_colour, if_pos h36,
        ho conv.to_int "EffectRed" (hm _ (by decide)),
        ho conv.to_int "EffectGreen" (hm _ (by decide)),
        ho conv.to_int "EffectBlue" (hm _ (by decide)),
        bind, Except.bind, pure, Except.pure]
      rcases Option.map conv.to_int (node.child_content "EffectRed") with _ | r <;>
        rcases Option.map conv.to_int (node.child_content "EffectGreen") with _ | g <;>
        rcases Option.map conv.to_int (node.child_content "EffectBlue") with _ | b <;>
        exact ⟨_, rfl, rfl, rfl⟩
    · have hm : ∀ name : String, name ∈ ["OutlineRed", "OutlineGreen", "OutlineBlue"] →
          name ∈ legacy_optional_tags v := by
        intro name h
        simp only [legacy_optional_tags, if_neg h36, List.mem_append]
        exact Or.inl (Or.inr h)
      simp only [read_effect_colour, if_neg h36,
        ho conv.to_int "OutlineRed" (hm _ (by decide)),
        ho conv.to_int "OutlineGreen" (hm _ (by decide)),
        ho conv.to_int "OutlineBlue" (hm _ (by decide)),
        bind, Except.bind, pure, Except.pure]
      exact ⟨_, rfl, rfl, rfl⟩
  -- fades
  have e5 : ∀ t : TextContent, ∃ t', read_fades conv node v t = .ok t' ∧
      t'._x_offset = t._x_offset ∧ t'._y_offset = t._y_offset := by
    intro t
    simp only [read_fades, if_neg h37,
      ho conv.to_int "SubtitleFadeIn" (hmem _ (by decide)),
      ho conv.to_int "SubtitleFadeOut" (hmem _ (by decide)),
      bind, Except.bind, pure, Except.pure]
    rcases Option.map conv.to_int (node.child_content "SubtitleFadeIn") with _ | r <;>
      rcases Option.map conv.to_int (node.child_content "SubtitleFadeOut") with _ | g <;>
      exact ⟨_, rfl, rfl, rfl⟩
  -- language and fonts
  have e6 : ∀ t : TextContent, ∃ t', read_language_fonts node v t = .ok t' ∧
      t'._x_offset = t._x_offset ∧ t'._y_offset = t._y_offset := by
    intro t
    simp only [read_language_fonts, if_neg h37, hstr "SubtitleLanguage" (hmem _ (by decide)),
      bind, Except.bind, pure, Except.pure]
    exact ⟨_, rfl, rfl, rfl⟩
  -- type
  have e7 : ∀ t : TextContent, read_type node v t = .ok t := by
    intro t
    simp only [read_type, if_neg h37]
    rfl
  -- track
  have e8 : ∀ t : TextContent, ∃ t', read_dcp_track conv node t = .ok t' ∧
      t'._x_offset = t._x_offset ∧ t'._y_offset = t._y_offset := by
    intro t
    simp only [read_dcp_track, hnode "DCPTrack" (hmem _ (by decide)),
      bind, Except.bind, pure, Except.pure]
    rcases (node.node_children "DCPTrack").head? with _ | d <;> exact ⟨_, rfl, rfl, rfl⟩
  obtain ⟨t1, h1, x1, y1⟩ := e1 t
  obtain ⟨t2, h2, x2, y2⟩ := e2 t1
  obtain ⟨t3, h3, x3, y3⟩ := e3 t2
  obtain ⟨t4, h4, x4, y4⟩ := e4 t3
  obtain ⟨t5, h5, x5, y5⟩ := e5 t4
  obtain ⟨t6, h6, x6, y6⟩ := e6 t5
  obtain ⟨t8, h8, x8, y8⟩ := e8 t6
  refine ⟨t8, ?_, ?_, ?_⟩
  · rw [h1]
    show (do
        let t ← read_scale conv node v t1
        let t ← read_colour conv node t
        let t ← read_effect_colour conv node v t
        let t ← read_fades conv node v t
        let t ← read_language_fonts node v t
        let t ← read_type node v t
        read_dcp_track conv node t) = .ok t8
    rw [h2]
    show (do
        let t ← read_colour conv node t2
        let t ← read_effect_colour conv node v t
        let t ← read_fades conv node v t
        let t ← read_language_fonts node v t
        let t ← read_type node v t
        read_dcp_track conv node t) = .ok t8
    rw [h3]
    show (do
        let t ← read_effect_colour conv node v t3
        let t ← read_fades conv node v t
        let t ← read_language_fonts node v t
        let t ← read_type node v t
        read_dcp_track conv node t) = .ok t8
    rw [h4]
    show (do
        let t ← read_fades conv node v t4
        let t ← read_language_fonts node v t
        let t ← read_type node v t
        read_dcp_track conv node t) = .ok t8
    rw [h5]
    show (do
        let t ← read_language_fonts node v t5
        let t ← read_type node v t
        read_dcp_track conv node t) = .ok t8
    rw [h6]
    show (do
        let t ← read_type node v t6
        read_dcp_track conv node t) = .ok t8
    rw [e7]
    exact h8
  · rw [x8, x6, x5, x4, x3, x2, x1]
  · rw [y8, y6, y5, y4, y3, y2, y1]

end TextContent

namespace TextContent

/-- C19: for metadata versions 7 to 36, `from_xml` reads a content node with the legacy tags:
if the node has SubtitleXOffset, SubtitleYOffset and the scale and use/burn tags its version
requires, none of the optional subtitle tags the constructor reads is repeated (any other tag
may be), and, before version 34, the node is not FFmpeg content without a SubtitleStream, it
returns exactly one TextContent whose offsets are the values of those tags; and it returns
the empty list only when the node has neither SubtitleXOffset nor SubtitleOffset, or when,
before version 34, it is FFmpeg content without a SubtitleStream. -/
theorem from_xml_legacy (conv : RawConvert) (node : Node) (v : Int) (hv7 : 7 ≤ v)
    (hv36 : v ≤ 36) :
    (node.reads_once (legacy_optional_tags v) →
      node.has_child "SubtitleXOffset" → node.has_child "SubtitleYOffset" →
      (10 ≤ v → node.has_child "SubtitleXScale" ∧ node.has_child "SubtitleYScale") →
      (v < 10 → node.has_child "SubtitleScale") →
      (32 ≤ v → node.has_child "UseSubtitles" ∧ node.has_child "BurnSubtitles") →
      (v < 34 → node.has_child "Type" ∧
        ¬ (node.child_content "Type" = some "FFmpeg" ∧
            node.node_children "SubtitleStream" = [])) →
      ∃ tc, from_xml conv node v = .ok [tc] ∧
        some tc._x_offset = (node.child_content "SubtitleXOffset").map conv.to_double ∧
        some tc._y_offset = (node.child_content "SubtitleYOffset").map conv.to_double) ∧
    (from_xml conv node v = .ok [] →
      (node.node_children "SubtitleXOffset" = [] ∧ node.node_children "SubtitleOffset" = []) ∨
      (v < 34 ∧ node.child_content "Type" = some "FFmpeg" ∧
        node.node_children "SubtitleStream" = [])) := by
  have h37 : v < 37 := by omega
  have hn37 : ¬ (v ≥ 37) := by omega
  have h7 : v ≥ 7 := hv7
  constructor
  · intro hs hx hy hsc10 hsc7 hub hty
    -- the head test does not fire
    have hold : old_ffmpeg_without_streams node v = .ok false := by
      unfold old_ffmpeg_without_streams
      by_cases h34 : v < 34
      · obtain ⟨ty, hty1, hty2⟩ := Node.number_child_ok node id "Type" (hty h34).1
        have hstr : node.string_child "Type" = .ok ty := by
          simpa [Node.number_child] using hty2
        rw [if_pos h34, hstr]
        have hne := (hty h34).2
        rw [hty1] at hne
        by_cases hff : ty = "FFmpeg"
        · have hstreams : node.node_children "SubtitleStream" ≠ [] :=
            fun e => hne ⟨by rw [hff], e⟩
          have : (node.node_children "SubtitleStream").isEmpty = false := by
            cases hc : node.node_children "SubtitleStream" with
            | nil => exact absurd hc hstreams
            | cons a l => rfl
          simp [bind, Except.bind, pure, Except.pure, this]
        · simp [bind, Except.bind, pure, Except.pure, hff]
      · rw [if_neg h34]
        rfl
    -- the constructor succeeds
    obtain ⟨sx, hcx, hnx⟩ := Node.number_child_ok node conv.to_double _ hx
    obtain ⟨sy, hcy, hny⟩ := Node.number_child_ok node conv.to_double _ hy
    have hinit : ∃ t0, read_init conv node = .ok t0 := by
      simp only [read_init,
        Node.optional_number_child_ok node conv.to_double "LineSpacing"
          (hs _ (by simp [legacy_optional_tags])),
        Node.optional_number_child_ok node conv.to_int "OutlineWidth"
          (hs _ (by simp [legacy_optional_tags])),
        bind, Except.bind, pure, Except.pure]
      exact ⟨_, rfl⟩
    obtain ⟨t0, ht0⟩ := hinit
    have hub2 : ∃ t1, read_use_burn conv node v t0 = .ok t1 := by
      simp only [read_use_burn, if_neg hn37]
      by_cases h32 : v ≥ 32
      · obtain ⟨_, _, hu⟩ := Node.number_child_ok node conv.to_bool _ (hub h32).1
        obtain ⟨_, _, hb⟩ := Node.number_child_ok node conv.to_bool _ (hub h32).2
        rw [if_pos h32, hu, hb]
        exact ⟨_, rfl⟩
      · rw [if_neg h32]
        exact ⟨_, rfl⟩
    obtain ⟨t1, ht1⟩ := hub2
    have hoff : read_offsets conv node v t1
        = .ok { t1 with _x_offset := conv.to_double sx, _y_offset := conv.to_double sy } := by
      simp only [read_offsets, if_neg hn37, if_pos h7, hnx, hny]
      rfl
    obtain ⟨t9, ht9, hx9, hy9⟩ := read_rest_ok conv node v
      { t1 with _x_offset := conv.to_double sx, _y_offset := conv.to_double sy }
      hv36 hs hsc10 hsc7
    have hread : read conv node v = .ok t9 := by
      unfold read
      rw [ht0]
      show (do
        let t ← read_use_burn conv node v t0
        let t ← read_offsets conv node v t
        let t ← read_effect conv node t
        let t ← read_scale conv node v t
        let t ← read_colour conv node t
        let t ← read_effect_colour conv node v t
        let t ← read_fades conv node v t
        let t ← read_language_fonts node v t
        let t ← read_type node v t
        read_dcp_track conv node t) = .ok t9
      rw [ht1]
      show (do
        let t ← read_offsets conv node v t1
        let t ← read_effect conv node t
        let t ← read_scale conv node v t
        let t ← read_colour conv node t
        let t ← read_effect_colour conv node v t
        let t ← read_fades conv node v t
        let t ← read_language_fonts node v t
        let t ← read_type node v t
        read_dcp_track conv node t) = .ok t9
      rw [hoff]
      exact ht9
    have hxo : node.optional_number_child conv.to_double "SubtitleXOffset"
        = .ok (some (conv.to_double sx)) := by
      rw [Node.optional_number_child_ok node conv.to_double _ (le_of_eq hx), hcx]
      rfl
    refine ⟨t9, ?_, ?_, ?_⟩
    · simp only [from_xml, hold, if_pos h37, hxo, hread]
      rfl
    · rw [hcx, hx9]
      rfl
    · rw [hcy, hy9]
      rfl
  · intro hempty
    unfold from_xml at hempty
    cases hold : old_ffmpeg_without_streams node v with
    | error e =>
      rw [hold] at hempty
      cases hempty
    | ok b =>
      cases b with
      | true =>
        right
        unfold old_ffmpeg_without_streams at hold
        by_cases h34 : v < 34
        · rw [if_pos h34] at hold
          unfold Node.string_child Node.node_child at hold
          unfold Node.child_content
          rcases hc : node.node_children "Type" with _ | ⟨c, _ | ⟨d, ds⟩⟩
          · rw [hc] at hold
            cases hold
          · rw [hc] at hold
            simp only [bind, Except.bind, pure, Except.pure, Except.map, Except.ok.injEq,
              Bool.and_eq_true, decide_eq_true_eq, List.isEmpty_iff] at hold
            exact ⟨h34, by simp [hold.1], hold.2⟩
          · rw [hc] at hold
            cases hold
        · rw [if_neg h34] at hold
          cases hold
      | false =>
        left
        rw [hold] at hempty
        simp only [if_pos h37] at hempty
        cases hxo : node.optional_number_child conv.to_double "SubtitleXOffset" with
        | error e =>
          rw [hxo] at hempty
          cases hempty
        | ok ox =>
          cases ox with
          | some x =>
            rw [hxo] at hempty
            simp only [] at hempty
            cases hr : read conv node v with
            | error e =>
              rw [hr] at hempty
              cases hempty
            | ok t =>
              rw [hr] at hempty
              simp [Except.map] at hempty
          | none =>
            rw [hxo] at hempty
            simp only [] at hempty
            cases hyo : node.optional_number_child conv.to_double "SubtitleOffset" with
            | error e =>
              rw [hyo] at hempty
              cases hempty
            | ok oy =>
              cases oy with
              | some y =>
                rw [hyo] at hempty
                simp only [] at hempty
                cases hr : read conv node v with
                | error e =>
                  rw [hr] at hempty
                  cases hempty
                | ok t =>
                  rw [hr] at hempty
                  simp [Except.map] at hempty
              | none =>
                exact ⟨(Node.optional_number_child_none node conv.to_double _).1 hxo,
                  (Node.optional_number_child_none node conv.to_double _).1 hyo⟩

/-- Witness for `from_xml_legacy`: the version-32 node of an FFmpeg file with a subtitle
stream, in which `Path`, `AudioStream` and `Filter` are repeated, gives one TextContent with
x offset 1/4 and y offset -1/2. -/
theorem from_xml_legacy_witness :
    (sample_legacy_ffmpeg_node.node_children "Path").length = 2 ∧
    (sample_legacy_ffmpeg_node.node_children "AudioStream").length = 2 ∧
    ∃ tc, from_xml sample_convert sample_legacy_ffmpeg_node 32 = .ok [tc] ∧
      some tc._x_offset = some (1 / 4 : ℚ) ∧ some tc._y_offset = some (-1 / 2 : ℚ) := by
  obtain ⟨tc, h1, h2, h3⟩ := (from_xml_legacy sample_convert sample_legacy_ffmpeg_node 32
    (by decide) (by decide)).1 (by decide) (by decide) (by decide)
    (fun _ => ⟨by decide, by decide⟩) (fun h => absurd h (by decide))
    (fun _ => ⟨by decide, by decide⟩)
    (fun _ => ⟨by decide, fun h => absurd (congrArg List.length h.2) (by decide)⟩)
  refine ⟨by decide, by decide, tc, h1, ?_, ?_⟩
  · rw [h2]
    have : sample_legacy_ffmpeg_node.child_content "SubtitleXOffset" = some "0.25" := by decide
    rw [this]
    simp [sample_convert]
  · rw [h3]
    have : sample_legacy_ffmpeg_node.child_content "SubtitleYOffset" = some "-0.5" := by decide
    rw [this]
    simp [sample_convert]

end TextContent

/-! ### Locking in the Butler -/

namespace Butler

/-- C20, as stated, fails: `get_audio` calls `_audio.get` with no lock held, `memory_used`
calls `_video.memory_used` with no lock held, and `get_video`, `get_closed_caption` and
`player_change` call `get` with only `_mutex` (state_lock) held, not `_buffers_mutex`. -/
theorem get_without_buffers_lock :
    events (init ⟨0⟩ 6) (.get_audio 1) = [.access .audio .get] ∧
    respects specified_rule (events (init ⟨0⟩ 6) (.get_audio 1)) false false = false ∧
    respects specified_rule memory_used_events false false = false ∧
    events ((init ⟨0⟩ 6).video (some ⟨7⟩) 100) (.get_video true)
      = [.lock .state, .access .video .empty, .access .video .empty, .access .video .get,
          .unlock .state] ∧
    respects specified_rule (events ((init ⟨0⟩ 6).video (some ⟨7⟩) 100) (.get_video true))
      false false = false ∧
    respects specified_rule (events (init ⟨0⟩ 6) .get_closed_caption) false false = false ∧
    respects specified_rule
      (events ((init ⟨0⟩ 6).video (some ⟨7⟩) 100) (.player_change .CHANGE_TYPE_DONE false))
      false false = false := by
  decide

/-- The ring-buffer queries of `should_run` are all made under the caller's `_mutex`. -/
theorem should_run_events_respects (s : Butler) (rest : List Event) :
    respects kept_rule (should_run_events s ++ rest) true false
      = respects kept_rule rest true false := by
  unfold should_run_events
  repeat' split
  all_goals simp [respects, kept_rule]

/-- C20, amended: in every state and for every operation, each put and clear on a ring buffer
is made while `_buffers_mutex` is held; each get, peek, size and empty is made while `_mutex`
is held and `_buffers_mutex` is not, except the get of the audio buffer in `get_audio`, which
like the `memory_used` of the video buffer is made with no lock of the Butler held; and
`_mutex` is never taken while `_buffers_mutex` is held.  The last four conjuncts show what the
rule refuses: a get or a query under `_buffers_mutex` alone, a query with no lock, a put or
clear under `_mutex` alone, and `_mutex` taken after `_buffers_mutex`. -/
theorem events_respect_kept_rule (s : Butler) (op : Op) :
    respects kept_rule (events s op) false false = true ∧
    respects kept_rule memory_used_events false false = true ∧
    (∀ b, respects kept_rule [.lock .buffers, .access b .get, .unlock .buffers] false false
      = false) ∧
    (∀ b a, a = .peek ∨ a = .size ∨ a = .empty →
      respects kept_rule [.lock .buffers, .access b a, .unlock .buffers] false false = false ∧
      respects kept_rule [.access b a] false false = false) ∧
    (∀ b a, a = .put ∨ a = .clear →
      respects kept_rule [.lock .state, .access b a, .unlock .state] false false = false) ∧
    respects kept_rule [.lock .buffers, .lock .state, .unlock .state, .unlock .buffers]
      false false = false := by
  refine ⟨?_, by decide, ?_, ?_, ?_, by decide⟩
  rotate_left
  · intro b
    cases b <;> decide
  · intro b a ha
    rcases ha with e | e | e <;> subst e <;> cases b <;> decide
  · intro b a ha
    rcases ha with e | e <;> subst e <;> cases b <;> decide
  cases op with
  | get_video e =>
    simp only [events]
    repeat' split
    all_goals simp [respects, kept_rule]
  | get_closed_caption => simp [events, respects, kept_rule]
  | seek position accurate =>
    simp only [events, seek_unlocked_events]
    split <;> simp [respects, kept_rule]
  | video v time =>
    simp only [events]
    split <;> simp [respects, kept_rule]
  | audio a time frame_rate =>
    simp only [events]
    split <;> simp [respects, kept_rule]
  | get_audio frames => simp [events, respects, kept_rule]
  | disable_audio => simp [events, respects, kept_rule]
  | player_change type frequent =>
    cases type with
    | CHANGE_TYPE_PENDING => simp [events, respects, kept_rule]
    | CHANGE_TYPE_DONE =>
      simp only [events, seek_unlocked_events]
      repeat' split
      all_goals simp [respects, kept_rule]
    | CHANGE_TYPE_CANCELLED => simp [events, respects, kept_rule]
  | text pt type track period =>
    simp only [events]
    split
    · rfl
    · split <;> simp [respects, kept_rule]
  | thread_should_run =>
    have h : events s .thread_should_run
        = .lock .state :: (should_run_events s ++ [.unlock .state]) := rfl
    rw [h]
    show (!false && respects kept_rule (should_run_events s ++ [.unlock .state]) true false)
      = true
    rw [should_run_events_respects]
    rfl
  | thread_seek => simp [events, respects, kept_rule]
  | thread_pass r => simp [events, respects, kept_rule]
  | thread_interrupted => simp [events, respects, kept_rule]
  | thread_died => simp [events, respects, kept_rule]
  | stop => simp [events, respects, kept_rule]

end Butler

namespace Player

/-- The frame count of a time at a non-negative rate grows with the time. -/
theorem frames_mono (HZ r : Int) (hHZ : 0 < HZ) (hr : 0 ≤ r) (a b : DCPTime) (h : a ≤ b) :
    DCPTime.frames HZ a r ≤ DCPTime.frames HZ b r := by
  unfold DCPTime.frames
  exact Int.ediv_le_ediv hHZ (Int.mul_le_mul_of_nonneg_right h hr)

/-- C26: for a piece with trim_start ≥ 0 and length_after_trim ≥ 0 (time base and audio rate
positive), `dcp_to_content_audio` does not decrease as t grows, is constant for t at or before
the position and for t at or after position + length_after_trim, and always lies between the
audio-frame counts of trim_start and of trim_start + length_after_trim. -/
theorem dcp_to_content_audio_monotone (HZ : Int) (film : Film) (piece : Piece) (hHZ : 0 < HZ)
    (hr : 0 ≤ film.audio_frame_rate) (htrim : 0 ≤ piece.content.trim_start)
    (hlen : 0 ≤ piece.content.length_after_trim) :
    (∀ t1 t2 : DCPTime, t1 ≤ t2 →
      dcp_to_content_audio HZ film piece t1 ≤ dcp_to_content_audio HZ film piece t2) ∧
    (∀ t : DCPTime, t ≤ piece.content.position →
      dcp_to_content_audio HZ film piece t
        = DCPTime.frames HZ piece.content.trim_start film.audio_frame_rate) ∧
    (∀ t : DCPTime, piece.content.position + piece.content.length_after_trim ≤ t →
      dcp_to_content_audio HZ film piece t
        = DCPTime.frames HZ (piece.content.trim_start + piece.content.length_after_trim)
            film.audio_frame_rate) ∧
    (∀ t : DCPTime,
      0 ≤ DCPTime.frames HZ piece.content.trim_start film.audio_frame_rate ∧
      DCPTime.frames HZ piece.content.trim_start film.audio_frame_rate
        ≤ dcp_to_content_audio HZ film piece t ∧
      dcp_to_content_audio HZ film piece t
        ≤ DCPTime.frames HZ (piece.content.trim_start + piece.content.length_after_trim)
            film.audio_frame_rate) := by
  refine ⟨?_, ?_, ?_, ?_⟩
  · intro t1 t2 h
    unfold dcp_to_content_audio
    apply frames_mono HZ _ hHZ hr
    have : min piece.content.length_after_trim (max 0 (t1 - piece.content.position))
        ≤ min piece.content.length_after_trim (max 0 (t2 - piece.content.position)) :=
      min_le_min_left _ (max_le_max_left _ (sub_le_sub_right h _))
    exact add_le_add_right this _
  · intro t h
    unfold dcp_to_content_audio
    have h1 : max 0 (t - piece.content.position) = 0 := max_eq_left (sub_nonpos.mpr h)
    have h2 : min piece.content.length_after_trim 0 = 0 := min_eq_right hlen
    simp only [h1, h2, zero_add]
  · intro t h
    unfold dcp_to_content_audio
    have h1 : max 0 (t - piece.content.position) = t - piece.content.position :=
      max_eq_right (sub_nonneg.mpr (le_trans (le_add_of_nonneg_right hlen) h))
    have h2 : min piece.content.length_after_trim (t - piece.content.position)
        = piece.content.length_after_trim := min_eq_left (le_sub_iff_add_le'.mpr h)
    simp only [h1, h2, add_comm]
  · intro t
    have h0 : 0 ≤ min piece.content.length_after_trim (max 0 (t - piece.content.position)) :=
      le_min hlen (le_max_left _ _)
    have h1 : min piece.content.length_after_trim (max 0 (t - piece.content.position))
        ≤ piece.content.length_after_trim := min_le_left _ _
    refine ⟨?_, ?_, ?_⟩
    · unfold DCPTime.frames
      exact Int.ediv_nonneg (Int.mul_nonneg htrim hr) (le_of_lt hHZ)
    · unfold dcp_to_content_audio
      exact frames_mono HZ _ hHZ hr _ _ (le_add_of_nonneg_left h0)
    · unfold dcp_to_content_audio
      refine frames_mono HZ _ hHZ hr _ _ ?_
      rw [add_comm piece.content.trim_start]
      exact add_le_add_right h1 _

/-- Witness for `dcp_to_content_audio_monotone`: the 10 s sample piece at 48 kHz; one second
is frame 48000 and everything after the end is frame 480000. -/
theorem dcp_to_content_audio_monotone_witness :
    dcp_to_content_audio 96000 sample_film sample_piece_48 0
      ≤ dcp_to_content_audio 96000 sample_film sample_piece_48 96000 ∧
    dcp_to_content_audio 96000 sample_film sample_piece_48 2000000
      = DCPTime.frames 96000 (0 + 960000) 48000 :=
  ⟨(dcp_to_content_audio_monotone 96000 sample_film sample_piece_48 (by decide) (by decide)
      (by decide) (by decide)).1 0 96000 (by decide),
    (dcp_to_content_audio_monotone 96000 sample_film sample_piece_48 (by decide) (by decide)
      (by decide) (by decide)).2.2.1 2000000 (by decide)⟩

/-- C21, the code at the failing input: in a 24 fps film whose playlist is a 25 fps video and
a sound file, both at position 0 and 10 s long, the "overlap" that `setup_pieces` computes
for the pair is max (positions) - min (ends) = -960000, which is not greater than the initial
best of 0; no best-overlap video is found and the sound file's piece gets the frame-rate
change (24, 24) of the film, not (25, 24) of the video it fully overlaps. -/
theorem setup_pieces_ignores_overlapping_video :
    min (sample_content .FFmpeg 25).end_ (sample_content .Sndfile 25).end_
      - max (sample_content .FFmpeg 25).position (sample_content .Sndfile 25).position
      = 960000 ∧
    (best_overlap (sample_content .Sndfile 25)
      [sample_content .FFmpeg 25, sample_content .Sndfile 25] (none, 0)).2 = 0 ∧
    (best_overlap (sample_content .Sndfile 25)
      [sample_content .FFmpeg 25, sample_content .Sndfile 25] (none, 0)).1.isNone = true ∧
    ((create sample_film [sample_content .FFmpeg 25, sample_content .Sndfile 25]).setup_pieces
      )._pieces.map (fun i => (i.content.kind, i.frc.source, i.frc.dcp))
      = [(.FFmpeg, 25, 24), (.Sndfile, 24, 24)] := by
  refine ⟨by decide, by decide, by decide, ?_⟩
  simp [setup_pieces, create, set_video_container_size, make_piece, best_overlap,
    sample_content, sample_film, Content.is_video, Content.end_]

/-- A video that leaves a gap to the content is what `best_overlap` picks: of two videos, one
overlapping the sound file entirely and one starting 10 s after its end, the second is chosen. -/
theorem best_overlap_prefers_gap :
    ((best_overlap (sample_content .Sndfile 25)
      [sample_content .FFmpeg 25,
        { sample_content .FFmpeg 30 with position := 1920000 }] (none, 0)).1.map
      (fun v => v.video_frame_rate)) = some 30 := by
  simp [best_overlap, sample_content, Content.is_video, Content.end_]

end Player

namespace Player

/-- C22: for a live content and a property p, `content_changed` invalidates the pieces
exactly when p is POSITION, LENGTH, TRIM_START, TRIM_END, PATH or VIDEO_FRAME_TYPE, emitting
Changed (frequent); for the subtitle offsets and scale and the video crop, scale and frame rate
(identifiers different from those six) it emits Changed (frequent) with the same flag and leaves
`_have_valid_pieces` as it was; it never touches the pieces themselves. -/
theorem content_changed_invalidates_iff (ids : PropertyIds) (p : Player) (property : Int)
    (frequent : Bool) (hd : ∀ q ∈ ids.picture, q ∉ ids.timeline) :
    (property ∈ ids.timeline →
      (content_changed ids p true property frequent)._have_valid_pieces = false ∧
      (content_changed ids p true property frequent).changed = p.changed ++ [frequent]) ∧
    (property ∉ ids.timeline →
      (content_changed ids p true property frequent)._have_valid_pieces
        = p._have_valid_pieces) ∧
    (p._have_valid_pieces = true →
      ((content_changed ids p true property frequent)._have_valid_pieces = false
        ↔ property ∈ ids.timeline)) ∧
    (property ∈ ids.picture →
      (content_changed ids p true property frequent).changed = p.changed ++ [frequent] ∧
      (content_changed ids p true property frequent)._have_valid_pieces
        = p._have_valid_pieces) ∧
    (property ∉ ids.timeline → property ∉ ids.picture →
      (content_changed ids p true property frequent).changed = p.changed) := by
  have ht : property ∈ ids.timeline ↔
      (property = ids.POSITION ∨ property = ids.LENGTH ∨ property = ids.TRIM_START ∨
        property = ids.TRIM_END ∨ property = ids.PATH ∨ property = ids.VIDEO_FRAME_TYPE) := by
    simp [PropertyIds.timeline]
  have hp : property ∈ ids.picture ↔
      (property = ids.SUBTITLE_X_OFFSET ∨ property = ids.SUBTITLE_Y_OFFSET ∨
        property = ids.SUBTITLE_SCALE ∨ property = ids.VIDEO_CROP ∨
        property = ids.VIDEO_SCALE ∨ property = ids.VIDEO_FRAME_RATE) := by
    simp [PropertyIds.picture]
  have h1 : property ∈ ids.timeline →
      content_changed ids p true property frequent
        = { p with _have_valid_pieces := false, changed := p.changed ++ [frequent] } := by
    intro h
    simp only [content_changed, Bool.not_true, Bool.false_eq_true, if_false, if_pos (ht.mp h)]
  have h2 : property ∉ ids.timeline → property ∈ ids.picture →
      content_changed ids p true property frequent
        = { p with changed := p.changed ++ [frequent] } := by
    intro hn h
    simp only [content_changed, Bool.not_true, Bool.false_eq_true, if_false,
      if_neg (fun e => hn (ht.mpr e)), if_pos (hp.mp h)]
  have h3 : property ∉ ids.timeline → property ∉ ids.picture →
      content_changed ids p true property frequent = p := by
    intro hn hm
    simp only [content_changed, Bool.not_true, Bool.false_eq_true, if_false,
      if_neg (fun e => hn (ht.mpr e)), if_neg (fun e => hm (hp.mpr e))]
  have hkeep : property ∉ ids.timeline →
      (content_changed ids p true property frequent)._have_valid_pieces
        = p._have_valid_pieces := by
    intro hn
    by_cases hm : property ∈ ids.picture
    · rw [h2 hn hm]
    · rw [h3 hn hm]
  refine ⟨fun h => ?_, hkeep, fun hv => ⟨fun hf => ?_, fun h => ?_⟩, fun h => ?_, fun hn hm => ?_⟩
  · rw [h1 h]
    exact ⟨rfl, rfl⟩
  · by_contra hn
    rw [hkeep hn, hv] at hf
    cases hf
  · rw [h1 h]
  · rw [h2 (hd property h) h]
    exact ⟨rfl, rfl⟩
  · rw [h3 hn hm]

/-- Witness for `content_changed_invalidates_iff`: a change of POSITION invalidates the pieces
of a Player that had valid pieces. -/
theorem content_changed_invalidates_iff_witness :
    (content_changed sample_ids (sample_player.setup_pieces) true 400 true)._have_valid_pieces
      = false ∧
    (content_changed sample_ids (sample_player.setup_pieces) true 400 true).changed = [true] :=
  (content_changed_invalidates_iff sample_ids (sample_player.setup_pieces) 400 true
    (by decide)).1 (by decide)

end Player

namespace DCPContent

/-- The loop of `directory` never sets `smallest`. -/
theorem directory_fold (paths : List Path) (dir : Path) :
    (paths.foldl directory_step (none, dir)).1 = none := by
  induction paths generalizing dir with
  | nil => rfl
  | cons p ps ih =>
    rw [List.foldl_cons]
    have hstep : directory_step (none, dir) p = (none, p.parent_path) := rfl
    rw [hstep]
    exact ih _

/-- While `smallest` is unset, a step of the loop of `directory` stores the parent of the
path in `dir`. -/
theorem directory_step_none (state : Option Nat × Path) (hs : state.1 = none) (path : Path) :
    (directory_step state path).2 = path.parent_path := by
  obtain ⟨a, b⟩ := state
  cases a with
  | none => rfl
  | some n => cases hs

/-- C28: for a non-empty list of paths `directory` returns the parent path of the last path,
whatever the depths of the others; for the paths /a/x.mxf and /a/b/c/y.mxf it returns
/a/b/c, which has more components than the parent /a of the first. -/
theorem directory_is_parent_of_last (paths : List Path) (last : Path) :
    directory (paths ++ [last]) = last.parent_path ∧
    directory [["/", "a", "x.mxf"], ["/", "a", "b", "c", "y.mxf"]] = ["/", "a", "b", "c"] ∧
    (Path.parent_path ["/", "a", "x.mxf"]).length
      < (directory [["/", "a", "x.mxf"], ["/", "a", "b", "c", "y.mxf"]]).length := by
  refine ⟨?_, by decide, by decide⟩
  unfold directory
  rw [List.foldl_append, List.foldl_cons, List.foldl_nil]
  exact directory_step_none _ (directory_fold paths []) last

end DCPContent

namespace HintsDialog

/-- The hints of the audio-channel block are among those `film_changed` writes, and it writes
no other audio-channel hint. -/
theorem film_changed_audio (film : HintsFilm) (h : Hint)
    (hh : h = .odd_audio_channels ∨ h = .fewer_than_6_audio_channels ∨ h = .no_audio_channels) :
    h ∈ film_changed (some film) ↔ h ∈ audio_channel_hints film.audio_channels := by
  have e1 : ∀ (c : Prop) [Decidable c] (x : Hint), h ≠ x →
      (h ∈ (if c then [x] else []) ↔ False) := by
    intro c _ x hx
    split <;> simp [hx]
  have e2 : ∀ (c : Bool) (x : Hint), h ≠ x →
      (h ∈ (if c = true then [x] else []) ↔ False) := fun c x hx => e1 _ x hx
  have hne : ∀ x : Hint, x ≠ .odd_audio_channels → x ≠ .fewer_than_6_audio_channels →
      x ≠ .no_audio_channels → h ≠ x := by
    intro x h1 h2 h3 e
    rcases hh with e0 | e0 | e0
    · exact h1 (e ▸ e0)
    · exact h2 (e ▸ e0)
    · exact h3 (e ▸ e0)
  have e3 : ∀ l : List Hint, (h ∈ (if l.isEmpty = true then [Hint.no_hints] else l) ↔ h ∈ l) := by
    intro l
    cases l with
    | nil => simp [hne .no_hints (by decide) (by decide) (by decide)]
    | cons a l => simp
  simp only [film_changed]
  rw [e3]
  · simp only [List.mem_append]
    rw [e1 _ _ (hne .big_font_files (by decide) (by decide) (by decide)),
      e1 _ _ (hne .scope_in_flat (by decide) (by decide) (by decide)),
      e1 _ _ (hne .flat_in_scope (by decide) (by decide) (by decide)),
      e1 _ _ (hne (.frame_rate _) (by simp) (by simp) (by simp)),
      e1 _ _ (hne .high_bandwidth (by decide) (by decide) (by decide)),
      e1 _ _ (hne .interop_frame_rate (by decide) (by decide) (by decide)),
      e1 _ _ (hne (.vob_files _) (by simp) (by simp) (by simp)),
      e1 _ _ (hne .three_d_in_2d (by decide) (by decide) (by decide))]
    simp

/-- C29: for every audio channel count n ≥ 0 `film_changed` never writes the "no audio
channels" hint; an odd n gets the odd-channel hint (and not the other), an even n below 6,
0 included, gets the "fewer than 6" hint (and not the other), and an even n of 6 or more gets
neither. -/
theorem film_changed_audio_hints (film : HintsFilm) (hn : 0 ≤ film.audio_channels) :
    Hint.no_audio_channels ∉ film_changed (some film) ∧
    (film.audio_channels % 2 = 1 →
      Hint.odd_audio_channels ∈ film_changed (some film) ∧
      Hint.fewer_than_6_audio_channels ∉ film_changed (some film)) ∧
    (film.audio_channels % 2 = 0 → film.audio_channels < 6 →
      Hint.fewer_than_6_audio_channels ∈ film_changed (some film) ∧
      Hint.odd_audio_channels ∉ film_changed (some film)) ∧
    (film.audio_channels % 2 = 0 → 6 ≤ film.audio_channels →
      Hint.odd_audio_channels ∉ film_changed (some film) ∧
      Hint.fewer_than_6_audio_channels ∉ film_changed (some film)) := by
  have hmod : Int.tmod film.audio_channels 2 = film.audio_channels % 2 :=
    Int.tmod_eq_emod hn (by decide)
  rw [film_changed_audio film _ (Or.inr (Or.inr rfl)),
    film_changed_audio film _ (Or.inl rfl),
    film_changed_audio film _ (Or.inr (Or.inl rfl))]
  unfold audio_channel_hints
  rw [hmod]
  refine ⟨?_, ?_, ?_, ?_⟩
  · split
    · simp
    · split
      · simp
      · split
        · omega
        · simp
  · intro h1
    rw [if_pos (by omega)]
    simp
  · intro h0 h6
    rw [if_neg (by omega), if_pos h6]
    simp
  · intro h0 h6
    rw [if_neg (by omega), if_neg (by omega)]
    split <;> simp

/-- Witness for `film_changed_audio_hints`: a film without audio channels gets the "fewer than
6 audio channels" hint and not the "no audio channels" one. -/
theorem film_changed_audio_hints_witness :
    Hint.no_audio_channels ∉
      film_changed (some ⟨false, [], 0, [], "185", 24, 100000000, [], [], false⟩) ∧
    film_changed (some ⟨false, [], 0, [], "185", 24, 100000000, [], [], false⟩)
      = [.fewer_than_6_audio_channels] :=
  ⟨(film_changed_audio_hints ⟨false, [], 0, [], "185", 24, 100000000, [], [], false⟩
      (by decide)).1, by decide⟩

end HintsDialog

/-- The conversion of a `double` holding an integer that fits an `int` gives that integer. -/
theorem double_to_int_intCast (n : Int) (h : fits_int n = true) :
    double_to_int (n : ℚ) = some n := by
  simp [double_to_int, Player.trunc_intCast, h]

namespace FFmpegContent

/-- The two `int`s that `add_properties` computes for 8 + k bits per pixel. -/
theorem sub_total (k : Nat) (hk : k ≤ 22) :
    double_to_int (219 * (2 : ℚ) ^ (((8 + k : Nat) : Int) - 8)) = some (219 * 2 ^ k) ∧
    double_to_int ((2 : ℚ) ^ ((8 + k : Nat) : Int)) = some (2 ^ (8 + k)) ∧
    checked_int (2 ^ (8 + k) - 219 * 2 ^ k) = some (2 ^ (8 + k) - 219 * 2 ^ k) ∧
    checked_int (2 ^ (8 + k) + 219 * 2 ^ k) = some (2 ^ (8 + k) + 219 * 2 ^ k) := by
  have e1 : (219 * (2 : ℚ) ^ (((8 + k : Nat) : Int) - 8)) = ((219 * 2 ^ k : Int) : ℚ) := by
    have : (((8 + k : Nat) : Int) - 8) = (k : Int) := by push_cast; ring
    rw [this, zpow_natCast]
    push_cast
    rfl
  have e2 : ((2 : ℚ) ^ ((8 + k : Nat) : Int)) = ((2 ^ (8 + k) : Int) : ℚ) := by
    rw [zpow_natCast]
    push_cast
    rfl
  rw [e1, e2]
  interval_cases k <;>
    exact ⟨double_to_int_intCast _ (by decide), double_to_int_intCast _ (by decide),
      by decide, by decide⟩

/-- C30, the code at the failing input: with 32 bits per pixel the `int`s `sub` and `total`
cannot hold 219 x 2^24 and 2^32, so the conversions from `double` are undefined and the code
does not report the integers (2^32 − 219·2^24) / 2 and (2^32 + 219·2^24) / 2, nor 0 to 2^32. -/
theorem colour_range_property_overflows :
    (8 : Int) ≤ 32 ∧
    colour_range_property (some 32) .AVCOL_RANGE_MPEG = none ∧
    colour_range_property (some 32) .AVCOL_RANGE_JPEG = none ∧
    colour_range_property (some 32) .AVCOL_RANGE_MPEG ≠
      some (.ok (.limited_values ((2 ^ 32 - 219 * 2 ^ 24) / 2) ((2 ^ 32 + 219 * 2 ^ 24) / 2))) := by
  have e2 : ((2 : ℚ) ^ (32 : Int)) = ((2 ^ 32 : Int) : ℚ) := by norm_num
  have h2 : double_to_int ((2 : ℚ) ^ (32 : Int)) = none := by
    rw [e2]
    unfold double_to_int
    rw [Player.trunc_intCast]
    decide
  have h : ∀ r, colour_range_property (some 32) r = none := by
    intro r
    unfold colour_range_property
    simp only [h2]
    split
    · rename_i heq1 heq2
      cases heq2
    · rfl
  exact ⟨by decide, h _, h _, by rw [h]; exact fun e => by cases e⟩

/-- Where the `int`s can hold the powers, for 8 ≤ b ≤ 30 bits per pixel, `add_properties`
reports the MPEG (limited) colour range as the integers (2^b − 219·2^(b−8)) / 2 and
(2^b + 219·2^(b−8)) / 2 under integer division, and the JPEG (full) colour range as 0 to
2^b. -/
theorem colour_range_property_values (b : Nat) (h8 : 8 ≤ b) (h30 : b ≤ 30) :
    colour_range_property (some (b : Int)) .AVCOL_RANGE_MPEG =
      some (.ok (.limited_values ((2 ^ b - 219 * 2 ^ (b - 8)) / 2)
        ((2 ^ b + 219 * 2 ^ (b - 8)) / 2))) ∧
    colour_range_property (some (b : Int)) .AVCOL_RANGE_JPEG = some (.ok (.full_value (2 ^ b))) := by
  obtain ⟨k, rfl⟩ := Nat.exists_eq_add_of_le h8
  obtain ⟨s1, s2, s3, s4⟩ := sub_total k (by omega)
  have hk : 8 + k - 8 = k := by omega
  have t1 : Int.tdiv (2 ^ (8 + k) - 219 * 2 ^ k) 2 = (2 ^ (8 + k) - 219 * 2 ^ k) / 2 := by
    have h219 : (219 : Int) * 2 ^ k ≤ 256 * 2 ^ k :=
      mul_le_mul_of_nonneg_right (by decide) (by positivity)
    have e : (2 : Int) ^ (8 + k) = 256 * 2 ^ k := by rw [pow_add]; norm_num
    refine Int.tdiv_eq_ediv ?_ (by decide)
    rw [e]
    exact sub_nonneg.mpr h219
  have t2 : Int.tdiv (2 ^ (8 + k) + 219 * 2 ^ k) 2 = (2 ^ (8 + k) + 219 * 2 ^ k) / 2 := by
    exact Int.tdiv_eq_ediv (by positivity) (by decide)
  unfold colour_range_property
  simp only [s1, s2, s3, s4, t1, t2, hk, and_self]

/-- An instance of `colour_range_property_values`: with 8 bits per pixel the limited range is
18–237 and the full range 0–256. -/
theorem colour_range_property_values_witness :
    colour_range_property (some 8) .AVCOL_RANGE_MPEG = some (.ok (.limited_values 18 237)) ∧
    colour_range_property (some 8) .AVCOL_RANGE_JPEG = some (.ok (.full_value 256)) :=
  colour_range_property_values 8 (by decide) (by decide)

end FFmpegContent

namespace TextContent

/-- Some pair of a zip satisfies a test exactly when the elements at some common index do. -/
theorem any_zip_iff {α β : Type} (p : α → β → Bool) (xs : List α) (ys : List β) :
    (xs.zip ys).any (fun jk => p jk.1 jk.2) = true ↔
      ∃ i, ∃ (h1 : i < xs.length) (h2 : i < ys.length),
        p (xs.get ⟨i, h1⟩) (ys.get ⟨i, h2⟩) = true := by
  induction xs generalizing ys with
  | nil => simp
  | cons x xs ih =>
    cases ys with
    | nil => simp
    | cons y ys =>
      simp only [List.zip_cons_cons, List.any_cons, Bool.or_eq_true, ih]
      constructor
      · rintro (h | ⟨i, h1, h2, h⟩)
        · exact ⟨0, Nat.succ_pos _, Nat.succ_pos _, h⟩
        · exact ⟨i + 1, Nat.succ_lt_succ h1, Nat.succ_lt_succ h2, h⟩
      · rintro ⟨i, h1, h2, h⟩
        cases i with
        | zero => exact Or.inl h
        | succ i => exact Or.inr ⟨i, Nat.lt_of_succ_lt_succ h1, Nat.lt_of_succ_lt_succ h2, h⟩

/-- One pass of the loop throws, and then a `JoinError`, exactly when `c[i]` differs. -/
theorem join_check_error_iff (font_ne : Font → Font → Bool) (ref t : TextContent) :
    ((∃ m, join_check font_ne ref t = .error (.JoinError m)) ↔ join_differs font_ne ref t) ∧
    (join_check font_ne ref t = .ok () ↔ ¬ join_differs font_ne ref t) ∧
    join_check font_ne ref t ≠ .error .assertion_failed := by
  unfold join_check join_differs
  rw [← any_zip_iff font_ne ref._fonts t._fonts]
  by_cases h1 : t._use ≠ ref._use
  · simp [h1]
  by_cases h2 : t._burn ≠ ref._burn
  · simp [h1, h2]
  by_cases h3 : t._x_offset ≠ ref._x_offset
  · simp [h1, h2, h3]
  by_cases h4 : t._y_offset ≠ ref._y_offset
  · simp [h1, h2, h3, h4]
  by_cases h5 : t._x_scale ≠ ref._x_scale
  · simp [h1, h2, h3, h4, h5]
  by_cases h6 : t._y_scale ≠ ref._y_scale
  · simp [h1, h2, h3, h4, h5, h6]
  by_cases h7 : t._line_spacing ≠ ref._line_spacing
  · simp [h1, h2, h3, h4, h5, h6, h7]
  by_cases h8 : t._fade_in ≠ ref._fade_in
  · simp [h1, h2, h3, h4, h5, h6, h7, h8]
  by_cases h9 : t._fade_out ≠ ref._fade_out
  · simp [h1, h2, h3, h4, h5, h6, h7, h8, h9]
  by_cases h10 : t._outline_width ≠ ref._outline_width
  · simp [h1, h2, h3, h4, h5, h6, h7, h8, h9, h10]
  by_cases h11 : t._fonts.length ≠ ref._fonts.length
  · simp [h1, h2, h3, h4, h5, h6, h7, h8, h9, h10, h11]
  by_cases h12 : t._dcp_track ≠ ref._dcp_track
  · simp [h1, h2, h3, h4, h5, h6, h7, h8, h9, h10, h11, h12]
  by_cases h13 : (ref._fonts.zip t._fonts).any (fun jk => font_ne jk.1 jk.2) = true
  · simp [h1, h2, h3, h4, h5, h6, h7, h8, h9, h10, h11, h12, h13]
  · simp [h1, h2, h3, h4, h5, h6, h7, h8, h9, h10, h11, h12, h13]

/-- The loop throws, and then a `JoinError`, exactly when some `c[i]` differs. -/
theorem join_checks_error_iff (font_ne : Font → Font → Bool) (ref : TextContent)
    (rest : List TextContent) :
    ((∃ m, join_checks font_ne ref rest = .error (.JoinError m)) ↔
      ∃ t ∈ rest, join_differs font_ne ref t) ∧
    (join_checks font_ne ref rest = .ok () ↔ ¬ ∃ t ∈ rest, join_differs font_ne ref t) ∧
    join_checks font_ne ref rest ≠ .error .assertion_failed := by
  induction rest with
  | nil => simp [join_checks]
  | cons t rest ih =>
    obtain ⟨c1, c2, c3⟩ := join_check_error_iff font_ne ref t
    cases hc : join_check font_ne ref t with
    | error e =>
      have hj : join_checks font_ne ref (t :: rest) = .error e := by
        simp only [join_checks, hc]
      rw [hj]
      cases e with
      | assertion_failed => exact absurd hc c3
      | JoinError m =>
        have hd : join_differs font_ne ref t := c1.mp ⟨m, hc⟩
        have hex : ∃ x ∈ t :: rest, join_differs font_ne ref x :=
          ⟨t, List.mem_cons_self _ _, hd⟩
        refine ⟨⟨fun _ => hex, fun _ => ⟨m, rfl⟩⟩, ⟨fun h => ?_, fun h => absurd hex h⟩,
          fun h => ?_⟩
        · cases h
        · cases h
    | ok u =>
      have hj : join_checks font_ne ref (t :: rest) = join_checks font_ne ref rest := by
        simp only [join_checks, hc]
      rw [hj]
      have hd : ¬ join_differs font_ne ref t := c2.mp hc
      have hex : (∃ x ∈ t :: rest, join_differs font_ne ref x) ↔
          ∃ x ∈ rest, join_differs font_ne ref x := by
        simp [hd]
      simp only [hex]
      exact ih

/-- C24: the joining constructor, given a `c[0]` with a text, throws `JoinError` if and only
if some `c[i]` with i ≥ 1 differs from `c[0]` in use, burn, x_offset, y_offset, x_scale,
y_scale, line_spacing, fade_in, fade_out, outline_width, dcp_track, or in the number or the
pairwise equality of its fonts; it throws nothing else; otherwise it returns a TextContent,
which has exactly the values of `c[0]` for those fields, its fonts, and for language, type and
original_type. -/
theorem join_throws_iff (font_ne : Font → Font → Bool) (ref : TextContent)
    (rest : List TextContent) :
    ((∃ m, join font_ne (some ref) rest = .error (.JoinError m)) ↔
      ∃ t ∈ rest, join_differs font_ne ref t) ∧
    join font_ne (some ref) rest ≠ .error .assertion_failed ∧
    ((¬ ∃ t ∈ rest, join_differs font_ne ref t) →
      ∃ r, join font_ne (some ref) rest = .ok r) ∧
    (∀ r, join font_ne (some ref) rest = .ok r →
      r._use = ref._use ∧ r._burn = ref._burn ∧ r._x_offset = ref._x_offset ∧
      r._y_offset = ref._y_offset ∧ r._x_scale = ref._x_scale ∧ r._y_scale = ref._y_scale ∧
      r._line_spacing = ref._line_spacing ∧ r._fade_in = ref._fade_in ∧
      r._fade_out = ref._fade_out ∧ r._outline_width = ref._outline_width ∧
      r._dcp_track = ref._dcp_track ∧ r._fonts = ref._fonts ∧ r._language = ref._language ∧
      r._type = ref._type ∧ r._original_type = ref._original_type) := by
  obtain ⟨c1, c2, c3⟩ := join_checks_error_iff font_ne ref rest
  cases hc : join_checks font_ne ref rest with
  | error e =>
    have hj : join font_ne (some ref) rest = .error e := by
      simp only [join, hc]
    rw [hj]
    cases e with
    | assertion_failed => exact absurd hc c3
    | JoinError m =>
      have hd := c1.mp ⟨m, hc⟩
      refine ⟨⟨fun _ => hd, fun _ => ⟨m, rfl⟩⟩, fun h => ?_, fun h => absurd hd h,
        fun r h => ?_⟩
      · cases h
      · cases h
  | ok u =>
    have hd := c2.mp hc
    simp only [join, hc]
    refine ⟨⟨fun h => ?_, fun h => absurd h hd⟩, fun h => ?_, fun _ => ⟨_, rfl⟩,
      fun r h => ?_⟩
    · obtain ⟨m, hm⟩ := h
      cases hm
    · cases h
    · cases h
      exact ⟨rfl, rfl, rfl, rfl, rfl, rfl, rfl, rfl, rfl, rfl, rfl, rfl, rfl, rfl, rfl⟩

end TextContent

namespace SubtitleDecoder

end SubtitleDecoder

namespace SubtitleDecoder

end SubtitleDecoder

namespace Timeline

/-- Whether two periods overlap does not depend on their order. -/
theorem overlap_comm (a b : DCPTimePeriod) : a.overlap b = b.overlap a := by
  simp only [DCPTimePeriod.overlap, max_comm, min_comm]

/-- A test that holds less often, and fails at some element where the other holds, counts
fewer elements. -/
theorem countP_lt_of_imp {α : Type} (p q : α → Bool) (l : List α)
    (himp : ∀ x, q x = true → p x = true) (x : α) (hx : x ∈ l) (hp : p x = true)
    (hq : q x = false) : l.countP q < l.countP p := by
  induction l with
  | nil => cases hx
  | cons a l ih =>
    have hle : l.countP q ≤ l.countP p := List.countP_mono_left (fun y _ h => himp y h)
    rw [List.countP_cons, List.countP_cons]
    rcases List.mem_cons.mp hx with e | hm
    · subst e
      simp only [hp, hq, if_true, Bool.false_eq_true, if_false]
      omega
    · have h1 := ih hm
      by_cases hqa : q a = true
      · simp only [hqa, himp a hqa, if_true]
        omega
      · have hqa1 : q a = false := by simpa using hqa
        rw [hqa1]
        simp only [Bool.false_eq_true, if_false]
        split <;> omega

/-- The track on which the `while (true)` loop of `place` leaves is at or above the one it
started from, has no overlap, and every track before it has one. -/
theorem find_track_spec (T : ViewType) (view : Nat → TimelineView) (track : Nat → Option Int)
    (views : List Nat) (period : DCPTimePeriod) (fuel : Nat) (t r : Int)
    (h : find_track T view track views period fuel t = some r) :
    t ≤ r ∧ overlap_on_track T view track views period r = false ∧
    ∀ u, t ≤ u → u < r → overlap_on_track T view track views period u = true := by
  induction fuel generalizing t with
  | zero => cases h
  | succ n ih =>
    simp only [find_track] at h
    by_cases ho : overlap_on_track T view track views period t = true
    · rw [if_pos ho] at h
      obtain ⟨h1, h2, h3⟩ := ih (t + 1) h
      refine ⟨by omega, h2, fun u hu hur => ?_⟩
      by_cases e : u = t
      · rw [e]
        exact ho
      · exact h3 u (by omega) hur
    · rw [if_neg ho] at h
      cases h
      refine ⟨le_refl _, by simpa using ho, fun u hu hur => ?_⟩
      omega

/-- The `while (true)` loop of `place` leaves within as many passes as there are views with a
track at or above the starting one, plus one. -/
theorem find_track_terminates (T : ViewType) (view : Nat → TimelineView)
    (track : Nat → Option Int) (views : List Nat) (period : DCPTimePeriod) (fuel : Nat) (t : Int)
    (h : views.countP (track_at_or_above track t) < fuel) :
    ∃ r, find_track T view track views period fuel t = some r := by
  induction fuel generalizing t with
  | zero => exact absurd h (Nat.not_lt_zero _)
  | succ n ih =>
    simp only [find_track]
    by_cases ho : overlap_on_track T view track views period t = true
    · rw [if_pos ho]
      apply ih
      obtain ⟨j, hj, hp⟩ := List.any_eq_true.mp ho
      simp only [Bool.and_eq_true, decide_eq_true_eq] at hp
      have hlt := countP_lt_of_imp (track_at_or_above track t) (track_at_or_above track (t + 1))
        views
        (fun x hx => by
          unfold track_at_or_above at hx ⊢
          cases hc : track x with
          | none => rw [hc] at hx; cases hx
          | some u =>
            rw [hc] at hx
            simp only [decide_eq_true_eq] at hx ⊢
            omega)
        j hj
        (by
          unfold track_at_or_above
          rw [hp.1.2]
          simp)
        (by
          unfold track_at_or_above
          rw [hp.1.2]
          simp)
      omega
    · rw [if_neg ho]
      exact ⟨t, rfl⟩

/-- The property `lowest_free` of a view depends only on its track and on the tracks of the
views placed before it. -/
theorem lowest_free_congr (T : ViewType) (view : Nat → TimelineView)
    (track track1 : Nat → Option Int) (base : Int) (pre : List Nat) (i : Nat)
    (hi : track1 i = track i)
    (hpre : ∀ j ∈ pre, is_type T (view j) = true → track1 j = track j)
    (h : lowest_free T view track base pre i) : lowest_free T view track1 base pre i := by
  obtain ⟨t, h1, h2, h3, h4⟩ := h
  refine ⟨t, by rw [hi, h1], h2, fun j hj hT hjt => ?_, fun u hu hut => ?_⟩
  · rw [hpre j hj hT] at hjt
    exact h3 j hj hT hjt
  · obtain ⟨j, hj, hT, hjt, ho⟩ := h4 u hu hut
    exact ⟨j, hj, hT, by rw [hpre j hj hT, hjt], ho⟩

/-- The ways of splitting a list that ends in `i` around one of its elements. -/
theorem split_concat (pre p1 p2 : List Nat) (i k : Nat) (h : pre ++ [i] = p1 ++ k :: p2) :
    (p2 = [] ∧ k = i ∧ p1 = pre) ∨ ∃ q, p2 = q ++ [i] ∧ pre = p1 ++ k :: q := by
  rcases List.eq_nil_or_concat p2 with e | ⟨q, x, e⟩
  · subst e
    have h1 := List.append_inj' h rfl
    refine Or.inl ⟨rfl, ?_, h1.1.symm⟩
    have h2 := h1.2
    simp only [List.cons.injEq, and_true] at h2
    exact h2.symm
  · subst e
    have h0 : pre ++ [i] = (p1 ++ k :: q) ++ [x] := by
      rw [h]
      simp
    have h1 := List.append_inj' h0 rfl
    have h2 := h1.2
    simp only [List.cons.injEq, and_true] at h2
    refine Or.inr ⟨q, ?_, h1.1⟩
    rw [h2, List.concat_eq_append]

end Timeline

namespace Timeline

/-- The outer loop of `place`: if the views of type `T` still to visit have no track and the
visited ones are each on their lowest free track, the loop completes, every view of type `T` is
on its lowest free track, and no other track has changed. -/
theorem place_loop_spec (T : ViewType) (view : Nat → TimelineView) (views : List Nat)
    (base : Int) (hnodup : views.Nodup) (todo : List Nat) :
    ∀ (pre : List Nat) (state : (Nat → Option Int) × Int), views = pre ++ todo →
      (∀ j ∈ todo, is_type T (view j) = true → state.1 j = none) →
      (∀ p1 k p2, pre = p1 ++ k :: p2 → is_type T (view k) = true →
        lowest_free T view state.1 base p1 k) →
      ∃ state1, place_loop T view views base todo state = some state1 ∧
        (∀ p1 k p2, views = p1 ++ k :: p2 → is_type T (view k) = true →
          lowest_free T view state1.1 base p1 k) ∧
        (∀ j, ¬ (j ∈ todo ∧ is_type T (view j) = true) → state1.1 j = state.1 j) ∧
        state.2 ≤ state1.2 := by
  induction todo with
  | nil =>
    intro pre state hviews _ hpre
    rw [List.append_nil] at hviews
    exact ⟨state, rfl, fun p1 k p2 h hT => hpre p1 k p2 (hviews ▸ h) hT, fun _ _ => rfl,
      le_refl _⟩
  | cons i rest ih =>
    intro pre state hviews htodo hpre
    have hviews1 : views = (pre ++ [i]) ++ rest := by
      rw [hviews]
      simp
    have hnd : (pre ++ i :: rest).Nodup := hviews ▸ hnodup
    have hi_pre : ∀ j ∈ pre, j ≠ i := by
      intro j hj e
      subst e
      exact (List.nodup_append.mp hnd).2.2 hj (List.mem_cons_self _ _)
    have hi_rest : ∀ j ∈ rest, j ≠ i := by
      intro j hj e
      subst e
      exact (List.nodup_cons.mp (List.nodup_append.mp hnd).2.1).1 hj
    by_cases hT : is_type T (view i) = true
    · have hterm : ∃ t, find_track T view state.1 views (content_period (view i))
          (views.length + 1) base = some t :=
        find_track_terminates T view state.1 views _ _ base
          (Nat.lt_succ_of_le (List.countP_le_length _))
      obtain ⟨t, ht⟩ := hterm
      obtain ⟨hbt, hfree, hbelow⟩ := find_track_spec T view state.1 views _ _ base t ht
      have hupd : ∀ j, j ≠ i → Function.update state.1 i (some t) j = state.1 j :=
        fun j hj => Function.update_noteq hj _ _
      obtain ⟨state1, h1, h2, h3, h4⟩ :=
        ih (pre ++ [i]) (Function.update state.1 i (some t), max state.2 (t + 1)) hviews1
          (fun j hj hjT => by
            show Function.update state.1 i (some t) j = none
            rw [hupd j (hi_rest j hj)]
            exact htodo j (List.mem_cons_of_mem _ hj) hjT)
          (fun p1 k p2 hsplit hkT => by
            show lowest_free T view (Function.update state.1 i (some t)) base p1 k
            rcases split_concat pre p1 p2 i k hsplit with ⟨_, hk, hp1⟩ | ⟨q, _, hq⟩
            · subst hk
              subst hp1
              refine ⟨t, Function.update_same _ _ _, hbt, fun j hj hjT hjt => ?_,
                fun u hu hut => ?_⟩
              · rw [hupd j (hi_pre j hj)] at hjt
                by_contra hov
                have hmem : j ∈ views := by
                  rw [hviews]
                  exact List.mem_append_left _ hj
                have : overlap_on_track T view state.1 views (content_period (view k)) t
                    = true := by
                  refine List.any_eq_true.mpr ⟨j, hmem, ?_⟩
                  simp only [Bool.and_eq_true, decide_eq_true_eq]
                  exact ⟨⟨hjT, hjt⟩, by simpa using hov⟩
                rw [hfree] at this
                cases this
              · obtain ⟨j, hj, hp⟩ := List.any_eq_true.mp (hbelow u hu hut)
                simp only [Bool.and_eq_true, decide_eq_true_eq] at hp
                rw [hviews] at hj
                rcases List.mem_append.mp hj with hjp | hjr
                · exact ⟨j, hjp, hp.1.1, by rw [hupd j (hi_pre j hjp)]; exact hp.1.2, hp.2⟩
                · have hnone := htodo j hjr hp.1.1
                  rw [hp.1.2] at hnone
                  cases hnone
            · have hkpre : k ∈ pre := by
                rw [hq]
                exact List.mem_append_right _ (List.mem_cons_self _ _)
              have hp1pre : ∀ j ∈ p1, j ∈ pre := by
                intro j hj
                rw [hq]
                exact List.mem_append_left _ hj
              exact lowest_free_congr T view state.1 _ base p1 k (hupd k (hi_pre k hkpre))
                (fun j hj _ => hupd j (hi_pre j (hp1pre j hj))) (hpre p1 k q hq hkT))
      refine ⟨state1, ?_, h2, fun j hj => ?_, le_trans (le_max_left _ _) h4⟩
      · simp only [place_loop, hT, Bool.not_true, Bool.false_eq_true, if_false, ht]
        exact h1
      · have hji : j ≠ i := by
          intro e
          subst e
          exact hj ⟨List.mem_cons_self _ _, hT⟩
        rw [h3 j (fun h => hj ⟨List.mem_cons_of_mem _ h.1, h.2⟩)]
        exact hupd j hji
    · obtain ⟨state1, h1, h2, h3, h4⟩ :=
        ih (pre ++ [i]) state hviews1
          (fun j hj hjT => htodo j (List.mem_cons_of_mem _ hj) hjT)
          (fun p1 k p2 hsplit hkT => by
            rcases split_concat pre p1 p2 i k hsplit with ⟨_, hk, _⟩ | ⟨q, _, hq⟩
            · subst hk
              exact absurd hkT hT
            · exact hpre p1 k q hq hkT)
      refine ⟨state1, ?_, h2, fun j hj => ?_, h4⟩
      · have hF : is_type T (view i) = false := by simpa using hT
        simp only [place_loop, hF, Bool.not_false, if_true]
        exact h1
      · exact h3 j (fun h => hj ⟨List.mem_cons_of_mem _ h.1, h.2⟩)

/-- The function `place<T>` on distinct views of which those of type `T` have no track: it
returns, with every view of type `T` on its lowest free track from the entry value of
`tracks`, the other tracks unchanged, `tracks` not lowered and the difference returned. -/
theorem place_spec (T : ViewType) (view : Nat → TimelineView) (views : List Nat)
    (track : Nat → Option Int) (tracks : Int) (hnodup : views.Nodup)
    (hunset : ∀ j ∈ views, is_type T (view j) = true → track j = none) :
    ∃ track1 tracks1, place T view views track tracks = some (track1, tracks1, tracks1 - tracks) ∧
      (∀ p1 k p2, views = p1 ++ k :: p2 → is_type T (view k) = true →
        lowest_free T view track1 tracks p1 k) ∧
      (∀ j, ¬ (j ∈ views ∧ is_type T (view j) = true) → track1 j = track j) ∧
      tracks ≤ tracks1 := by
  obtain ⟨state1, h1, h2, h3, h4⟩ :=
    place_loop_spec T view views tracks hnodup views [] (track, tracks) rfl hunset
      (fun p1 k p2 h _ => absurd h (by simp))
  obtain ⟨track1, tracks1⟩ := state1
  refine ⟨track1, tracks1, ?_, h2, h3, h4⟩
  simp only [place, h1]

/-- Two distinct views of type `T`, each on its lowest free track, and both on the same
track, have periods that do not overlap. -/
theorem lowest_free_no_overlap (T : ViewType) (view : Nat → TimelineView)
    (track : Nat → Option Int) (base : Int) (views : List Nat)
    (h : ∀ p1 k p2, views = p1 ++ k :: p2 → is_type T (view k) = true →
      lowest_free T view track base p1 k)
    (a b : Nat) (ha : a ∈ views) (hb : b ∈ views) (hab : a ≠ b)
    (hTa : is_type T (view a) = true) (hTb : is_type T (view b) = true)
    (hsame : track a = track b) :
    (content_period (view a)).overlap (content_period (view b)) = false := by
  have key : ∀ x y, x ≠ y → is_type T (view x) = true → is_type T (view y) = true →
      track x = track y → ∀ s t1 t2, views = s ++ x :: (t1 ++ y :: t2) →
      (content_period (view y)).overlap (content_period (view x)) = false := by
    intro x y _ hTx hTy hxy s t1 t2 hv
    have hv1 : views = (s ++ x :: t1) ++ y :: t2 := by
      rw [hv]
      simp
    obtain ⟨t, h1, _, h3, _⟩ := h (s ++ x :: t1) y t2 hv1 hTy
    exact h3 x (List.mem_append_right _ (List.mem_cons_self _ _)) hTx (by rw [hxy, h1])
  obtain ⟨s, t, hst⟩ := List.append_of_mem ha
  rw [hst] at hb
  rcases List.mem_append.mp hb with hbs | hbt
  · obtain ⟨s1, s2, hs⟩ := List.append_of_mem hbs
    have hv : views = s1 ++ b :: (s2 ++ a :: t) := by
      rw [hst, hs]
      simp
    exact key b a (Ne.symm hab) hTb hTa hsame.symm s1 s2 t hv
  · rcases List.mem_cons.mp hbt with e | hbt
    · exact absurd e.symm hab
    · obtain ⟨t1, t2, ht⟩ := List.append_of_mem hbt
      have hv : views = s ++ a :: (t1 ++ b :: t2) := by
        rw [hst, ht]
      rw [overlap_comm]
      exact key a b hab hTa hTb hsame s t1 t2 hv

end Timeline

namespace Timeline

/-- After the first loop of `assign_tracks` a view that had no track, or is a content view of
the list, has no track. -/
theorem unset_tracks_none (view : Nat → TimelineView) (views : List Nat) :
    ∀ (track : Nat → Option Int) (j : Nat),
      (track j = none ∨ (j ∈ views ∧ is_content (view j) = true)) →
      unset_tracks view views track j = none := by
  induction views with
  | nil =>
    intro track j h
    rcases h with h | ⟨h, _⟩
    · exact h
    · cases h
  | cons i rest ih =>
    intro track j h
    show unset_tracks view rest
      (if is_content (view i) then Function.update track i none else track) j = none
    apply ih
    by_cases hc : is_content (view i) = true
    · rw [if_pos hc]
      by_cases e : j = i
      · left
        rw [e]
        exact Function.update_same _ _ _
      · rw [Function.update_noteq e]
        rcases h with h | ⟨h, hcj⟩
        · exact Or.inl h
        · rcases List.mem_cons.mp h with e1 | hm
          · exact absurd e1 e
          · exact Or.inr ⟨hm, hcj⟩
    · rw [if_neg hc]
      rcases h with h | ⟨h, hcj⟩
      · exact Or.inl h
      · rcases List.mem_cons.mp h with e1 | hm
        · rw [e1] at hcj
          exact absurd hcj hc
        · exact Or.inr ⟨hm, hcj⟩

/-- The video loop of `assign_tracks` changes the track of video views only, and raises
`_tracks` to 2 exactly when some video view is for the right eye. -/
theorem video_tracks_spec (view : Nat → TimelineView) (views : List Nat) :
    ∀ (state : (Nat → Option Int) × Int × Bool),
      (∀ j, is_type .video (view j) = false →
        (video_tracks view views state).1 j = state.1 j) ∧
      (video_tracks view views state).2.1 =
        if views.any (fun i => is_type .video (view i) && (view i).frame_type_3d_right)
        then max state.2.1 2 else state.2.1 := by
  induction views with
  | nil =>
    intro state
    exact ⟨fun _ _ => rfl, rfl⟩
  | cons i rest ih =>
    intro state
    by_cases hv : is_type .video (view i) = true
    · by_cases h3 : (view i).frame_type_3d_right = true
      · have hstep : video_tracks view (i :: rest) state =
            video_tracks view rest (Function.update state.1 i (some 1), max state.2.1 2, true) := by
          simp only [video_tracks, List.foldl_cons, hv, h3, Bool.not_true, Bool.false_eq_true,
            if_false, if_true]
        rw [hstep]
        obtain ⟨h1, h2⟩ := ih (Function.update state.1 i (some 1), max state.2.1 2, true)
        refine ⟨fun j hj => ?_, ?_⟩
        · rw [h1 j hj]
          have hji : j ≠ i := by
            intro e
            rw [e, hv] at hj
            cases hj
          exact Function.update_noteq hji _ _
        · rw [h2]
          simp only [List.any_cons, hv, h3, Bool.and_self, Bool.true_or, if_true, max_assoc,
            max_self, ite_self]
      · have h3f : (view i).frame_type_3d_right = false := by simpa using h3
        have hstep : video_tracks view (i :: rest) state =
            video_tracks view rest (Function.update state.1 i (some 0), state.2.1, state.2.2) := by
          simp only [video_tracks, List.foldl_cons, hv, h3f, Bool.not_true, Bool.false_eq_true,
            if_false]
        rw [hstep]
        obtain ⟨h1, h2⟩ := ih (Function.update state.1 i (some 0), state.2.1, state.2.2)
        refine ⟨fun j hj => ?_, ?_⟩
        · rw [h1 j hj]
          have hji : j ≠ i := by
            intro e
            rw [e, hv] at hj
            cases hj
          exact Function.update_noteq hji _ _
        · rw [h2]
          simp only [List.any_cons, hv, h3f, Bool.and_false, Bool.false_or]
    · have hvf : is_type .video (view i) = false := by simpa using hv
      have hstep : video_tracks view (i :: rest) state = video_tracks view rest state := by
        simp only [video_tracks, List.foldl_cons, hvf, Bool.not_false, if_true]
      rw [hstep]
      obtain ⟨h1, h2⟩ := ih state
      refine ⟨h1, ?_⟩
      rw [h2]
      simp only [List.any_cons, hvf, Bool.false_and, Bool.false_or]

/-- The Atmos loop of `assign_tracks` changes nothing: no view casts both to
`TimelineVideoContentView` and to `TimelineAtmosContentView`. -/
theorem atmos_tracks_eq (view : Nat → TimelineView) (views : List Nat) (tracks : Int) :
    ∀ state : (Nat → Option Int) × Bool, atmos_tracks view views tracks state = state := by
  induction views with
  | nil =>
    intro state
    rfl
  | cons i rest ih =>
    intro state
    have hstep : atmos_tracks view (i :: rest) tracks state = atmos_tracks view rest tracks state := by
      simp only [atmos_tracks, List.foldl_cons]
      by_cases hv : is_type .video (view i) = true
      · have ha : is_type .atmos (view i) = false := by
          simp only [is_type, decide_eq_true_eq] at hv
          simp [is_type, hv]
        simp only [hv, ha, Bool.not_true, Bool.false_eq_true, if_false]
      · have hvf : is_type .video (view i) = false := by simpa using hv
        simp only [hvf, Bool.not_false, if_true]
    rw [hstep]
    exact ih state

end Timeline

namespace Timeline

/-- On distinct views `assign_tracks` returns with every text and audio view on its lowest
free track, and with no two views of one of these types overlapping on a track. -/
theorem assign_tracks_spec (sort : List Nat → List Nat) (tl : Timeline)
    (hnodup : tl._views.Nodup) (hsort : (sort tl._views).Perm tl._views) :
    ∃ tl1, assign_tracks sort tl = some tl1 ∧
      tl1._tracks - tl1.audio_tracks = text_base tl + tl1.text_tracks ∧
      0 ≤ tl1.text_tracks ∧
      (∀ pre i post, tl._views = pre ++ i :: post → is_type .text (tl.view i) = true →
        lowest_free .text tl.view tl1.track (text_base tl) pre i) ∧
      (∀ pre i post, sort tl._views = pre ++ i :: post → is_type .audio (tl.view i) = true →
        lowest_free .audio tl.view tl1.track (tl1._tracks - tl1.audio_tracks) pre i) ∧
      (∀ T, T = .text ∨ T = .audio → ∀ a ∈ tl._views, ∀ b ∈ tl._views, a ≠ b →
        is_type T (tl.view a) = true → is_type T (tl.view b) = true →
        tl1.track a = tl1.track b →
        (content_period (tl.view a)).overlap (content_period (tl.view b)) = false) := by
  have htype : ∀ (T U : ViewType) (j : Nat), T ≠ U → is_type T (tl.view j) = true →
      is_type U (tl.view j) = false := by
    intro T U j hTU hT
    simp only [is_type, decide_eq_true_eq] at hT
    simp only [is_type, decide_eq_false_iff_not]
    rw [hT]
    exact hTU
  have hcontent : ∀ (T : ViewType) (j : Nat), T ≠ .not_content →
      is_type T (tl.view j) = true → is_content (tl.view j) = true := by
    intro T j hT hj
    simp only [is_type, decide_eq_true_eq] at hj
    simp only [is_content, decide_eq_true_eq]
    rw [hj]
    exact hT
  obtain ⟨hv1, hv2⟩ := video_tracks_spec tl.view tl._views
    (unset_tracks tl.view tl._views tl.track, 0, false)
  cases hv : video_tracks tl.view tl._views (unset_tracks tl.view tl._views tl.track, 0, false)
    with
  | mk track1 r =>
  cases r with
  | mk tracks1 have_3d =>
  rw [hv] at hv1 hv2
  simp only at hv1 hv2
  have hbase : max tracks1 1 = text_base tl := by
    rw [hv2]
    unfold text_base
    split <;> decide
  have hunset : ∀ (T : ViewType), T ≠ .not_content → T ≠ .video → ∀ j ∈ tl._views,
      is_type T (tl.view j) = true → track1 j = none := by
    intro T hT1 hT2 j hj hjT
    rw [hv1 j (htype T .video j hT2 hjT)]
    exact unset_tracks_none tl.view tl._views tl.track j (Or.inr ⟨hj, hcontent T j hT1 hjT⟩)
  obtain ⟨track3, tracks3, ht1, ht2, ht3, ht4⟩ :=
    place_spec .text tl.view tl._views track1 (max tracks1 1) hnodup
      (hunset .text (by decide) (by decide))
  obtain ⟨track5, tracks5, ha1, ha2, ha3, _⟩ :=
    place_spec .audio tl.view (sort tl._views) track3 tracks3 (hsort.nodup_iff.mpr hnodup)
      (fun j hj hjT => by
        rw [ht3 j (fun h => by
          rw [htype .audio .text j (by decide) hjT] at h
          exact Bool.noConfusion h.2)]
        exact hunset .audio (by decide) (by decide) j (hsort.mem_iff.mp hj) hjT)
  have htext : ∀ pre i post, tl._views = pre ++ i :: post → is_type .text (tl.view i) = true →
      lowest_free .text tl.view track5 (text_base tl) pre i := by
    intro pre i post hsplit hiT
    have hkeep : ∀ j, is_type .text (tl.view j) = true → track5 j = track3 j := by
      intro j hjT
      exact ha3 j (fun h => by
        rw [htype .text .audio j (by decide) hjT] at h
        exact Bool.noConfusion h.2)
    rw [← hbase]
    exact lowest_free_congr .text tl.view track3 track5 _ pre i (hkeep i hiT)
      (fun j _ hjT => hkeep j hjT) (ht2 pre i post hsplit hiT)
  refine ⟨{ tl with
      track := track5, _tracks := tracks5, have_3d := have_3d
      audio_tracks := tracks5 - tracks3, text_tracks := tracks3 - max tracks1 1
      have_atmos := false }, ?_, ?_, ?_, htext, ?_, ?_⟩
  · simp only [assign_tracks, hv, ht1, atmos_tracks_eq, Bool.false_eq_true, if_false, ha1]
  · show tracks5 - (tracks5 - tracks3) = text_base tl + (tracks3 - max tracks1 1)
    rw [hbase]
    ring
  · show 0 ≤ tracks3 - max tracks1 1
    exact sub_nonneg.mpr ht4
  · intro pre i post hsplit hiT
    show lowest_free .audio tl.view track5 (tracks5 - (tracks5 - tracks3)) pre i
    rw [sub_sub_cancel]
    exact ha2 pre i post hsplit hiT
  · intro T hT a ha b hb hab hTa hTb hsame
    rcases hT with e | e
    · subst e
      exact lowest_free_no_overlap .text tl.view track5 (text_base tl) tl._views htext a b ha hb
        hab hTa hTb hsame
    · subst e
      exact lowest_free_no_overlap .audio tl.view track5 tracks3 (sort tl._views) ha2 a b
        (hsort.mem_iff.mpr ha) (hsort.mem_iff.mpr hb) hab hTa hTb hsame

/-- The outer loop of `place` completes whatever the views and their tracks: each
`while (true)` loop leaves within `views.size() + 1` passes. -/
theorem place_loop_returns (T : ViewType) (view : Nat → TimelineView) (views : List Nat)
    (base : Int) (todo : List Nat) :
    ∀ state, ∃ state1, place_loop T view views base todo state = some state1 := by
  induction todo with
  | nil =>
    intro state
    exact ⟨state, rfl⟩
  | cons i rest ih =>
    intro state
    by_cases hT : is_type T (view i) = true
    · obtain ⟨t, ht⟩ := find_track_terminates T view state.1 views (content_period (view i))
        (views.length + 1) base (Nat.lt_succ_of_le (List.countP_le_length _))
      obtain ⟨state1, h1⟩ := ih (Function.update state.1 i (some t), max state.2 (t + 1))
      refine ⟨state1, ?_⟩
      simp only [place_loop, hT, Bool.not_true, Bool.false_eq_true, if_false, ht]
      exact h1
    · obtain ⟨state1, h1⟩ := ih state
      refine ⟨state1, ?_⟩
      have hF : is_type T (view i) = false := by simpa using hT
      simp only [place_loop, hF, Bool.not_false, if_true]
      exact h1

/-- The function `place<T>` returns whatever the views and their tracks. -/
theorem place_returns (T : ViewType) (view : Nat → TimelineView) (views : List Nat)
    (track : Nat → Option Int) (tracks : Int) :
    ∃ r, place T view views track tracks = some r := by
  obtain ⟨state1, h1⟩ := place_loop_returns T view views tracks views (track, tracks)
  exact ⟨(state1.1, state1.2, state1.2 - tracks), by simp only [place, h1]⟩

/-- The function `assign_tracks` returns whatever the views. -/
theorem assign_tracks_returns (sort : List Nat → List Nat) (tl : Timeline) :
    ∃ tl1, assign_tracks sort tl = some tl1 := by
  cases hv : video_tracks tl.view tl._views (unset_tracks tl.view tl._views tl.track, 0, false)
    with
  | mk track1 r =>
  cases r with
  | mk tracks1 have_3d =>
  obtain ⟨⟨track3, tracks3, text_tracks⟩, ht⟩ :=
    place_returns .text tl.view tl._views track1 (max tracks1 1)
  obtain ⟨⟨track5, tracks5, audio_tracks⟩, ha⟩ :=
    place_returns .audio tl.view (sort tl._views) track3 tracks3
  refine ⟨{ tl with
      track := track5, _tracks := tracks5, have_3d := have_3d
      audio_tracks := audio_tracks, text_tracks := text_tracks, have_atmos := false }, ?_⟩
  simp only [assign_tracks, hv, ht, atmos_tracks_eq, Bool.false_eq_true, if_false, ha]

/-- C27: `Timeline::assign_tracks` returns for every list of views (every placement loop
leaves within `views.size() + 1` passes); and when the views are distinct objects, afterwards,
for each of the text and audio view types, each view of the type is on the lowest track at or
above the type's base track (1 or 2 for text, the first track after the text tracks for audio)
that was free of overlapping views placed before it (in the order of `_views` for text, of the
sorted copy for audio), and any two distinct views of the type with the same track have
content periods [position, end) that do not overlap. -/
theorem assign_tracks_lowest_free_tracks (sort : List Nat → List Nat) (tl : Timeline) :
    (∃ tl1, assign_tracks sort tl = some tl1) ∧
    (tl._views.Nodup → (sort tl._views).Perm tl._views →
      ∀ tl1, assign_tracks sort tl = some tl1 →
        tl1._tracks - tl1.audio_tracks = text_base tl + tl1.text_tracks ∧
        0 ≤ tl1.text_tracks ∧
        (∀ pre i post, tl._views = pre ++ i :: post → is_type .text (tl.view i) = true →
          lowest_free .text tl.view tl1.track (text_base tl) pre i) ∧
        (∀ pre i post, sort tl._views = pre ++ i :: post →
          is_type .audio (tl.view i) = true →
          lowest_free .audio tl.view tl1.track (tl1._tracks - tl1.audio_tracks) pre i) ∧
        (∀ T, T = .text ∨ T = .audio → ∀ a ∈ tl._views, ∀ b ∈ tl._views, a ≠ b →
          is_type T (tl.view a) = true → is_type T (tl.view b) = true →
          tl1.track a = tl1.track b →
          (content_period (tl.view a)).overlap (content_period (tl.view b)) = false)) := by
  refine ⟨assign_tracks_returns sort tl, fun hnodup hsort tl1 h1 => ?_⟩
  obtain ⟨tl2, h2, hspec⟩ := assign_tracks_spec sort tl hnodup hsort
  rw [h1] at h2
  cases h2
  exact hspec

/-- Witness for `assign_tracks_lowest_free_tracks`: on `sample_timeline`, with the views left
in their order by the sort, the text views over [0, 10), [5, 15) and [10, 20) get the tracks
1, 2 and 1, and the audio views over [0, 10) and [0, 5) the tracks 3 and 4; the two text views
on track 1 do not overlap. -/
theorem assign_tracks_lowest_free_tracks_witness :
    sample_timeline._views.Nodup ∧ (id sample_timeline._views).Perm sample_timeline._views ∧
    (assign_tracks id sample_timeline).map
        (fun tl1 => (sample_timeline._views.map tl1.track, tl1._tracks, tl1.text_tracks,
          tl1.audio_tracks))
      = some ([some 1, some 2, some 1, some 3, some 4, some 0], 5, 2, 2) ∧
    (∀ tl1, assign_tracks id sample_timeline = some tl1 →
      lowest_free .text sample_timeline.view tl1.track (text_base sample_timeline) [0, 1] 2 ∧
      (tl1.track 0 = tl1.track 2 →
        (content_period (sample_timeline.view 0)).overlap
          (content_period (sample_timeline.view 2)) = false)) :=
  ⟨by decide, List.Perm.refl _, by decide, fun tl1 h1 =>
    ⟨((assign_tracks_lowest_free_tracks id sample_timeline).2 (by decide) (List.Perm.refl _)
        tl1 h1).2.2.1 [0, 1] 2 [3, 4, 5] rfl rfl,
      ((assign_tracks_lowest_free_tracks id sample_timeline).2 (by decide) (List.Perm.refl _)
        tl1 h1).2.2.2.2 .text (Or.inl rfl) 0 (by decide) 2 (by decide) (by decide) rfl rfl⟩⟩

end Timeline

namespace Node

/-- A number accessor on a tag with exactly one child gives the value of its text. -/
theorem number_child_single {T : Type} (n : Node) (convert : String → T) (name : String)
    (c : Node) (h : n.node_children name = [c]) :
    n.number_child convert name = .ok (convert c.content) := by
  unfold number_child string_child node_child
  rw [h]
  rfl

/-- An optional node accessor gives the children of the tag when there is at most one. -/
theorem optional_node_child_single (n : Node) (name : String) (c : Node)
    (h : n.node_children name = [c]) : n.optional_node_child name = .ok (some c) := by
  unfold optional_node_child
  rw [h]

/-- An optional node accessor on a tag without children gives nothing. -/
theorem optional_node_child_nil (n : Node) (name : String)
    (h : n.node_children name = []) : n.optional_node_child name = .ok none := by
  unfold optional_node_child
  rw [h]

/-- An optional string accessor on a tag with exactly one child gives its text. -/
theorem optional_string_child_single (n : Node) (name : String) (c : Node)
    (h : n.node_children name = [c]) :
    n.optional_string_child name = .ok (some c.content) := by
  unfold optional_string_child
  rw [optional_node_child_single n name c h]
  rfl

/-- An optional string accessor on a tag without children gives nothing. -/
theorem optional_string_child_nil (n : Node) (name : String)
    (h : n.node_children name = []) : n.optional_string_child name = .ok none := by
  unfold optional_string_child
  rw [optional_node_child_nil n name h]
  rfl

/-- An optional number accessor on a tag with exactly one child gives the value of its
text. -/
theorem optional_number_child_single {T : Type} (n : Node) (convert : String → T)
    (name : String) (c : Node) (h : n.node_children name = [c]) :
    n.optional_number_child convert name = .ok (some (convert c.content)) := by
  unfold optional_number_child
  rw [optional_string_child_single n name c h]
  rfl

/-- An optional number accessor on a tag without children gives nothing. -/
theorem optional_number_child_nil {T : Type} (n : Node) (convert : String → T) (name : String)
    (h : n.node_children name = []) : n.optional_number_child convert name = .ok none := by
  unfold optional_number_child
  rw [optional_string_child_nil n name h]
  rfl

end Node

namespace TextContent

/-- The children of a tag among those `as_xml` adds for `_colour`. -/
theorem colour_nodes_filter (w : RawWrite) (colour : Option Colour) (tag : String) :
    (colour_nodes w colour).filter (fun c => decide (c.name = tag)) =
      match colour with
      | some c =>
        (if "Red" = tag then [.mk "Red" (w.of_int c.r) []] else []) ++
        (if "Green" = tag then [.mk "Green" (w.of_int c.g) []] else []) ++
        (if "Blue" = tag then [.mk "Blue" (w.of_int c.b) []] else [])
      | none => [] := by
  cases colour with
  | none => rfl
  | some c =>
    simp only [colour_nodes, List.filter_cons, List.filter_nil, Node.name, decide_eq_true_eq]
    split <;> split <;> split <;> rfl

/-- The children of a tag among those `as_xml` adds for `_effect_colour`. -/
theorem effect_colour_nodes_filter (w : RawWrite) (colour : Option Colour) (tag : String) :
    (effect_colour_nodes w colour).filter (fun c => decide (c.name = tag)) =
      match colour with
      | some c =>
        (if "EffectRed" = tag then [.mk "EffectRed" (w.of_int c.r) []] else []) ++
        (if "EffectGreen" = tag then [.mk "EffectGreen" (w.of_int c.g) []] else []) ++
        (if "EffectBlue" = tag then [.mk "EffectBlue" (w.of_int c.b) []] else [])
      | none => [] := by
  cases colour with
  | none => rfl
  | some c =>
    simp only [effect_colour_nodes, List.filter_cons, List.filter_nil, Node.name,
      decide_eq_true_eq]
    split <;> split <;> split <;> rfl

/-- The children of a tag among those `as_xml` adds for `_effect`. -/
theorem effect_nodes_filter (effect : Option Effect) (tag : String) :
    (effect_nodes effect).filter (fun c => decide (c.name = tag)) =
      if "Effect" = tag then effect_nodes effect else [] := by
  rcases effect with _ | _ | _ | _
  · simp [effect_nodes]
  · simp only [effect_nodes, List.filter_cons, List.filter_nil, Node.name, decide_eq_true_eq]
  · simp only [effect_nodes, List.filter_cons, List.filter_nil, Node.name, decide_eq_true_eq]
  · simp only [effect_nodes, List.filter_cons, List.filter_nil, Node.name, decide_eq_true_eq]

/-- The children of a tag among those `as_xml` adds for a fade. -/
theorem fade_nodes_filter (w : RawWrite) (name : String) (fade : Option ContentTime)
    (tag : String) :
    (fade_nodes w name fade).filter (fun c => decide (c.name = tag)) =
      if name = tag then fade_nodes w name fade else [] := by
  cases fade with
  | none => simp [fade_nodes]
  | some f =>
    simp only [fade_nodes, List.filter_cons, List.filter_nil, Node.name, decide_eq_true_eq]

/-- The children of a tag among those `as_xml` adds for `_fonts`, each named `Font`. -/
theorem font_nodes_filter (w : RawWrite) (fonts : List Font) (tag : String)
    (h : ∀ f ∈ fonts, (w.font_as_xml f (.mk "Font" "" [])).name = "Font") :
    (font_nodes w fonts).filter (fun c => decide (c.name = tag)) =
      if "Font" = tag then font_nodes w fonts else [] := by
  induction fonts with
  | nil => simp [font_nodes]
  | cons f fs ih =>
    have hf := h f (List.mem_cons_self _ _)
    have ih1 := ih (fun g hg => h g (List.mem_cons_of_mem _ hg))
    unfold font_nodes at ih1 ⊢
    simp only [List.map_cons, List.filter_cons, hf, decide_eq_true_eq, ih1]
    split <;> rfl

/-- The children of a tag among those `as_xml` adds for `_dcp_track`, named `DCPTrack`. -/
theorem track_nodes_filter (w : RawWrite) (track : Option DCPTextTrack) (tag : String)
    (h : ∀ d, track = some d → (w.track_as_xml d (.mk "DCPTrack" "" [])).name = "DCPTrack") :
    (track_nodes w track).filter (fun c => decide (c.name = tag)) =
      if "DCPTrack" = tag then track_nodes w track else [] := by
  cases track with
  | none => simp [track_nodes]
  | some d =>
    simp only [track_nodes, List.filter_cons, List.filter_nil, h d rfl, decide_eq_true_eq]

/-- The children of a tag in the element that `as_xml` builds, block by block. -/
theorem as_xml_text_children (w : RawWrite) (t : TextContent) (conv : RawConvert)
    (h : reads_back conv w t) (tag : String) :
    (as_xml_text w t).node_children tag =
      (if "Use" = tag then [Node.mk "Use" (if t._use then "1" else "0") []] else []) ++
      (if "Burn" = tag then [Node.mk "Burn" (if t._burn then "1" else "0") []] else []) ++
      (if "XOffset" = tag then [Node.mk "XOffset" (w.of_double t._x_offset) []] else []) ++
      (if "YOffset" = tag then [Node.mk "YOffset" (w.of_double t._y_offset) []] else []) ++
      (if "XScale" = tag then [Node.mk "XScale" (w.of_double t._x_scale) []] else []) ++
      (if "YScale" = tag then [Node.mk "YScale" (w.of_double t._y_scale) []] else []) ++
      (if "Language" = tag then [Node.mk "Language" t._language []] else []) ++
      (colour_nodes w t._colour).filter (fun c => decide (c.name = tag)) ++
      (if "Effect" = tag then effect_nodes t._effect else []) ++
      (effect_colour_nodes w t._effect_colour).filter (fun c => decide (c.name = tag)) ++
      (if "LineSpacing" = tag then [Node.mk "LineSpacing" (w.of_double t._line_spacing) []]
        else []) ++
      (if "FadeIn" = tag then fade_nodes w "FadeIn" t._fade_in else []) ++
      (if "FadeOut" = tag then fade_nodes w "FadeOut" t._fade_out else []) ++
      (if "OutlineWidth" = tag then [Node.mk "OutlineWidth" (w.of_int t._outline_width) []]
        else []) ++
      (if "Font" = tag then font_nodes w t._fonts else []) ++
      (if "Type" = tag then [Node.mk "Type" (w.text_type_to_string t._type) []] else []) ++
      (if "OriginalType" = tag then
        [Node.mk "OriginalType" (w.text_type_to_string t._original_type) []] else []) ++
      (if "DCPTrack" = tag then track_nodes w t._dcp_track else []) := by
  have hfilter1 : ∀ (name content : String),
      [Node.mk name content []].filter (fun c => decide (c.name = tag)) =
        if name = tag then [Node.mk name content []] else [] := by
    intro name content
    simp only [List.filter_cons, List.filter_nil, Node.name, decide_eq_true_eq]
  simp only [as_xml_text, Node.node_children, Node.children, List.filter_append,
    effect_nodes_filter, fade_nodes_filter, font_nodes_filter w t._fonts tag h.fonts,
    track_nodes_filter w t._dcp_track tag (fun d hd => (h.dcp_track d hd).2)]
  have hcons : ∀ (a : Node) (l : List Node), a :: l = [a] ++ l := fun _ _ => rfl
  rw [hcons (Node.mk "Use" _ _), hcons (Node.mk "Burn" _ _), hcons (Node.mk "XOffset" _ _),
    hcons (Node.mk "YOffset" _ _), hcons (Node.mk "XScale" _ _), hcons (Node.mk "YScale" _ _),
    hcons (Node.mk "Type" _ _)]
  simp only [List.filter_append, hfilter1, List.append_assoc]

end TextContent

namespace TextContent

/-- A tag other than `Red`, `Green` and `Blue` is not among the children added for
`_colour`. -/
theorem colour_nodes_filter_ne (w : RawWrite) (colour : Option Colour) (tag : String)
    (h1 : ¬ "Red" = tag) (h2 : ¬ "Green" = tag) (h3 : ¬ "Blue" = tag) :
    (colour_nodes w colour).filter (fun c => decide (c.name = tag)) = [] := by
  rw [colour_nodes_filter]
  cases colour <;> simp [h1, h2, h3]

/-- A tag other than `EffectRed`, `EffectGreen` and `EffectBlue` is not among the children
added for `_effect_colour`. -/
theorem effect_colour_nodes_filter_ne (w : RawWrite) (colour : Option Colour) (tag : String)
    (h1 : ¬ "EffectRed" = tag) (h2 : ¬ "EffectGreen" = tag) (h3 : ¬ "EffectBlue" = tag) :
    (effect_colour_nodes w colour).filter (fun c => decide (c.name = tag)) = [] := by
  rw [effect_colour_nodes_filter]
  cases colour <;> simp [h1, h2, h3]

/-- Reading `_use` and `_burn` from what `as_xml` wrote. -/
theorem read_use_burn_as_xml (conv : RawConvert) (w : RawWrite) (t : TextContent)
    (h : reads_back conv w t) (v : Int) (hv : 37 ≤ v) (t0 : TextContent) :
    read_use_burn conv (as_xml_text w t) v t0 = .ok { t0 with _use := t._use, _burn := t._burn } := by
  have h1 := as_xml_text_children w t conv h "Use"
  have h2 := as_xml_text_children w t conv h "Burn"
  simp [colour_nodes_filter_ne, effect_colour_nodes_filter_ne] at h1 h2
  have hu : conv.to_bool (if t._use = true then "1" else "0") = t._use := by
    cases t._use
    · exact h.bool_false
    · exact h.bool_true
  have hb : conv.to_bool (if t._burn = true then "1" else "0") = t._burn := by
    cases t._burn
    · exact h.bool_false
    · exact h.bool_true
  unfold read_use_burn
  rw [if_pos hv, Node.number_child_single _ _ _ _ h1, Node.number_child_single _ _ _ _ h2]
  simp only [bind, Except.bind, pure, Except.pure, Node.content, hu, hb]

end TextContent

namespace TextContent

/-- The member initialisers on what `as_xml` wrote. -/
theorem read_init_as_xml (conv : RawConvert) (w : RawWrite) (t : TextContent)
    (h : reads_back conv w t) :
    read_init conv (as_xml_text w t) = .ok
      { _use := false, _burn := false, _x_offset := 0, _y_offset := 0, _x_scale := 1
        _y_scale := 1, _fonts := [], _language := "", _colour := none, _effect := none
        _effect_colour := none, _line_spacing := t._line_spacing, _fade_in := none
        _fade_out := none, _outline_width := t._outline_width, _type := .TEXT_OPEN_SUBTITLE
        _original_type := .TEXT_OPEN_SUBTITLE, _dcp_track := none } := by
  have h1 := as_xml_text_children w t conv h "LineSpacing"
  have h2 := as_xml_text_children w t conv h "OutlineWidth"
  simp [colour_nodes_filter_ne, effect_colour_nodes_filter_ne] at h1 h2
  unfold read_init
  rw [Node.optional_number_child_single _ _ _ _ h1, Node.optional_number_child_single _ _ _ _ h2]
  simp only [bind, Except.bind, pure, Except.pure, Node.content, Option.getD_some,
    h.line_spacing, h.outline_width]

/-- Reading `_x_offset` and `_y_offset` from what `as_xml` wrote. -/
theorem read_offsets_as_xml (conv : RawConvert) (w : RawWrite) (t : TextContent)
    (h : reads_back conv w t) (v : Int) (hv : 37 ≤ v) (t0 : TextContent) :
    read_offsets conv (as_xml_text w t) v t0
      = .ok { t0 with _x_offset := t._x_offset, _y_offset := t._y_offset } := by
  have h1 := as_xml_text_children w t conv h "XOffset"
  have h2 := as_xml_text_children w t conv h "YOffset"
  simp [colour_nodes_filter_ne, effect_colour_nodes_filter_ne] at h1 h2
  unfold read_offsets
  rw [if_pos hv, Node.number_child_single _ _ _ _ h1, Node.number_child_single _ _ _ _ h2]
  simp only [bind, Except.bind, pure, Except.pure, Node.content, h.x_offset, h.y_offset]

/-- Reading `_effect` from what `as_xml` wrote: an unset effect is read as NONE. -/
theorem read_effect_as_xml (conv : RawConvert) (w : RawWrite) (t : TextContent)
    (h : reads_back conv w t) (t0 : TextContent) :
    read_effect conv (as_xml_text w t) t0
      = .ok { t0 with _effect := some (t._effect.getD .NONE) } := by
  have h1 := as_xml_text_children w t conv h "Outline"
  have h2 := as_xml_text_children w t conv h "Shadow"
  have h3 := as_xml_text_children w t conv h "Effect"
  simp [colour_nodes_filter_ne, effect_colour_nodes_filter_ne] at h1 h2 h3
  have e1 := Node.optional_number_child_nil _ conv.to_bool _ h1
  have e2 := Node.optional_number_child_nil _ conv.to_bool _ h2
  rcases he : t._effect with _ | _ | _ | _
  · rw [he] at h3
    have e3 := Node.optional_string_child_nil _ _ h3
    simp only [read_effect, e1, e2, e3, bind, Except.bind, pure, Except.pure, Option.getD_none,
      Bool.false_eq_true, if_false]
  · rw [he] at h3
    have e3 := Node.optional_string_child_single _ _ _ h3
    simp [read_effect, e1, e2, e3, bind, Except.bind, pure, Except.pure, Node.content]
  · rw [he] at h3
    have e3 := Node.optional_string_child_single _ _ _ h3
    simp [read_effect, e1, e2, e3, bind, Except.bind, pure, Except.pure, Node.content]
  · rw [he] at h3
    have e3 := Node.optional_string_child_single _ _ _ h3
    simp [read_effect, e1, e2, e3, bind, Except.bind, pure, Except.pure, Node.content]

/-- Reading `_x_scale` and `_y_scale` from what `as_xml` wrote. -/
theorem read_scale_as_xml (conv : RawConvert) (w : RawWrite) (t : TextContent)
    (h : reads_back conv w t) (v : Int) (hv : 37 ≤ v) (t0 : TextContent) :
    read_scale conv (as_xml_text w t) v t0
      = .ok { t0 with _x_scale := t._x_scale, _y_scale := t._y_scale } := by
  have h1 := as_xml_text_children w t conv h "XScale"
  have h2 := as_xml_text_children w t conv h "YScale"
  simp [colour_nodes_filter_ne, effect_colour_nodes_filter_ne] at h1 h2
  unfold read_scale
  rw [if_pos hv, Node.number_child_single _ _ _ _ h1, Node.number_child_single _ _ _ _ h2]
  simp only [bind, Except.bind, pure, Except.pure, Node.content, h.x_scale, h.y_scale]

/-- Reading `_colour` from what `as_xml` wrote. -/
theorem read_colour_as_xml (conv : RawConvert) (w : RawWrite) (t : TextContent)
    (h : reads_back conv w t) (t0 : TextContent) :
    read_colour conv (as_xml_text w t) t0
      = .ok (match t._colour with
          | some c => { t0 with _colour := some c }
          | none => t0) := by
  have h1 := as_xml_text_children w t conv h "Red"
  have h2 := as_xml_text_children w t conv h "Green"
  have h3 := as_xml_text_children w t conv h "Blue"
  simp [colour_nodes_filter, effect_colour_nodes_filter_ne] at h1 h2 h3
  have hc := h.colour
  cases hcol : t._colour with
  | none =>
    rw [hcol] at h1 h2 h3
    have e1 := Node.optional_number_child_nil _ conv.to_int _ h1
    have e2 := Node.optional_number_child_nil _ conv.to_int _ h2
    have e3 := Node.optional_number_child_nil _ conv.to_int _ h3
    simp only [read_colour, e1, e2, e3, bind, Except.bind, pure, Except.pure]
  | some c =>
    rw [hcol] at h1 h2 h3
    obtain ⟨c1, c2, c3⟩ := hc c hcol
    have e1 := Node.optional_number_child_single _ conv.to_int _ _ h1
    have e2 := Node.optional_number_child_single _ conv.to_int _ _ h2
    have e3 := Node.optional_number_child_single _ conv.to_int _ _ h3
    simp only [read_colour, e1, e2, e3, bind, Except.bind, pure, Except.pure, Node.content,
      c1, c2, c3]

/-- Reading `_effect_colour` from what `as_xml` wrote. -/
theorem read_effect_colour_as_xml (conv : RawConvert) (w : RawWrite) (t : TextContent)
    (h : reads_back conv w t) (v : Int) (hv : 37 ≤ v) (t0 : TextContent) :
    read_effect_colour conv (as_xml_text w t) v t0
      = .ok (match t._effect_colour with
          | some c => { t0 with _effect_colour := some c }
          | none => t0) := by
  have h1 := as_xml_text_children w t conv h "EffectRed"
  have h2 := as_xml_text_children w t conv h "EffectGreen"
  have h3 := as_xml_text_children w t conv h "EffectBlue"
  simp [colour_nodes_filter_ne, effect_colour_nodes_filter] at h1 h2 h3
  have hc := h.effect_colour
  have hv36 : v ≥ 36 := by omega
  cases hcol : t._effect_colour with
  | none =>
    rw [hcol] at h1 h2 h3
    have e1 := Node.optional_number_child_nil _ conv.to_int _ h1
    have e2 := Node.optional_number_child_nil _ conv.to_int _ h2
    have e3 := Node.optional_number_child_nil _ conv.to_int _ h3
    unfold read_effect_colour
    rw [if_pos hv36]
    simp only [e1, e2, e3, bind, Except.bind, pure, Except.pure]
  | some c =>
    rw [hcol] at h1 h2 h3
    obtain ⟨c1, c2, c3⟩ := hc c hcol
    have e1 := Node.optional_number_child_single _ conv.to_int _ _ h1
    have e2 := Node.optional_number_child_single _ conv.to_int _ _ h2
    have e3 := Node.optional_number_child_single _ conv.to_int _ _ h3
    unfold read_effect_colour
    rw [if_pos hv36]
    simp only [e1, e2, e3, bind, Except.bind, pure, Except.pure, Node.content, c1, c2, c3]

end TextContent

namespace TextContent

/-- Reading `_fade_in` and `_fade_out` from what `as_xml` wrote. -/
theorem read_fades_as_xml (conv : RawConvert) (w : RawWrite) (t : TextContent)
    (h : reads_back conv w t) (v : Int) (hv : 37 ≤ v) (t0 : TextContent) :
    read_fades conv (as_xml_text w t) v t0
      = .ok
        { t0 with
          _fade_in := match t._fade_in with
            | some f => some f
            | none => t0._fade_in
          _fade_out := match t._fade_out with
            | some f => some f
            | none => t0._fade_out } := by
  have h1 := as_xml_text_children w t conv h "FadeIn"
  have h2 := as_xml_text_children w t conv h "FadeOut"
  simp [colour_nodes_filter_ne, effect_colour_nodes_filter_ne] at h1 h2
  have hv37 : v ≥ 37 := hv
  unfold read_fades
  rw [if_pos hv37, if_pos hv37]
  cases hin : t._fade_in with
  | none =>
    rw [hin] at h1
    have e1 := Node.optional_number_child_nil _ conv.to_int _ h1
    cases hout : t._fade_out with
    | none =>
      rw [hout] at h2
      have e2 := Node.optional_number_child_nil _ conv.to_int _ h2
      simp only [e1, e2, bind, Except.bind, pure, Except.pure]
    | some g =>
      rw [hout] at h2
      have e2 := Node.optional_number_child_single _ conv.to_int _ _ h2
      simp only [e1, e2, bind, Except.bind, pure, Except.pure, Node.content,
        h.fade_out g hout]
  | some f =>
    rw [hin] at h1
    have e1 := Node.optional_number_child_single _ conv.to_int _ _ h1
    cases hout : t._fade_out with
    | none =>
      rw [hout] at h2
      have e2 := Node.optional_number_child_nil _ conv.to_int _ h2
      simp only [e1, e2, bind, Except.bind, pure, Except.pure, Node.content, h.fade_in f hin]
    | some g =>
      rw [hout] at h2
      have e2 := Node.optional_number_child_single _ conv.to_int _ _ h2
      simp only [e1, e2, bind, Except.bind, pure, Except.pure, Node.content, h.fade_in f hin,
        h.fade_out g hout]

/-- Reading `_language` and `_fonts` from what `as_xml` wrote. -/
theorem read_language_fonts_as_xml (conv : RawConvert) (w : RawWrite) (t : TextContent)
    (h : reads_back conv w t) (v : Int) (hv : 37 ≤ v) (t0 : TextContent) :
    read_language_fonts (as_xml_text w t) v t0
      = .ok { t0 with
          _language := t._language
          _fonts := t0._fonts ++ (font_nodes w t._fonts).map Font.mk } := by
  have h1 := as_xml_text_children w t conv h "Language"
  have h2 := as_xml_text_children w t conv h "Font"
  simp [colour_nodes_filter_ne, effect_colour_nodes_filter_ne] at h1 h2
  have hv37 : v ≥ 37 := hv
  have e1 := Node.optional_string_child_single _ _ _ h1
  unfold read_language_fonts
  rw [if_pos hv37]
  simp only [e1, h2, bind, Except.bind, pure, Except.pure, Node.content, Option.getD_some]

/-- Reading `_type` and `_original_type` from what `as_xml` wrote. -/
theorem read_type_as_xml (conv : RawConvert) (w : RawWrite) (t : TextContent)
    (h : reads_back conv w t) (v : Int) (hv : 37 ≤ v) (t0 : TextContent) :
    read_type (as_xml_text w t) v t0
      = .ok { t0 with _type := t._type, _original_type := t._original_type } := by
  have h1 := as_xml_text_children w t conv h "Type"
  have h2 := as_xml_text_children w t conv h "OriginalType"
  simp [colour_nodes_filter_ne, effect_colour_nodes_filter_ne] at h1 h2
  have hv37 : v ≥ 37 := hv
  have e1 := Node.optional_string_child_single _ _ _ h1
  have e2 := Node.optional_string_child_single _ _ _ h2
  unfold read_type
  rw [if_pos hv37]
  simp only [e1, e2, bind, Except.bind, pure, Except.pure, Node.content, Option.getD_some,
    h.type, h.original_type]

/-- Reading `_dcp_track` from what `as_xml` wrote. -/
theorem read_dcp_track_as_xml (conv : RawConvert) (w : RawWrite) (t : TextContent)
    (h : reads_back conv w t) (t0 : TextContent) :
    read_dcp_track conv (as_xml_text w t) t0
      = .ok { t0 with
          _dcp_track := match t._dcp_track with
            | some d => some d
            | none => t0._dcp_track } := by
  have h1 := as_xml_text_children w t conv h "DCPTrack"
  simp [colour_nodes_filter_ne, effect_colour_nodes_filter_ne] at h1
  cases hd : t._dcp_track with
  | none =>
    rw [hd] at h1
    have e1 := Node.optional_node_child_nil _ _ h1
    simp only [read_dcp_track, e1, bind, Except.bind, pure, Except.pure]
  | some d =>
    rw [hd] at h1
    have e1 := Node.optional_node_child_single _ _ _ h1
    simp only [read_dcp_track, e1, bind, Except.bind, pure, Except.pure, (h.dcp_track d hd).1]

end TextContent

namespace TextContent

/-- Loading, with metadata version 37 or later, the `<Text>` element that `as_xml` wrote gives
the TextContent back, except that `_effect` is always set (an unset effect is read as NONE)
and that the fonts are those read from the `<Font>` elements written. -/
theorem read_as_xml_text (conv : RawConvert) (w : RawWrite) (t : TextContent)
    (h : reads_back conv w t) (v : Int) (hv : 37 ≤ v) :
    read conv (as_xml_text w t) v = .ok
      { t with
        _effect := some (t._effect.getD .NONE)
        _fonts := (font_nodes w t._fonts).map Font.mk } := by
  unfold read
  simp only [bind, Except.bind, read_init_as_xml conv w t h,
    read_use_burn_as_xml conv w t h v hv, read_offsets_as_xml conv w t h v hv,
    read_effect_as_xml conv w t h, read_scale_as_xml conv w t h v hv,
    read_colour_as_xml conv w t h, read_effect_colour_as_xml conv w t h v hv,
    read_fades_as_xml conv w t h v hv, read_language_fonts_as_xml conv w t h v hv,
    read_type_as_xml conv w t h v hv, read_dcp_track_as_xml conv w t h]
  obtain ⟨_use, _burn, _x_offset, _y_offset, _x_scale, _y_scale, _fonts, _language, _colour,
    _effect, _effect_colour, _line_spacing, _fade_in, _fade_out, _outline_width, _type,
    _original_type, _dcp_track⟩ := t
  cases _colour <;> cases _effect_colour <;> cases _fade_in <;> cases _fade_out <;>
    cases _dcp_track <;> simp

/-- Loading a content node whose only child is the `<Text>` element that `as_xml` added. -/
theorem from_xml_single_text (conv : RawConvert) (name content : String) (text : Node)
    (htext : text.name = "Text") (v : Int) (hv : 37 ≤ v) (t1 : TextContent)
    (h : read conv text v = .ok t1) :
    from_xml conv (.mk name content [text]) v = .ok [t1] := by
  have h34 : ¬ v < 34 := by omega
  have h37 : ¬ v < 37 := by omega
  have hc : (Node.mk name content [text]).node_children "Text" = [text] := by
    simp [Node.node_children, Node.children, htext]
  have e1 := Node.optional_node_child_single _ _ _ hc
  simp only [from_xml, old_ffmpeg_without_streams, if_neg h34, if_neg h37, pure, Except.pure,
    e1, hc]
  simp only [List.mapM, List.mapM.loop, h, bind, Except.bind, pure, Except.pure,
    List.reverse_cons, List.reverse_nil, List.nil_append]

/-- The conversions of the examples read back what they write for `sample_text_with_effect`
and for `sample_text_without_effect`. -/
theorem sample_reads_back :
    reads_back sample_convert sample_write sample_text_with_effect ∧
    reads_back sample_convert sample_write sample_text_without_effect := by
  have hq1 : sample_convert.to_double (sample_write.of_double (1 / 4)) = 1 / 4 := by
    simp [sample_convert, sample_write]
  have hq2 : sample_convert.to_double (sample_write.of_double (-1 / 2)) = -1 / 2 := by
    norm_num [sample_convert, sample_write]
    decide
  have hq3 : sample_convert.to_double (sample_write.of_double 1) = 1 := by
    norm_num [sample_convert, sample_write]
    simp
  have hi1 : sample_convert.to_int (sample_write.of_int 255) = 255 := by
    simp [sample_convert, sample_write]
  have hi2 : sample_convert.to_int (sample_write.of_int 0) = 0 := by
    simp [sample_convert, sample_write]
  constructor
  · exact
      { bool_true := by decide, bool_false := by decide
        x_offset := hq1, y_offset := hq2, x_scale := hq3, y_scale := hq3, line_spacing := hq3
        outline_width := hi2
        colour := fun c hc => by
          cases hc
          exact ⟨hi1, hi1, hi1⟩
        effect_colour := fun c hc => by cases hc
        fade_in := fun f hf => by cases hf
        fade_out := fun f hf => by cases hf
        type := by decide
        original_type := by decide
        dcp_track := fun d hd => by
          cases hd
          exact ⟨rfl, rfl⟩
        fonts := fun f hf => by cases hf }
  · exact
      { bool_true := by decide, bool_false := by decide
        x_offset := hq1, y_offset := hq2, x_scale := hq3, y_scale := hq3, line_spacing := hq3
        outline_width := hi2
        colour := fun c hc => by
          cases hc
          exact ⟨hi1, hi1, hi1⟩
        effect_colour := fun c hc => by cases hc
        fade_in := fun f hf => by cases hf
        fade_out := fun f hf => by cases hf
        type := by decide
        original_type := by decide
        dcp_track := fun d hd => by
          cases hd
          exact ⟨rfl, rfl⟩
        fonts := fun f hf => by cases hf }

end TextContent

namespace TextContent

/-- C25, the code at the failing input: `sample_text_without_effect` has `_effect` unset (as
after `unset_effect`), so `as_xml` writes no `Effect` tag; loading the element with version 37
gives a TextContent whose `_effect` is set, to NONE, while the other optional members that were
unset (`_effect_colour`, `_fade_in`, `_fade_out`) come back unset. -/
theorem as_xml_unset_effect_loads_as_none :
    reads_back sample_convert sample_write sample_text_without_effect ∧
    sample_text_without_effect._effect = none ∧
    (as_xml_text sample_write sample_text_without_effect).node_children "Effect" = [] ∧
    ∃ t1, read sample_convert (as_xml_text sample_write sample_text_without_effect) 37
        = .ok t1 ∧
      from_xml sample_convert
        (as_xml sample_write sample_text_without_effect (.mk "Content" "" [])) 37 = .ok [t1] ∧
      t1._effect = some .NONE ∧
      t1._effect ≠ sample_text_without_effect._effect ∧
      t1._effect_colour = none ∧ t1._fade_in = none ∧ t1._fade_out = none := by
  have hr := read_as_xml_text sample_convert sample_write sample_text_without_effect
    sample_reads_back.2 37 (by decide)
  refine ⟨sample_reads_back.2, rfl, ?_, _, hr, ?_, rfl, fun e => ?_, rfl, rfl, rfl⟩
  · have hc := as_xml_text_children sample_write sample_text_without_effect sample_convert
      sample_reads_back.2 "Effect"
    simp [colour_nodes_filter_ne, effect_colour_nodes_filter_ne] at hc
    exact hc
  · exact from_xml_single_text sample_convert "Content" ""
      (as_xml_text sample_write sample_text_without_effect) rfl 37 (by decide) _ hr
  · cases e

/-- The members other than the effect come back as written: loading with metadata version 37
or later the `<Text>` element written by `as_xml` (the conversions to and from text reading
back what they write) yields a TextContent equal to the written one in use, burn, x_offset,
y_offset, x_scale, y_scale, language, colour, effect_colour, line_spacing, fade_in, fade_out,
outline_width, type, original_type and dcp_track, set or unset as they were; the effect comes
back as written only if it was set. -/
theorem as_xml_round_trip (conv : RawConvert) (w : RawWrite) (t : TextContent) (v : Int)
    (hv : 37 ≤ v) (h : reads_back conv w t) :
    ∃ t1, read conv (as_xml_text w t) v = .ok t1 ∧
      (∀ name content, from_xml conv (as_xml w t (.mk name content [])) v = .ok [t1]) ∧
      t1._use = t._use ∧ t1._burn = t._burn ∧ t1._x_offset = t._x_offset ∧
      t1._y_offset = t._y_offset ∧ t1._x_scale = t._x_scale ∧ t1._y_scale = t._y_scale ∧
      t1._language = t._language ∧ t1._colour = t._colour ∧
      t1._effect_colour = t._effect_colour ∧ t1._line_spacing = t._line_spacing ∧
      t1._fade_in = t._fade_in ∧ t1._fade_out = t._fade_out ∧
      t1._outline_width = t._outline_width ∧ t1._type = t._type ∧
      t1._original_type = t._original_type ∧ t1._dcp_track = t._dcp_track ∧
      t1._effect = some (t._effect.getD .NONE) ∧
      (∀ e, t._effect = some e → t1._effect = t._effect) := by
  have hr := read_as_xml_text conv w t h v hv
  refine ⟨_, hr, fun name content => ?_, rfl, rfl, rfl, rfl, rfl, rfl, rfl, rfl, rfl, rfl, rfl,
    rfl, rfl, rfl, rfl, rfl, rfl, fun e he => ?_⟩
  · exact from_xml_single_text conv name content (as_xml_text w t) rfl v hv _ hr
  · show some (t._effect.getD .NONE) = t._effect
    rw [he]
    rfl

/-- An instance of `as_xml_round_trip`: `sample_text_with_effect`, written and loaded with
version 37, comes back with its use flag, colour, BORDER effect and DCP track. -/
theorem as_xml_round_trip_witness :
    (37 : Int) ≤ 37 ∧ reads_back sample_convert sample_write sample_text_with_effect ∧
    ∃ t1, read sample_convert (as_xml_text sample_write sample_text_with_effect) 37 = .ok t1 ∧
      t1._use = true ∧ t1._colour = some ⟨255, 255, 255⟩ ∧ t1._effect = some .BORDER ∧
      t1._dcp_track = some ⟨0⟩ := by
  obtain ⟨t1, h1, _, hu, _, _, _, _, _, _, hc, _, _, _, _, _, _, _, hd, he, _⟩ :=
    as_xml_round_trip sample_convert sample_write sample_text_with_effect 37 (by decide)
      sample_reads_back.1
  exact ⟨by decide, sample_reads_back.1, t1, h1, hu, hc, he, hd⟩

end TextContent

/-! ### The arithmetic of `double` in `process_content_image_subtitles` -/

/-- The unit in the last place is positive. -/
theorem ulp_pos (q : ℚ) : 0 < ulp q := by
  unfold ulp
  positivity

/-- The unit in the last place of `q` is at most |q| / 2^52. -/
theorem ulp_le (q : ℚ) (hq : q ≠ 0) : ulp q ≤ |q| / 2 ^ 52 := by
  have h := Int.zpow_log_le_self (R := ℚ) (b := 2) (r := |q|) (by norm_num) (abs_pos.mpr hq)
  have h2 : ((2 : ℕ) : ℚ) = 2 := by norm_num
  rw [h2] at h
  unfold ulp
  rw [zpow_sub₀ (by norm_num : (2 : ℚ) ≠ 0)]
  have h52 : (2 : ℚ) ^ (52 : Int) = 2 ^ 52 := by norm_num
  rw [h52]
  exact div_le_div_of_nonneg_right h (by positivity)

/-- Rounding to `double` changes a value by at most 2^-53 of its magnitude. -/
theorem round_double_close (q : ℚ) : |round_double q - q| ≤ |q| / 2 ^ 53 := by
  by_cases hq : q = 0
  · subst hq
    simp [round_double]
  · have hu := ulp_pos q
    have hle := ulp_le q hq
    have e : q = q / ulp q * ulp q := by
      field_simp
    have hr := Player.rint_close (q / ulp q)
    unfold round_double
    rw [if_neg hq]
    have e2 : (rint (q / ulp q) : ℚ) * ulp q - q
        = ((rint (q / ulp q) : ℚ) - q / ulp q) * ulp q := by
      rw [sub_mul, ← e]
    rw [e2, abs_mul, abs_of_pos hu]
    calc |(rint (q / ulp q) : ℚ) - q / ulp q| * ulp q
        ≤ 1 / 2 * ulp q := mul_le_mul_of_nonneg_right hr (le_of_lt hu)
      _ ≤ 1 / 2 * (|q| / 2 ^ 52) := mul_le_mul_of_nonneg_left hle (by norm_num)
      _ = |q| / 2 ^ 53 := by ring

/-- A rounded value approximates what its argument approximates, with the rounding error of
that magnitude added. -/
theorem round_double_approx (v q ε M B : ℚ) (h : |v - q| ≤ ε) (hM : |q| ≤ M)
    (hB : ε + (M + ε) / 2 ^ 53 ≤ B) : |round_double v - q| ≤ B := by
  have h1 := round_double_close v
  have hv : |v| ≤ M + ε := by
    have : |v| ≤ |q| + |v - q| := by
      have := abs_add q (v - q)
      simpa using this
    linarith
  have h2 : |round_double v - q| ≤ |round_double v - v| + |v - q| := by
    have := abs_add (round_double v - v) (v - q)
    simpa using this
  have h3 : |v| / 2 ^ 53 ≤ (M + ε) / 2 ^ 53 := div_le_div_of_nonneg_right hv (by positivity)
  linarith

/-- A number with a significand of at most 53 bits is a `double`: rounding leaves it as it
is. -/
theorem round_double_dyadic (m k : Int) (hm : |m| < 2 ^ 53) :
    round_double ((m : ℚ) * (2 : ℚ) ^ k) = (m : ℚ) * (2 : ℚ) ^ k := by
  by_cases h0 : m = 0
  · subst h0
    simp [round_double]
  · have hpos : (0 : ℚ) < (2 : ℚ) ^ k := by positivity
    have hq0 : (m : ℚ) * (2 : ℚ) ^ k ≠ 0 :=
      mul_ne_zero (by exact_mod_cast h0) (ne_of_gt hpos)
    have habs : |(m : ℚ) * (2 : ℚ) ^ k| = |(m : ℚ)| * (2 : ℚ) ^ k := by
      rw [abs_mul, abs_of_pos hpos]
    have hlog := Int.zpow_log_le_self (R := ℚ) (b := 2) (r := |(m : ℚ) * (2 : ℚ) ^ k|)
      (by norm_num) (abs_pos.mpr hq0)
    have h2 : ((2 : ℕ) : ℚ) = 2 := by norm_num
    rw [h2] at hlog
    have hmq : |(m : ℚ)| < 2 ^ (53 : Int) := by
      have : ((|m| : Int) : ℚ) < ((2 ^ 53 : Int) : ℚ) := by exact_mod_cast hm
      rw [Int.cast_abs] at this
      have e : ((2 ^ 53 : Int) : ℚ) = 2 ^ (53 : Int) := by norm_num
      rw [e] at this
      exact this
    have hlt : |(m : ℚ) * (2 : ℚ) ^ k| < (2 : ℚ) ^ (53 + k) := by
      rw [habs, zpow_add₀ (by norm_num : (2 : ℚ) ≠ 0)]
      exact mul_lt_mul_of_pos_right hmq hpos
    have hlt2 : (2 : ℚ) ^ Int.log 2 |(m : ℚ) * (2 : ℚ) ^ k| < (2 : ℚ) ^ (53 + k) :=
      lt_of_le_of_lt hlog hlt
    have he : Int.log 2 |(m : ℚ) * (2 : ℚ) ^ k| < 53 + k :=
      (zpow_lt_zpow_iff_right₀ (by norm_num : (1 : ℚ) < 2)).mp hlt2
    obtain ⟨j, hj⟩ : ∃ j : ℕ, k - (Int.log 2 |(m : ℚ) * (2 : ℚ) ^ k| - 52) = j :=
      Int.eq_ofNat_of_zero_le (by omega)
    have hdiv : (m : ℚ) * (2 : ℚ) ^ k / ulp ((m : ℚ) * (2 : ℚ) ^ k)
        = ((m * 2 ^ j : Int) : ℚ) := by
      unfold ulp
      push_cast
      rw [mul_div_assoc, ← zpow_sub₀ (by norm_num : (2 : ℚ) ≠ 0), hj, zpow_natCast]
    unfold round_double
    rw [if_neg hq0, hdiv, Player.rint_intCast]
    push_cast
    unfold ulp
    rw [mul_assoc, ← zpow_natCast, ← hj, ← zpow_add₀ (by norm_num : (2 : ℚ) ≠ 0)]
    congr 2
    ring

/-- An integer of magnitude below 2^53 is a `double`. -/
theorem round_double_int (n : Int) (hn : |n| < 2 ^ 53) : round_double (n : ℚ) = n := by
  have h := round_double_dyadic n 0 hn
  simpa using h

/-- The `double` nearest to `q`, from the binade of `q` and the integer nearest to its
significand. -/
theorem round_double_eq (q : ℚ) (e m : Int) (h1 : (2 : ℚ) ^ e ≤ |q|) (h2 : |q| < (2 : ℚ) ^ (e + 1))
    (hm : |q / (2 : ℚ) ^ (e - 52) - m| < 1 / 2) :
    round_double q = (m : ℚ) * (2 : ℚ) ^ (e - 52) := by
  have hpos : 0 < |q| := lt_of_lt_of_le (by positivity) h1
  have hq : q ≠ 0 := abs_pos.mp hpos
  have h2n : ((2 : ℕ) : ℚ) = 2 := by norm_num
  have hlog : Int.log 2 |q| = e := by
    apply le_antisymm
    · have := (Int.lt_zpow_iff_log_lt (R := ℚ) (b := 2) (by norm_num) hpos (x := e + 1)).mp
        (by rw [h2n]; exact h2)
      omega
    · exact (Int.zpow_le_iff_le_log (R := ℚ) (b := 2) (by norm_num) hpos).mp
        (by rw [h2n]; exact h1)
  have hr : rint (q / (2 : ℚ) ^ (e - 52)) = m := by
    have hc := Player.rint_close (q / (2 : ℚ) ^ (e - 52))
    have hlt : |((rint (q / (2 : ℚ) ^ (e - 52)) : Int) : ℚ) - m| < 1 := by
      have := abs_add ((rint (q / (2 : ℚ) ^ (e - 52)) : ℚ) - q / (2 : ℚ) ^ (e - 52))
        (q / (2 : ℚ) ^ (e - 52) - m)
      have e3 : ((rint (q / (2 : ℚ) ^ (e - 52)) : ℚ) - q / (2 : ℚ) ^ (e - 52))
          + (q / (2 : ℚ) ^ (e - 52) - m) = (rint (q / (2 : ℚ) ^ (e - 52)) : ℚ) - m := by ring
      rw [e3] at this
      linarith
    have hlt2 : |rint (q / (2 : ℚ) ^ (e - 52)) - m| < 1 := by
      have : ((|rint (q / (2 : ℚ) ^ (e - 52)) - m| : Int) : ℚ) < ((1 : Int) : ℚ) := by
        push_cast
        exact hlt
      exact_mod_cast this
    have := Int.abs_lt_one_iff.mp hlt2
    omega
  unfold round_double ulp
  rw [if_neg hq, hlog, hr]

namespace Player

/-- The `double` value of W x ((x + offset) + w x (1 - s) / 2) is within 2^-20 of
W x (x + w x (1 - s) / 2) + W x offset. -/
theorem double_position_close (x ox w s : ℚ) (W : Int) (hx : |x| ≤ 16) (hox : |ox| ≤ 16)
    (hw : |w| ≤ 16) (hs : |s| ≤ 16) (hW : |(W : ℚ)| ≤ 2 ^ 20) :
    |round_double (W * round_double (round_double (x + ox)
        + round_double (round_double (w * round_double (1 - s)) / 2)))
      - (W * (x + w * (1 - s) / 2) + W * ox)| ≤ 1 / 2 ^ 20 := by
  have hMa : |x + ox| ≤ 32 := (abs_add x ox).trans (by linarith)
  have ha : |round_double (x + ox) - (x + ox)| ≤ 1 / 2 ^ 48 :=
    round_double_approx _ _ 0 32 _ (by simp) hMa (by norm_num)
  have hMd : |1 - s| ≤ 32 := by
    have h := abs_sub (1 : ℚ) s
    have h1 : |(1 : ℚ)| = 1 := abs_one
    linarith
  have hd : |round_double (1 - s) - (1 - s)| ≤ 1 / 2 ^ 48 :=
    round_double_approx _ _ 0 32 _ (by simp) hMd (by norm_num)
  have hMp : |w * (1 - s)| ≤ 512 := by
    rw [abs_mul]
    calc |w| * |1 - s| ≤ 16 * 32 := mul_le_mul hw hMd (abs_nonneg _) (by norm_num)
      _ = 512 := by norm_num
  have hp0 : |w * round_double (1 - s) - w * (1 - s)| ≤ 1 / 2 ^ 44 := by
    rw [← mul_sub, abs_mul]
    calc |w| * |round_double (1 - s) - (1 - s)| ≤ 16 * (1 / 2 ^ 48) :=
          mul_le_mul hw hd (abs_nonneg _) (by norm_num)
      _ = 1 / 2 ^ 44 := by norm_num
  have hp : |round_double (w * round_double (1 - s)) - w * (1 - s)| ≤ 3 / 2 ^ 44 :=
    round_double_approx _ _ (1 / 2 ^ 44) 512 _ hp0 hMp (by norm_num)
  have hh0 : |round_double (w * round_double (1 - s)) / 2 - w * (1 - s) / 2| ≤ 3 / 2 ^ 45 := by
    rw [← sub_div, abs_div]
    have h2 : |(2 : ℚ)| = 2 := abs_of_pos (by norm_num)
    rw [h2]
    calc |round_double (w * round_double (1 - s)) - w * (1 - s)| / 2 ≤ 3 / 2 ^ 44 / 2 :=
          div_le_div_of_nonneg_right hp (by norm_num)
      _ = 3 / 2 ^ 45 := by norm_num
  have hMh : |w * (1 - s) / 2| ≤ 256 := by
    rw [abs_div]
    have h2 : |(2 : ℚ)| = 2 := abs_of_pos (by norm_num)
    rw [h2]
    calc |w * (1 - s)| / 2 ≤ 512 / 2 := div_le_div_of_nonneg_right hMp (by norm_num)
      _ = 256 := by norm_num
  have hh : |round_double (round_double (w * round_double (1 - s)) / 2) - w * (1 - s) / 2|
      ≤ 5 / 2 ^ 45 :=
    round_double_approx _ _ (3 / 2 ^ 45) 256 _ hh0 hMh (by norm_num)
  have hg0 : |round_double (x + ox) + round_double (round_double (w * round_double (1 - s)) / 2)
      - ((x + ox) + w * (1 - s) / 2)| ≤ 6 / 2 ^ 45 := by
    have e : round_double (x + ox) + round_double (round_double (w * round_double (1 - s)) / 2)
        - ((x + ox) + w * (1 - s) / 2)
        = (round_double (x + ox) - (x + ox))
          + (round_double (round_double (w * round_double (1 - s)) / 2) - w * (1 - s) / 2) := by
      ring
    rw [e]
    refine (abs_add _ _).trans ?_
    have : (1 : ℚ) / 2 ^ 48 + 5 / 2 ^ 45 ≤ 6 / 2 ^ 45 := by norm_num
    linarith
  have hMg : |(x + ox) + w * (1 - s) / 2| ≤ 512 :=
    (abs_add _ _).trans (by linarith)
  have hg : |round_double (round_double (x + ox)
        + round_double (round_double (w * round_double (1 - s)) / 2))
      - ((x + ox) + w * (1 - s) / 2)| ≤ 9 / 2 ^ 45 :=
    round_double_approx _ _ (6 / 2 ^ 45) 512 _ hg0 hMg (by norm_num)
  have hf0 : |(W : ℚ) * round_double (round_double (x + ox)
        + round_double (round_double (w * round_double (1 - s)) / 2))
      - W * ((x + ox) + w * (1 - s) / 2)| ≤ 9 / 2 ^ 25 := by
    rw [← mul_sub, abs_mul]
    calc |(W : ℚ)| * |round_double (round_double (x + ox)
            + round_double (round_double (w * round_double (1 - s)) / 2))
          - ((x + ox) + w * (1 - s) / 2)| ≤ 2 ^ 20 * (9 / 2 ^ 45) :=
          mul_le_mul hW hg (abs_nonneg _) (by norm_num)
      _ = 9 / 2 ^ 25 := by norm_num
  have hMf : |(W : ℚ) * ((x + ox) + w * (1 - s) / 2)| ≤ 2 ^ 29 := by
    rw [abs_mul]
    calc |(W : ℚ)| * |(x + ox) + w * (1 - s) / 2| ≤ 2 ^ 20 * 512 :=
          mul_le_mul hW hMg (abs_nonneg _) (by norm_num)
      _ = 2 ^ 29 := by norm_num
  have e : (W : ℚ) * (x + w * (1 - s) / 2) + W * ox = W * ((x + ox) + w * (1 - s) / 2) := by
    ring
  rw [e]
  exact round_double_approx _ _ (9 / 2 ^ 25) (2 ^ 29) _ hf0 hMf (by norm_num)

/-- What `process_content_image_subtitles_double` makes of a single subtitle with an image. -/
theorem process_content_image_subtitles_double_single (p : Player) (content : Content)
    (image : Image) (rect : Rect) :
    process_content_image_subtitles_double p content [⟨some image, rect⟩] =
      [⟨⟨image.pixel_format,
          ⟨trunc (round_double (round_double (rect.width * p._video_container_size.width)
              * content.subtitle_scale)),
           trunc (round_double (round_double (rect.height * p._video_container_size.height)
              * content.subtitle_scale))⟩,
          true, .scaled image.data image.size "bicubic"⟩,
        ⟨rint (round_double (p._video_container_size.width
            * round_double (round_double (rect.x + content.subtitle_x_offset)
              + round_double (round_double (rect.width
                  * round_double (1 - content.subtitle_scale)) / 2)))),
         rint (round_double (p._video_container_size.height
            * round_double (round_double (rect.y + content.subtitle_y_offset)
              + round_double (round_double (rect.height
                  * round_double (1 - content.subtitle_scale)) / 2))))⟩⟩] := by
  rfl

end Player

namespace Player

/-- A value that is a number with a significand of at most 53 bits is left as it is by the
rounding to `double`. -/
theorem round_double_fixed (q : ℚ) (m k : Int) (hm : |m| < 2 ^ 53)
    (h : q = (m : ℚ) * (2 : ℚ) ^ k) : round_double q = q := by
  rw [h]
  exact round_double_dyadic m k hm

/-- The nearest integer to a value within less than a half of an integer. -/
theorem rint_eq_of_close (q : ℚ) (n : Int) (h : |q - n| < 1 / 2) : rint q = n := by
  have hc := rint_close q
  have hlt : |((rint q : Int) : ℚ) - n| < 1 := by
    have h1 := abs_add ((rint q : ℚ) - q) (q - n)
    have e : ((rint q : ℚ) - q) + (q - n) = (rint q : ℚ) - n := by ring
    rw [e] at h1
    linarith
  have hlt2 : |rint q - n| < 1 := by
    have : ((|rint q - n| : Int) : ℚ) < ((1 : Int) : ℚ) := by
      push_cast
      exact hlt
    exact_mod_cast this
  have := Int.abs_lt_one_iff.mp hlt2
  omega

end Player

namespace Player

/-- The code at an input where the rounding of `double` shows: in a 1998 x 1080 container, a
subtitle whose x and width are the `double`s nearest to 800/1920 and 320/1920, with scale 1
and no offsets, is scaled to the width 333 and placed at x = 832.  The product of the width
and 1998 is slightly below 333, and is rounded to the `double` 333; the product of x and 1998
is slightly above 832.5, and is rounded to the `double` 832.5, whose nearest integer, the tie
going to the even neighbour, is 832.  In exact arithmetic the same expressions give 332 and
833. -/
theorem process_content_image_subtitles_double_sample :
    process_content_image_subtitles_double sample_player_flat (sample_content .SubRip 24)
        [sample_image_subtitle_sixth]
      = [⟨⟨"PIX_FMT_RGBA", ⟨333, 0⟩, true, .scaled (.decoded 5) ⟨320, 80⟩ "bicubic"⟩,
          ⟨832, 0⟩⟩] ∧
    trunc ((6004799503160661 / 2 ^ 55 : ℚ) * 1998 * 1) = 332 ∧
    rint ((1998 : ℚ) * (7505999378950827 / 2 ^ 54
      + 6004799503160661 / 2 ^ 55 * (1 - 1) / 2)) = 833 := by
  refine ⟨?_, ?_, rint_eq_of_close _ 833 (by norm_num [abs_lt])⟩
  · have z : ∀ q : ℚ, q = 0 → round_double q = 0 := by
      intro q hq
      rw [hq]
      simp [round_double]
    have a1 : round_double ((7505999378950827 / 2 ^ 54 : ℚ) + 0) = 7505999378950827 / 2 ^ 54 :=
      (round_double_fixed _ 7505999378950827 (-54) (by norm_num) (by norm_num)).trans
        (by norm_num)
    have a2 : round_double ((1 : ℚ) - 1) = 0 := z _ (by norm_num)
    have a3 : round_double ((6004799503160661 / 2 ^ 55 : ℚ) * 0) = 0 := z _ (by norm_num)
    have a4 : round_double ((0 : ℚ) / 2) = 0 := z _ (by norm_num)
    have a5 : round_double (((1998 : Int) : ℚ) * (7505999378950827 / 2 ^ 54)) = 1665 / 2 := by
      rw [round_double_eq _ 9 7322747440988160
        (le_trans (by norm_num) (le_abs_self _)) (by norm_num [abs_lt])
        (by norm_num [abs_lt])]
      norm_num
    have a6 : rint (1665 / 2 : ℚ) = 832 := by
      have hf : ⌊(1665 / 2 : ℚ)⌋ = 832 := floor_eq_of_bounds _ 832 (by norm_num) (by norm_num)
      have hfr : Int.fract (1665 / 2 : ℚ) = 1 / 2 := by
        unfold Int.fract
        rw [hf]
        norm_num
      unfold rint
      rw [hfr, hf]
      norm_num
    have b1 : round_double ((6004799503160661 / 2 ^ 55 : ℚ) * ((1998 : Int) : ℚ)) = 333 := by
      rw [round_double_eq _ 8 5858197952790528
        (le_trans (by norm_num) (le_abs_self _)) (by norm_num [abs_lt])
        (by norm_num [abs_lt])]
      norm_num
    have b2 : round_double ((333 : ℚ) * 1) = ((333 : Int) : ℚ) :=
      (round_double_fixed _ 333 0 (by norm_num) (by norm_num)).trans (by norm_num)
    have c1 : round_double ((0 : ℚ) + 0) = 0 := z _ (by norm_num)
    have c2 : round_double ((0 : ℚ) * 0) = 0 := z _ (by norm_num)
    have c3 : round_double ((0 : ℚ) * ((1080 : Int) : ℚ)) = 0 := z _ (by norm_num)
    have c4 : round_double ((0 : ℚ) * 1) = ((0 : Int) : ℚ) := z _ (by norm_num)
    have c5 : round_double (((1080 : Int) : ℚ) * 0) = ((0 : Int) : ℚ) := z _ (by norm_num)
    rw [show sample_image_subtitle_sixth
        = ⟨some ⟨"PIX_FMT_RGBA", ⟨320, 80⟩, true, .decoded 5⟩,
            ⟨7505999378950827 / 2 ^ 54, 0, 6004799503160661 / 2 ^ 55, 0⟩⟩
      from rfl, process_content_image_subtitles_double_single]
    simp only [sample_content, sample_player_flat, create, set_video_container_size,
      a1, a2, a3, a4, a5, a6, b1, b2, c1, c2, c3, c4, c5, trunc_intCast, rint_intCast]
  · have hf : ⌊((6004799503160661 / 2 ^ 55 : ℚ) * 1998 * 1)⌋ = 332 :=
      floor_eq_of_bounds _ 332 (by norm_num) (by norm_num)
    unfold trunc
    rw [if_pos (by norm_num), hf]

end Player

namespace Player

/-- The nearest integer to a value at or above an integer is at or above it. -/
theorem le_rint (z : ℚ) (k : Int) (h : (k : ℚ) ≤ z) : k ≤ rint z := by
  have hf : k ≤ ⌊z⌋ := Int.le_floor.mpr h
  unfold rint
  split
  · exact hf
  · split
    · omega
    · split <;> omega

/-- The nearest integer to a value at or below an integer is at or below it. -/
theorem rint_le (z : ℚ) (k : Int) (h : z ≤ (k : ℚ)) : rint z ≤ k := by
  have hfl : (⌊z⌋ : ℚ) ≤ z := Int.floor_le z
  have hf : ⌊z⌋ ≤ k := by
    have : ((⌊z⌋ : Int) : ℚ) ≤ (k : ℚ) := le_trans hfl h
    exact_mod_cast this
  by_cases hfr : Int.fract z < 1 / 2
  · unfold rint
    rw [if_pos hfr]
    exact hf
  · have hpos : 0 < Int.fract z := lt_of_lt_of_le (by norm_num) (not_lt.mp hfr)
    have hlt : (⌊z⌋ : ℚ) < z := by
      have := Int.floor_add_fract z
      linarith
    have hf1 : ⌊z⌋ < k := by
      have : ((⌊z⌋ : Int) : ℚ) < (k : ℚ) := lt_of_lt_of_le hlt h
      exact_mod_cast this
    unfold rint
    rw [if_neg hfr]
    split
    · omega
    · split <;> omega

/-- For a value of magnitude below 2^53 the unit in the last place is 2^-j for a natural
number j. -/
theorem ulp_eq_inv_pow (y : ℚ) (hy0 : y ≠ 0) (hy : |y| < 2 ^ 53) :
    ∃ j : ℕ, ulp y = 1 / 2 ^ j := by
  have hlog := Int.zpow_log_le_self (R := ℚ) (b := 2) (r := |y|) (by norm_num)
    (abs_pos.mpr hy0)
  have h2 : ((2 : ℕ) : ℚ) = 2 := by norm_num
  rw [h2] at hlog
  have hlt : (2 : ℚ) ^ Int.log 2 |y| < (2 : ℚ) ^ (53 : Int) := by
    have e : (2 : ℚ) ^ (53 : Int) = 2 ^ 53 := by norm_num
    rw [e]
    exact lt_of_le_of_lt hlog hy
  have he : Int.log 2 |y| < 53 := (zpow_lt_zpow_iff_right₀ (by norm_num : (1 : ℚ) < 2)).mp hlt
  obtain ⟨j, hj⟩ : ∃ j : ℕ, 52 - Int.log 2 |y| = j := Int.eq_ofNat_of_zero_le (by omega)
  refine ⟨j, ?_⟩
  unfold ulp
  have e : Int.log 2 |y| - 52 = -(j : Int) := by omega
  rw [e, zpow_neg, zpow_natCast, one_div]

/-- Rounding to `double` does not cross an integer from above: a value of magnitude below
2^53 that is at least an integer is rounded to a `double` that is at least that integer. -/
theorem le_round_double (y : ℚ) (n : Int) (hy : |y| < 2 ^ 53) (h : (n : ℚ) ≤ y) :
    (n : ℚ) ≤ round_double y := by
  by_cases hy0 : y = 0
  · subst hy0
    simpa [round_double] using h
  · obtain ⟨j, hj⟩ := ulp_eq_inv_pow y hy0 hy
    unfold round_double
    rw [if_neg hy0, hj]
    have hpos : (0 : ℚ) < 2 ^ j := by positivity
    have hk : ((n * 2 ^ j : Int) : ℚ) ≤ y / (1 / 2 ^ j) := by
      push_cast
      rw [div_div_eq_mul_div, div_one]
      exact mul_le_mul_of_nonneg_right h (le_of_lt hpos)
    have hr := le_rint _ _ hk
    have hr2 : ((n * 2 ^ j : Int) : ℚ) ≤ (rint (y / (1 / 2 ^ j)) : ℚ) := by exact_mod_cast hr
    push_cast at hr2
    rw [mul_one_div, le_div_iff₀ hpos]
    exact hr2

/-- Rounding to `double` does not cross an integer from below. -/
theorem round_double_le (y : ℚ) (n : Int) (hy : |y| < 2 ^ 53) (h : y ≤ (n : ℚ)) :
    round_double y ≤ (n : ℚ) := by
  by_cases hy0 : y = 0
  · subst hy0
    simpa [round_double] using h
  · obtain ⟨j, hj⟩ := ulp_eq_inv_pow y hy0 hy
    unfold round_double
    rw [if_neg hy0, hj]
    have hpos : (0 : ℚ) < 2 ^ j := by positivity
    have hk : y / (1 / 2 ^ j) ≤ ((n * 2 ^ j : Int) : ℚ) := by
      push_cast
      rw [div_div_eq_mul_div, div_one]
      exact mul_le_mul_of_nonneg_right h (le_of_lt hpos)
    have hr := rint_le _ _ hk
    have hr2 : (rint (y / (1 / 2 ^ j)) : ℚ) ≤ ((n * 2 ^ j : Int) : ℚ) := by exact_mod_cast hr
    push_cast at hr2
    rw [mul_one_div, div_le_iff₀ hpos]
    exact hr2

/-- The truncation of a value between the floor of `y` and the next integer, equal to the
floor when `y` is an integer, is within less than one of `y`. -/
theorem trunc_near (y c : ℚ) (h1 : (⌊y⌋ : ℚ) ≤ c) (h2 : c ≤ (⌊y⌋ : ℚ) + 1)
    (h3 : y = (⌊y⌋ : ℚ) → c = (⌊y⌋ : ℚ)) : |((trunc c : Int) : ℚ) - y| < 1 := by
  have hy1 : (⌊y⌋ : ℚ) ≤ y := Int.floor_le y
  have hy2 : y < (⌊y⌋ : ℚ) + 1 := Int.lt_floor_add_one y
  have hfc : ⌊y⌋ ≤ ⌊c⌋ := Int.le_floor.mpr h1
  have hcc : ⌈c⌉ ≤ ⌊y⌋ + 1 := Int.ceil_le.mpr (by push_cast; exact h2)
  have hfc2 : ⌊c⌋ ≤ ⌈c⌉ := Int.floor_le_ceil c
  have hlo : ⌊y⌋ ≤ trunc c := by
    unfold trunc
    split <;> omega
  have hhi : trunc c ≤ ⌊y⌋ + 1 := by
    unfold trunc
    split <;> omega
  rcases lt_or_ge (trunc c) (⌊y⌋ + 1) with hlt | hge
  · have e : trunc c = ⌊y⌋ := by omega
    rw [e, abs_lt]
    constructor <;> linarith
  · have e : trunc c = ⌊y⌋ + 1 := by omega
    have hne : y ≠ (⌊y⌋ : ℚ) := by
      intro hyn
      have hc := h3 hyn
      have : trunc c = ⌊y⌋ := by
        rw [hc, trunc_intCast]
      omega
    have hgt : (⌊y⌋ : ℚ) < y := lt_of_le_of_ne hy1 (Ne.symm hne)
    rw [e, abs_lt]
    push_cast
    constructor <;> linarith

/-- The truncation of the `double` product w x W, multiplied by the scale 1, is within less
than a pixel of w x W. -/
theorem double_size_within_one (w : ℚ) (W : Int) (hw : |w| ≤ 16) (hW : |(W : ℚ)| ≤ 2 ^ 20) :
    |((trunc (round_double (round_double (w * W) * 1)) : Int) : ℚ) - w * W| < 1 := by
  have hM1 : |w * W| ≤ 2 ^ 24 := by
    rw [abs_mul]
    calc |w| * |(W : ℚ)| ≤ 16 * 2 ^ 20 := mul_le_mul hw hW (abs_nonneg _) (by norm_num)
      _ = 2 ^ 24 := by norm_num
  have hy : |w * W| < 2 ^ 53 := lt_of_le_of_lt hM1 (by norm_num)
  have hcl := round_double_close (w * W)
  have hM2 : |round_double (w * W)| < 2 ^ 53 := by
    have h1 : |round_double (w * W)| ≤ |round_double (w * W) - w * W| + |w * W| := by
      have := abs_add (round_double (w * W) - w * W) (w * W)
      simpa using this
    have h2 : |w * W| / 2 ^ 53 ≤ 2 ^ 24 / 2 ^ 53 :=
      div_le_div_of_nonneg_right hM1 (by positivity)
    have h3 : (2 : ℚ) ^ 24 / 2 ^ 53 + 2 ^ 24 < 2 ^ 53 := by norm_num
    linarith
  rw [mul_one]
  apply trunc_near
  · exact le_round_double _ _ hM2 (le_round_double _ _ hy (Int.floor_le _))
  · have h1 : w * W ≤ ((⌊w * (W : ℚ)⌋ + 1 : Int) : ℚ) := by
      push_cast
      exact le_of_lt (Int.lt_floor_add_one _)
    have h2 := round_double_le _ _ hM2 (round_double_le _ _ hy h1)
    push_cast at h2
    exact h2
  · intro hyn
    have ha : round_double (w * W) = (⌊w * (W : ℚ)⌋ : ℚ) :=
      le_antisymm (round_double_le _ _ hy (le_of_eq hyn))
        (le_round_double _ _ hy (Int.floor_le _))
    rw [ha]
    have hfl : |(⌊w * (W : ℚ)⌋ : ℚ)| < 2 ^ 53 := by
      rw [← hyn]
      exact hy
    exact le_antisymm (round_double_le _ _ hfl (le_refl _)) (le_round_double _ _ hfl (le_refl _))

/-- The statement of `placement_within_one_pixel` in the arithmetic of `double`: with subtitle
scale 1 and both offsets 0, for a rect of magnitude at most 16 in a container of at most 2^20
pixels each way, the destination rectangle that `process_content_image_subtitles_double` gives
has its origin and its size within less than one pixel of (W x r.x, H x r.y) and
(W x r.width, H x r.height). -/
theorem placement_within_one_pixel_double (p : Player) (content : Content) (image : Image)
    (rect : Rect) (hs : content.subtitle_scale = 1) (hx : content.subtitle_x_offset = 0)
    (hy : content.subtitle_y_offset = 0)
    (hrx : |rect.x| ≤ 16) (hry : |rect.y| ≤ 16) (hrw : |rect.width| ≤ 16)
    (hrh : |rect.height| ≤ 16)
    (hW : |(p._video_container_size.width : ℚ)| ≤ 2 ^ 20)
    (hH : |(p._video_container_size.height : ℚ)| ≤ 2 ^ 20) :
    ∃ out : PositionImage,
      process_content_image_subtitles_double p content [⟨some image, rect⟩] = [out] ∧
      |(out.position.x : ℚ) - p._video_container_size.width * rect.x| < 1 ∧
      |(out.position.y : ℚ) - p._video_container_size.height * rect.y| < 1 ∧
      |(out.image.size.width : ℚ) - p._video_container_size.width * rect.width| < 1 ∧
      |(out.image.size.height : ℚ) - p._video_container_size.height * rect.height| < 1 := by
  have tri : ∀ (a b c : ℚ), |a - c| ≤ |a - b| + |b - c| := by
    intro a b c
    have := abs_add (a - b) (b - c)
    have e : a - b + (b - c) = a - c := by ring
    rw [e] at this
    exact this
  have h16 : |(1 : ℚ)| ≤ 16 := by norm_num [abs_le]
  have h0 : |(0 : ℚ)| ≤ 16 := by norm_num
  have hcx := double_position_close rect.x 0 rect.width 1 p._video_container_size.width
    hrx h0 hrw h16 hW
  have hcy := double_position_close rect.y 0 rect.height 1 p._video_container_size.height
    hry h0 hrh h16 hH
  have ex : (p._video_container_size.width : ℚ) * (rect.x + rect.width * (1 - 1) / 2)
      + p._video_container_size.width * 0 = p._video_container_size.width * rect.x := by ring
  have ey : (p._video_container_size.height : ℚ) * (rect.y + rect.height * (1 - 1) / 2)
      + p._video_container_size.height * 0 = p._video_container_size.height * rect.y := by ring
  rw [ex] at hcx
  rw [ey] at hcy
  have hsw := double_size_within_one rect.width p._video_container_size.width hrw hW
  have hsh := double_size_within_one rect.height p._video_container_size.height hrh hH
  refine ⟨_, process_content_image_subtitles_double_single p content image rect, ?_, ?_, ?_, ?_⟩
  · rw [hs, hx]
    refine lt_of_le_of_lt ((tri _ _ _).trans (add_le_add (rint_close _) hcx)) (by norm_num)
  · rw [hs, hy]
    refine lt_of_le_of_lt ((tri _ _ _).trans (add_le_add (rint_close _) hcy)) (by norm_num)
  · rw [hs, mul_comm (p._video_container_size.width : ℚ) rect.width]
    exact hsw
  · rw [hs, mul_comm (p._video_container_size.height : ℚ) rect.height]
    exact hsh

end Player

end Dcpomatic
